import Mathlib

/-!
# go-api-reference: the event bus, its producers and their helpers

A shallow embedding of the packages `pkg/example`, `pkg/users`, `pkg/events`,
`internal/bus`, `internal/exampleservice`, `internal/adminservice`, `internal/requests`,
`internal/responses`, `internal/middleware` (permissions), `internal/cache` and
`internal/config`.

Conventions of the embedding:

* a Go `error` is a value of `GoError`; the nil error is `none : Option GoError`;
* a Go function returning `(T, error)` returns a pair `T × Option GoError` (Go
  returns both values, and the services do pass the first one through);
* a method with a pointer receiver takes the receiver's state and returns the new state;
* `time.Now().Unix()` is the argument `now`;
* `context.Context` and the `slog` records of the services carry no data flow and
  are left out; the records of `Bus.CloseAndDrain` and of `main` are kept in `System.log`;
* a panic is the error of an `Except`, or the field `panicValue` of what a handler leaves.
-/

namespace GoApiReference

/-! ## Go errors -/

/-- A Go `error` value.  `sentinel pkg name text` is the value of the package-level
variable `var name = errors.New(text)` of package `pkg`; `dynamic text` is an error made
while the program runs (by `errors.New` inside a function, or by a driver) and is
identical to no sentinel; `InvalidMessageError` is the struct of `exampleservice`. -/
inductive GoError where
  | sentinel (pkg name text : String)
  | dynamic (text : String)
  | InvalidMessageError (wrappedErr : GoError)
deriving DecidableEq, Repr

/-- The method `Error() string`. -/
def GoError.Error : GoError → String
  | .sentinel _ _ text => text
  | .dynamic text => text
  | .InvalidMessageError wrappedErr => "invalid message. error: " ++ wrappedErr.Error

/-- The call `errors.Is(err, target)` for a non-nil `err`: none of the error types of the
repository has an `Unwrap` or `Is` method, so it is the comparison `err == target`. -/
def errorsIs (err target : GoError) : Bool := decide (err = target)

/-! ## Go maps and slices -/

/-- A Go map with string keys: the list of its entries, each key at most once. -/
abbrev GoMap (α : Type) := List (String × α)

/-- The expression `v, ok := m[k]`. -/
def GoMap.get {α : Type} (m : GoMap α) (k : String) : Option α := List.lookup k m

/-- The statement `m[k] = v`. -/
def GoMap.set {α : Type} (m : GoMap α) (k : String) (v : α) : GoMap α :=
  (k, v) :: List.filter (fun kv => kv.1 != k) m

/-- The builtin `delete(m, k)`. -/
def GoMap.delete {α : Type} (m : GoMap α) (k : String) : GoMap α :=
  List.filter (fun kv => kv.1 != k) m

/-- A Go slice value: `none` is the nil slice. -/
abbrev Slice (α : Type) := Option (List α)

/-- The elements of a slice, as `range` visits them. -/
def Slice.elems {α : Type} (s : Slice α) : List α := s.getD []

/-- The builtin `append(s, x)`. -/
def Slice.append {α : Type} (s : Slice α) (x : α) : Slice α := some (Slice.elems s ++ [x])

/-- The expression `s[:0]`. -/
def Slice.resetLen {α : Type} (s : Slice α) : Slice α := s.map (fun _ => [])

/-! ## pkg/example -/

namespace pkgexample

/-- The Go declaration `type ExampleEvent string`. -/
abbrev ExampleEvent := String

def ExampleCreatedEvent : ExampleEvent := "ExampleCreated"
def ExampleUpdatedEvent : ExampleEvent := "ExampleUpdated"
def ExampleDeletedEvent : ExampleEvent := "ExampleDeleted"

/-- The struct `ExampleCreated`. -/
structure ExampleCreated where
  Id : String
deriving DecidableEq, Repr

def ExampleCreated.Name (_e : ExampleCreated) : ExampleEvent := ExampleCreatedEvent
def ExampleCreated.EntityId (e : ExampleCreated) : String := e.Id

/-- The struct `ExampleUpdated`. -/
structure ExampleUpdated where
  Id : String
deriving DecidableEq, Repr

def ExampleUpdated.Name (_e : ExampleUpdated) : ExampleEvent := ExampleUpdatedEvent
def ExampleUpdated.EntityId (e : ExampleUpdated) : String := e.Id

/-- The struct `ExampleDeleted`. -/
structure ExampleDeleted where
  Id : String
deriving DecidableEq, Repr

def ExampleDeleted.Name (_e : ExampleDeleted) : ExampleEvent := ExampleDeletedEvent
def ExampleDeleted.EntityId (e : ExampleDeleted) : String := e.Id

/-- The struct `Example`. -/
structure Example where
  UserId : String
  Id : String
  Message : String
deriving DecidableEq, Repr

def EmptyMessageError : GoError :=
  .sentinel "example" "EmptyMessageError" "message length must be greater than 0"

/-- Modelled from the spec: `CannotBeEmpty` is called by `New` and `SetMessage` but its
source file is not part of the sources at hand; it is taken as the test `msg != ""`, which is
what its name, the text of `EmptyMessageError` and the service tests say. -/
def CannotBeEmpty (msg : String) : Bool := msg != ""

def New (userId msg : String) : Example × Option GoError :=
  let ok := CannotBeEmpty msg
  if !ok then
    ({ UserId := "", Id := "", Message := "" }, some EmptyMessageError)
  else
    ({ UserId := userId, Id := "", Message := msg }, none)

def Nil : Example := { UserId := "", Id := "", Message := "" }

/-- The method `(e *Example) SetMessage(msg)`: the receiver after the call, and the error. -/
def Example.SetMessage (e : Example) (msg : String) : Example × Option GoError :=
  let ok := CannotBeEmpty msg
  if !ok then
    (e, some EmptyMessageError)
  else
    ({ e with Message := msg }, none)

end pkgexample

/-! ## pkg/users -/

namespace users

structure User where
  Id : String
deriving DecidableEq, Repr

def NewUserWithId (id : String) : User := { Id := id }

def Nil : User := { Id := "" }

end users

/-! ## pkg/events -/

namespace events

open pkgexample

/-- The interface `EventData`: the values it holds in this repository are the three payload
structs of `pkg/example`, the only types with the methods `Name` and `EntityId`. -/
inductive EventData where
  | ExampleCreated (d : pkgexample.ExampleCreated)
  | ExampleUpdated (d : pkgexample.ExampleUpdated)
  | ExampleDeleted (d : pkgexample.ExampleDeleted)
deriving DecidableEq, Repr

/-- Dynamic dispatch of `data.Name()`. -/
def EventData.Name : EventData → ExampleEvent
  | .ExampleCreated d => d.Name
  | .ExampleUpdated d => d.Name
  | .ExampleDeleted d => d.Name

/-- Dynamic dispatch of `data.EntityId()`. -/
def EventData.EntityId : EventData → String
  | .ExampleCreated d => d.EntityId
  | .ExampleUpdated d => d.EntityId
  | .ExampleDeleted d => d.EntityId

/-- The struct `Event`; `Data` is an interface field, `none` is the nil interface. -/
structure Event where
  Name : ExampleEvent
  UserId : String
  EntityId : String
  Timestamp : Int
  Data : Option EventData
deriving DecidableEq, Repr

/-- The function `NewEvent`; `now` is the value of `time.Now().Unix()`. -/
def NewEvent (now : Int) (userId : String) (data : EventData) : Event :=
  { Name := data.Name
    UserId := userId
    EntityId := data.EntityId
    Data := some data
    Timestamp := now }

/-- The function `Nil`, which is `Event{}`, the zero value of the struct. -/
def Nil : Event := { Name := "", UserId := "", EntityId := "", Timestamp := 0, Data := none }

end events

/-! ## internal/server: the log messages of the shutdown sequence -/

namespace server

def QueueShutdownSignalMsg : String := "QUEUE_SHUTDOWN_SIGNAL_RECEIVED"
def QueueShutdownCompleteMsg : String := "QUEUE_SHUTDOWN_COMPLETE"
def ProcessShutdownMsg : String := "PROCESS_SHUTDOWN_COMPLETE"

end server

/-! ## internal/bus

`Bus` runs on goroutines: the producers calling `Notify`, the dispatch loop `Listen`, one
goroutine per subscriber invocation, the orchestrator calling `CloseAndDrain` and the
goroutine waiting on the `WaitGroup`.  The embedding is a step function on `System`, the
state of all of them; a scheduler picks which goroutine moves (`Action`).  A goroutine that
cannot move (a blocked send, receive or select) leaves the state unchanged.  A panic is the
`Except.error` result of the call that panics; a producer whose `Notify` panics is kept in
`System.panicked` (its caller may recover, as `net/http` does for a handler), a panic of
the orchestrator or of a subscriber goroutine ends the run. -/

namespace bus

open events

def QUEUE_CLOSED : String := "QUEUE_CLOSED"

/-- The Go declaration `type Subscriber func(event events.Event) error`. -/
abbrev Subscriber := Event → Option GoError

abbrev Subscribers := List Subscriber

/-- A Go channel of events: its capacity, the buffered elements, the values of the senders
parked in `ch <- e` (oldest first) and the closed flag. -/
structure Chan where
  cap : Nat
  buf : List Event
  sendq : List Event
  closed : Bool
deriving DecidableEq, Repr

/-- The builtin `make(chan events.Event, cap)`. -/
def makeChan (cap : Nat) : Chan := { cap := cap, buf := [], sendq := [], closed := false }

/-- The statement `ch <- e`, up to the point where the sender returns or parks: a send on a
closed channel panics, a send with room in the buffer returns at once (`true`), any other
send parks the sender (`false`) until a receiver takes its value. -/
def Chan.send (c : Chan) (e : Event) : Except String (Chan × Bool) :=
  if c.closed then .error "send on closed channel"
  else if c.buf.length < c.cap then .ok ({ c with buf := c.buf ++ [e] }, true)
  else .ok ({ c with sendq := c.sendq ++ [e] }, false)

/-- What a receive that does not block yields: the value, the `ok` flag, the parked sender
(named by its value) whose send completed, and the channel afterwards. -/
structure Recv where
  v : Event
  ok : Bool
  woken : Option Event
  c : Chan
deriving DecidableEq, Repr

/-- The expression `<-ch`; `none` when the receiver blocks.  With a parked sender and an
empty buffer the value passes from the sender directly; a closed and empty channel yields
the zero value with `ok = false`. -/
def Chan.recv (c : Chan) : Option Recv :=
  match c.buf, c.sendq with
  | [], [] => if c.closed then some ⟨events.Nil, false, none, c⟩ else none
  | [], e :: q => some ⟨e, true, some e, { c with sendq := q }⟩
  | x :: b, [] => some ⟨x, true, none, { c with buf := b }⟩
  | x :: b, e :: q => some ⟨x, true, some e, { c with buf := b ++ [e], sendq := q }⟩

/-- The builtin `close(ch)`: closing a closed channel panics; otherwise the channel is
closed and every parked sender is released, to panic with "send on closed channel".  The
result is the closed channel and the released senders. -/
def Chan.close (c : Chan) : Except String (Chan × List Event) :=
  if c.closed then .error "close of closed channel"
  else .ok ({ c with closed := true, sendq := [] }, c.sendq)

/-- The struct `Bus`; `wg` is the counter of the `sync.WaitGroup`. -/
structure Bus where
  ch : Chan
  subscribers : Subscribers
  wg : Nat

/-- The function `New`. -/
def New (subscribers : Subscribers) : Bus :=
  { ch := makeChan 0
    subscribers := subscribers
    wg := 0 }

/-- A goroutine `go func(v, sub) { defer b.wg.Done(); sub(v) }(v, subscriber)`: `sub` is the
position of `subscriber` in `b.subscribers`. -/
structure Invocation where
  sub : Nat
  v : Event
deriving DecidableEq, Repr

/-- A record written with `slog.LogAttrs`. -/
structure LogRecord where
  level : String
  msg : String
deriving DecidableEq, Repr

/-- The two states of `Listen`. -/
inductive ListenState where
  | Running
  | Stopped
deriving DecidableEq, Repr

/-- Where the (single) call of `CloseAndDrain` stands: not called yet, in the loop
`for v := range b.ch`, in the final `select`, or returned. -/
inductive DrainState where
  | NotCalled
  | Ranging
  | Waiting
  | Returned
deriving DecidableEq, Repr

/-- The state of the process around one bus.
`done` says that a value is waiting in the channel given to `Listen`; `goroutines` are the
subscriber invocations started and not finished; `doneChan` says that `doneChan` of
`CloseAndDrain` is closed; `now` is the clock and `deadline` the time from which `ctx.Done()`
of the context given to `CloseAndDrain` is ready.  The last six fields are history:
every invocation ever started, what each finished one returned, the values received by
`Listen` and by the loop of `CloseAndDrain`, the values whose `Notify` has returned and
the values whose `Notify` has panicked. -/
structure System where
  b : Bus
  done : Bool
  listen : ListenState
  goroutines : List Invocation
  drain : DrainState
  doneChan : Bool
  now : Nat
  deadline : Nat
  log : List LogRecord
  started : List Invocation
  outcomes : List (Invocation × Option GoError)
  received : List Event
  drained : List Event
  returned : List Event
  panicked : List Event

/-- The process after `eventBus := bus.New(subscribers)` and `go eventBus.Listen(done)`. -/
def System.init (subscribers : Subscribers) (deadline : Nat) : System :=
  { b := New subscribers
    done := false
    listen := .Running
    goroutines := []
    drain := .NotCalled
    doneChan := false
    now := 0
    deadline := deadline
    log := []
    started := []
    outcomes := []
    received := []
    drained := []
    returned := []
    panicked := [] }

/-- One pass of the loop body `b.wg.Add(1); go func(v, sub) {...}(v, subscriber)`. -/
def spawn (v : Event) (s : System) (sub : Nat) : System :=
  { s with
    b := { s.b with wg := s.b.wg + 1 }
    goroutines := s.goroutines ++ [⟨sub, v⟩]
    started := s.started ++ [⟨sub, v⟩] }

/-- The loop `for _, subscriber := range b.subscribers { ... }` of `Listen` and of
`CloseAndDrain`. -/
def fanOut (v : Event) (s : System) : System :=
  (List.range s.b.subscribers.length).foldl (spawn v) s

/-- The method `wg.Done()`, which is `wg.Add(-1)`. -/
def wgDone (wg : Nat) : Except String Nat :=
  if wg = 0 then .error "sync: negative WaitGroup counter" else .ok (wg - 1)

/-- The body of the `i`-th live goroutine run to its end: `sub(v)`, whose result is dropped,
then the deferred `b.wg.Done()`. -/
def finish (i : Nat) (s : System) : Except String System :=
  match s.goroutines[i]? with
  | none => .ok s
  | some g =>
    let r := (s.b.subscribers.getD g.sub (fun _ => none)) g.v
    match wgDone s.b.wg with
    | .error p => .error p
    | .ok n =>
      .ok { s with
            b := { s.b with wg := n }
            goroutines := s.goroutines.eraseIdx i
            outcomes := s.outcomes ++ [(g, r)] }

/-- The method `Notify`: the send `b.ch <- event`.  A parked sender returns from `Notify`
when a receive takes its value (see `Listen` and `CloseAndDrain`). -/
def Notify (event : Event) (s : System) : Except String System :=
  match s.b.ch.send event with
  | .error p => .error p
  | .ok (c, true) => .ok { s with b := { s.b with ch := c }, returned := s.returned ++ [event] }
  | .ok (c, false) => .ok { s with b := { s.b with ch := c } }

/-- The case of its `select` that `Listen` takes. -/
inductive SelectCase where
  | done
  | recv
deriving DecidableEq, Repr

/-- One pass of `for { select { case <-done: return; case v := <-b.ch: ... } }` with the
given case, which is taken when it is ready. -/
def Listen (c : SelectCase) (s : System) : System :=
  match s.listen with
  | .Stopped => s
  | .Running =>
    match c with
    | .done => if s.done then { s with done := false, listen := .Stopped } else s
    | .recv =>
      match s.b.ch.recv with
      | none => s
      | some r =>
        fanOut r.v
          { s with
            b := { s.b with ch := r.c }
            received := s.received ++ [r.v]
            returned := s.returned ++ r.woken.toList }

/-- The next step of `CloseAndDrain`: `close(b.ch)` and the log record; one pass of
`for v := range b.ch`, which ends the loop and starts the goroutine
`b.wg.Wait(); close(doneChan)` when the channel is closed and empty; the final `select`. -/
def CloseAndDrain (s : System) : Except String System :=
  match s.drain with
  | .NotCalled =>
    match s.b.ch.close with
    | .error p => .error p
    | .ok (c, released) =>
      .ok { s with
            b := { s.b with ch := c }
            panicked := s.panicked ++ released
            log := s.log ++ [⟨"INFO", QUEUE_CLOSED⟩]
            drain := .Ranging }
  | .Ranging =>
    match s.b.ch.recv with
    | none => .ok s
    | some r =>
      if r.ok then
        .ok (fanOut r.v
          { s with
            b := { s.b with ch := r.c }
            drained := s.drained ++ [r.v]
            returned := s.returned ++ r.woken.toList })
      else .ok { s with drain := .Waiting }
  | .Waiting =>
    if s.deadline ≤ s.now || s.doneChan then .ok { s with drain := .Returned } else .ok s
  | .Returned => .ok s

/-- The goroutine `go func() { b.wg.Wait(); close(doneChan) }()` of `CloseAndDrain`. -/
def waiter (s : System) : System :=
  match s.drain with
  | .NotCalled => s
  | .Ranging => s
  | _ => if s.b.wg = 0 then { s with doneChan := true } else s

/-- The orchestrator (`main`): `queueShutdownChan <- struct{}{}`, a channel of capacity
`ProcessChannelsBufferSize = 1`, and the log record after it. -/
def signal (s : System) : System :=
  if s.done then s
  else { s with done := true, log := s.log ++ [⟨"INFO", server.QueueShutdownSignalMsg⟩] }

/-- The orchestrator (`main`) after `eventBus.CloseAndDrain(queueDrainCtx)` has returned. -/
def mainAfterDrain (s : System) : System :=
  match s.drain with
  | .Returned =>
    { s with log := s.log ++
        [⟨"INFO", server.QueueShutdownCompleteMsg⟩, ⟨"INFO", server.ProcessShutdownMsg⟩] }
  | _ => s

/-- What the scheduler lets happen next. -/
inductive Action where
  | notify (e : Event)
  | signal
  | listen (c : SelectCase)
  | finish (i : Nat)
  | drain
  | waiter
  | tick
deriving DecidableEq, Repr

/-- One step of the process. -/
def step (s : System) : Action → Except String System
  | .notify e =>
    match Notify e s with
    | .error _ => .ok { s with panicked := s.panicked ++ [e] }
    | .ok t => .ok t
  | .signal => .ok (signal s)
  | .listen c => .ok (Listen c s)
  | .finish i => finish i s
  | .drain => CloseAndDrain s
  | .waiter => .ok (waiter s)
  | .tick => .ok { s with now := s.now + 1 }

/-- A schedule run from a state. -/
def run (s : System) : List Action → Except String System
  | [] => .ok s
  | a :: as =>
    match step s a with
    | .error p => .error p
    | .ok t => run t as

/-! ### Properties of the bus, as predicates on the state -/

/-- The invocations that the fan-out of `v` to `k` subscribers starts. -/
def invocationsOf (k : Nat) (v : Event) : List Invocation :=
  (List.range k).map (fun i => ⟨i, v⟩)

/-- The records of the log other than the orchestrator's "signal sent" record. -/
def drainLog (s : System) : List LogRecord :=
  s.log.filter (fun r => r.msg != server.QueueShutdownSignalMsg)

/-- What holds in every state that a process started by `System.init subscribers` reaches. -/
structure Inv (subscribers : Subscribers) (t : System) : Prop where
  subs_eq : t.b.subscribers = subscribers
  cap_zero : t.b.ch.cap = 0
  buf_nil : t.b.ch.buf = []
  drained_nil : t.drained = []
  wg_eq : t.b.wg = t.goroutines.length
  started_eq : t.started = t.received.flatMap (invocationsOf subscribers.length)
  returned_sub : List.Sublist t.returned t.received
  closed_iff : t.b.ch.closed = true ↔ t.drain ≠ .NotCalled
  closed_sendq : t.b.ch.closed = true → t.b.ch.sendq = []
  doneChan_false : t.drain = .NotCalled ∨ t.drain = .Ranging → t.doneChan = false
  log_eq : drainLog t = if t.drain = .NotCalled then [] else [⟨"INFO", QUEUE_CLOSED⟩]

/-- Two states that agree on everything but the subscribers' code and what the finished
invocations returned: they have the same number of subscribers and the same finished
invocations. -/
structure SameUpToResults (s t : System) : Prop where
  ch : s.b.ch = t.b.ch
  wg : s.b.wg = t.b.wg
  subs : s.b.subscribers.length = t.b.subscribers.length
  done : s.done = t.done
  listen : s.listen = t.listen
  goroutines : s.goroutines = t.goroutines
  drain : s.drain = t.drain
  doneChan : s.doneChan = t.doneChan
  now : s.now = t.now
  deadline : s.deadline = t.deadline
  log : s.log = t.log
  started : s.started = t.started
  finished : s.outcomes.map Prod.fst = t.outcomes.map Prod.fst
  received : s.received = t.received
  drained : s.drained = t.drained
  returned : s.returned = t.returned
  panicked : s.panicked = t.panicked

/-- The struct `FakeBus`. -/
structure FakeBus where
  Messages : List Event
deriving DecidableEq, Repr

def NewFake : FakeBus := { Messages := [] }

/-- The method `(b *FakeBus) Notify(event)`. -/
def FakeBus.Notify (b : FakeBus) (event : Event) : FakeBus :=
  { b with Messages := b.Messages ++ [event] }

end bus

/-! ## internal/exampleservice

`Service` holds two interface values, `Store Storer` and `Bus bus.Busser`.  The embedding
passes the state behind them: `Storer σ` is the method table of a store whose state has
type `σ`, and the bus is the recording `FakeBus` that the service tests use. -/

namespace exampleservice

open pkgexample events bus

def serviceError : GoError := .sentinel "exampleservice" "serviceError" "service layer error"
def repositoryAddError : GoError :=
  .sentinel "exampleservice" "repositoryAddError" "error storing record"
def repositoryNotFoundError : GoError :=
  .sentinel "exampleservice" "repositoryNotFoundError" "item not found"
def RepositoryListError : GoError :=
  .sentinel "exampleservice" "RepositoryListError" "error listing items"
def limitToLargeError : GoError :=
  .sentinel "exampleservice" "limitToLargeError" "maximum limit is 50"
def invalidPageError : GoError :=
  .sentinel "exampleservice" "invalidPageError" "page must be greater than 0"
def notFoundError : GoError := .sentinel "exampleservice" "notFoundError" "example not found"

/-- The interface `Storer`, over a store state `σ`. -/
structure Storer (σ : Type) where
  Add : σ → Example → σ × (Example × Option GoError)
  Get : σ → String → σ × (Example × Option GoError)
  List : σ → String → Int → Int → σ × (Slice Example × Option GoError)
  Update : σ → Example → σ × (Example × Option GoError)
  Delete : σ → String → σ × Option GoError

/-- The struct `Service`: the state of its store and of its bus. -/
structure Service (σ : Type) where
  Store : σ
  Bus : FakeBus

/-- The method `Service.Add`. -/
def Service.Add {σ : Type} (I : Storer σ) (now : Int) (e : Service σ)
    (userId message : String) : Service σ × (Example × Option GoError) :=
  match pkgexample.New userId message with
  | (_, some err) => (e, (pkgexample.Nil, some (.InvalidMessageError err)))
  | (item, none) =>
    match I.Add e.Store item with
    | (st, (_, some _)) => ({ e with Store := st }, (pkgexample.Nil, some repositoryAddError))
    | (st, (storedItem, none)) =>
      ({ Store := st
         Bus := e.Bus.Notify (NewEvent now userId (.ExampleCreated { Id := storedItem.Id })) },
       (storedItem, none))

/-- The method `Service.Update`. -/
def Service.Update {σ : Type} (I : Storer σ) (now : Int) (e : Service σ)
    (userId id message : String) : Service σ × (Example × Option GoError) :=
  match I.Get e.Store id with
  | (st, (item, some _)) => ({ e with Store := st }, (item, some repositoryNotFoundError))
  | (st, (item, none)) =>
    match item.SetMessage message with
    | (_, some err) => ({ e with Store := st }, (pkgexample.Nil, some (.InvalidMessageError err)))
    | (item, none) =>
      match I.Update st item with
      | (st, (storedItem, some err)) =>
        if errorsIs err notFoundError then
          ({ e with Store := st }, (storedItem, some repositoryNotFoundError))
        else
          ({ e with Store := st }, (storedItem, some repositoryAddError))
      | (st, (storedItem, none)) =>
        ({ Store := st
           Bus := e.Bus.Notify (NewEvent now userId (.ExampleUpdated { Id := storedItem.Id })) },
         (storedItem, none))

/-- The method `Service.Delete`. -/
def Service.Delete {σ : Type} (I : Storer σ) (now : Int) (e : Service σ)
    (userId id : String) : Service σ × Option GoError :=
  match I.Delete e.Store id with
  | (st, some err) =>
    if errorsIs err notFoundError then
      ({ e with Store := st }, some repositoryNotFoundError)
    else
      ({ e with Store := st }, some err)
  | (st, none) =>
    ({ Store := st
       Bus := e.Bus.Notify (NewEvent now userId (.ExampleDeleted { Id := id })) },
     none)

/-- The method `Service.Get`. -/
def Service.Get {σ : Type} (I : Storer σ) (e : Service σ) (id : String) :
    Service σ × (Example × Option GoError) :=
  match I.Get e.Store id with
  | (st, (_, some err)) =>
    if errorsIs err notFoundError then
      ({ e with Store := st }, (pkgexample.Nil, some repositoryNotFoundError))
    else
      ({ e with Store := st }, (pkgexample.Nil, some err))
  | (st, (item, none)) => ({ e with Store := st }, (item, none))

/-- The method `Service.List`. -/
def Service.List {σ : Type} (I : Storer σ) (e : Service σ) (userId : String)
    (limit page : Int) : Service σ × (Slice Example × Option GoError) :=
  if limit > 50 then (e, (none, some limitToLargeError))
  else if page < 1 then (e, (none, some invalidPageError))
  else
    match I.List e.Store userId limit page with
    | (st, (_, some _)) => ({ e with Store := st }, (some [], some RepositoryListError))
    | (st, (res, none)) => ({ e with Store := st }, (res, none))

/-- The struct `exampleRepository`.  The calls of `uuid.NewString()` are the stream `uuid`:
the call number `n` (counted in `calls`) returns `uuid n`. -/
structure exampleRepository where
  items : GoMap Example
  byUserIndex : GoMap (Slice Example)
  uuid : Nat → String
  calls : Nat

def NewInMemoryExampleRepository (uuid : Nat → String) : exampleRepository :=
  { items := []
    byUserIndex := []
    uuid := uuid
    calls := 0 }

/-- The method `(e *exampleRepository) Add`. -/
def exampleRepository.Add (e : exampleRepository) (item : Example) :
    exampleRepository × (Example × Option GoError) :=
  let item := { item with Id := e.uuid e.calls }
  let items := GoMap.set e.items item.Id item
  let byUserIndex :=
    match GoMap.get e.byUserIndex item.UserId with
    | none => GoMap.set e.byUserIndex item.UserId (some [item])
    | some sl => GoMap.set e.byUserIndex item.UserId (Slice.append sl item)
  ({ e with items := items, byUserIndex := byUserIndex, calls := e.calls + 1 }, (item, none))

/-- The method `(e *exampleRepository) Update`. -/
def exampleRepository.Update (e : exampleRepository) (item : Example) :
    exampleRepository × (Example × Option GoError) :=
  ({ e with items := GoMap.set e.items item.Id item }, (item, none))

/-- The method `(e *exampleRepository) Get`. -/
def exampleRepository.Get (e : exampleRepository) (i : String) :
    exampleRepository × (Example × Option GoError) :=
  match GoMap.get e.items i with
  | none => (e, (pkgexample.Nil, some notFoundError))
  | some item => (e, (item, none))

/-- The method `(e *exampleRepository) List`. -/
def exampleRepository.List (e : exampleRepository) (i : String) (_limit _page : Int) :
    exampleRepository × (Slice Example × Option GoError) :=
  let items := (GoMap.get e.byUserIndex i).getD none
  (e, (items, none))

/-- The method `(e *exampleRepository) Delete`. -/
def exampleRepository.Delete (e : exampleRepository) (i : String) :
    exampleRepository × Option GoError :=
  let item := (GoMap.get e.items i).getD pkgexample.Nil
  let old : Slice Example := (GoMap.get e.byUserIndex item.UserId).getD none
  let b := List.foldl (fun b x => if x.Id != i then Slice.append b x else b)
    (Slice.resetLen old) (Slice.elems old)
  ({ e with
     byUserIndex := GoMap.set e.byUserIndex item.UserId b
     items := GoMap.delete e.items i }, none)

/-- The `exampleRepository` as a `Storer`. -/
def exampleRepositoryStorer : Storer exampleRepository :=
  { Add := exampleRepository.Add
    Get := exampleRepository.Get
    List := exampleRepository.List
    Update := exampleRepository.Update
    Delete := exampleRepository.Delete }

/-- A call of a method of the service, with the clock reading `now` of the calls that make
an event. -/
inductive Call where
  | Add (now : Int) (userId message : String)
  | Update (now : Int) (userId id message : String)
  | Delete (now : Int) (userId id : String)
  | Get (id : String)
  | List (userId : String) (limit page : Int)
deriving DecidableEq, Repr

/-- A service on the in-memory repository together with its history: `live` holds the ids
that an `Add` has returned (with a nil error) and that no `Delete` has deleted since. -/
structure Tracked where
  svc : Service exampleRepository
  live : List String

/-- One call: the service moves as the method says, and the history records the id that a
successful `Add` returns and drops the id that a successful `Delete` was given. -/
def Tracked.call (t : Tracked) : Call → Tracked
  | .Add now userId message =>
    let r := Service.Add exampleRepositoryStorer now t.svc userId message
    { svc := r.1
      live := if r.2.2 = none then r.2.1.Id :: t.live else t.live }
  | .Update now userId id message =>
    { t with svc := (Service.Update exampleRepositoryStorer now t.svc userId id message).1 }
  | .Delete now userId id =>
    let r := Service.Delete exampleRepositoryStorer now t.svc userId id
    { svc := r.1
      live := if r.2 = none then t.live.filter (fun x => x != id) else t.live }
  | .Get id => { t with svc := (Service.Get exampleRepositoryStorer t.svc id).1 }
  | .List userId limit page =>
    { t with svc := (Service.List exampleRepositoryStorer t.svc userId limit page).1 }

/-- The service of the tests, `Service{Store: NewInMemoryExampleRepository(), Bus:
bus.NewFake()}`, after a sequence of calls. -/
def Tracked.run (uuid : Nat → String) (calls : List Call) : Tracked :=
  calls.foldl Tracked.call
    { svc := { Store := NewInMemoryExampleRepository uuid, Bus := NewFake }, live := [] }

end exampleservice

/-! ## internal/adminservice -/

namespace adminservice

open pkgexample events bus

def limitToLargeError : GoError :=
  .sentinel "adminservice" "limitToLargeError" "maximum limit is 50"
def invalidPageError : GoError :=
  .sentinel "adminservice" "invalidPageError" "page must be greater than 0"
def userServiceNotFound : GoError :=
  .sentinel "adminservice" "userServiceNotFound" "user not found"
def exampleServiceNotFound : GoError :=
  .sentinel "adminservice" "exampleServiceNotFound" "example not found"
def storeError : GoError := .sentinel "adminservice" "storeError" "store error"
def userNotFoundError : GoError :=
  .sentinel "adminservice" "userNotFoundError" "user not found"
def exampleNotFoundError : GoError :=
  .sentinel "adminservice" "exampleNotFoundError" "example not found"

/-- The interface `UserStorer`, over a store state `υ`. -/
structure UserStorer (υ : Type) where
  Add : υ → users.User → υ × Option GoError
  Get : υ → String → υ × (users.User × Option GoError)
  List : υ → Int → Int → υ × (Slice users.User × Option GoError)
  Delete : υ → String → υ × Option GoError

/-- The interface `ExampleStorer`, over a store state `ε`. -/
structure ExampleStorer (ε : Type) where
  Get : ε → String → ε × (Example × Option GoError)
  GetForUser : ε → String → Int → Int → ε × (Slice Example × Option GoError)
  Delete : ε → String → ε × Option GoError

/-- The interface `AuditStorer`, over a store state `α`. -/
structure AuditStorer (α : Type) where
  GetEventsForItem : α → String → Int → Int → α × (Slice Event × Option GoError)
  GetEventsForUser : α → String → Int → Int → α × (Slice Event × Option GoError)
  GetByEventAndUser : α → String → String → Int → Int → α × (Slice Event × Option GoError)

/-- The struct `Service`: the states of its three stores and of its bus. -/
structure Service (υ ε α : Type) where
  UserStore : υ
  ExampleStore : ε
  AuditStore : α
  Bus : FakeBus

/-- The method `Service.AddUser`. -/
def Service.AddUser {υ ε α : Type} (U : UserStorer υ) (s : Service υ ε α) (id : String) :
    Service υ ε α × Option GoError :=
  let user := users.NewUserWithId id
  match U.Add s.UserStore user with
  | (st, some err) => ({ s with UserStore := st }, some err)
  | (st, none) => ({ s with UserStore := st }, none)

/-- The method `Service.DeleteUser`. -/
def Service.DeleteUser {υ ε α : Type} (U : UserStorer υ) (s : Service υ ε α) (id : String) :
    Service υ ε α × Option GoError :=
  match U.Delete s.UserStore id with
  | (st, some err) =>
    if errorsIs err userNotFoundError then
      ({ s with UserStore := st }, some userServiceNotFound)
    else
      ({ s with UserStore := st }, some err)
  | (st, none) => ({ s with UserStore := st }, none)

/-- The method `Service.DeleteExample`. -/
def Service.DeleteExample {υ ε α : Type} (E : ExampleStorer ε) (now : Int)
    (s : Service υ ε α) (userId id : String) : Service υ ε α × Option GoError :=
  match E.Delete s.ExampleStore id with
  | (st, some err) =>
    if errorsIs err exampleNotFoundError then
      ({ s with ExampleStore := st }, some exampleServiceNotFound)
    else
      ({ s with ExampleStore := st }, some err)
  | (st, none) =>
    ({ s with
       ExampleStore := st
       Bus := s.Bus.Notify (NewEvent now userId (.ExampleDeleted { Id := id })) },
     none)

/-- The struct `userMemoryStore`. -/
structure userMemoryStore where
  items : GoMap users.User
deriving DecidableEq, Repr

def newInMemoryUserStore : userMemoryStore := { items := [] }

/-- The method `(u *userMemoryStore) Add`. -/
def userMemoryStore.Add (u : userMemoryStore) (item : users.User) :
    userMemoryStore × Option GoError :=
  ({ items := GoMap.set u.items item.Id item }, none)

/-- The method `(u *userMemoryStore) Get`. -/
def userMemoryStore.Get (u : userMemoryStore) (id : String) :
    userMemoryStore × (users.User × Option GoError) :=
  match GoMap.get u.items id with
  | none => (u, (users.Nil, some userNotFoundError))
  | some item => (u, (item, none))

/-- The method `(u *userMemoryStore) List`, in the order of the entries (Go leaves the
order of a map iteration open). -/
def userMemoryStore.List (u : userMemoryStore) (_limit _page : Int) :
    userMemoryStore × (Slice users.User × Option GoError) :=
  (u, (List.foldl (fun results kv => Slice.append results kv.2) none u.items, none))

/-- The method `(u *userMemoryStore) Delete`. -/
def userMemoryStore.Delete (u : userMemoryStore) (id : String) :
    userMemoryStore × Option GoError :=
  match GoMap.get u.items id with
  | none => (u, some (.dynamic "user not found"))
  | some _ => ({ items := GoMap.delete u.items id }, none)

/-- The struct `exampleMemoryStore`.  The calls of `uuid.NewString()` are the stream `uuid`:
the call number `n` (counted in `calls`) returns `uuid n`. -/
structure exampleMemoryStore where
  items : GoMap Example
  byUserIndex : GoMap (Slice Example)
  uuid : Nat → String
  calls : Nat

def newInMemoryExampleStore (uuid : Nat → String) : exampleMemoryStore :=
  { items := []
    byUserIndex := []
    uuid := uuid
    calls := 0 }

/-- The method `(e *exampleMemoryStore) add` (marked "TESTING ONLY" in the source). -/
def exampleMemoryStore.add (e : exampleMemoryStore) (item : Example) :
    exampleMemoryStore × (Example × Option GoError) :=
  let item := { item with Id := e.uuid e.calls }
  let items := GoMap.set e.items item.Id item
  let byUserIndex :=
    match GoMap.get e.byUserIndex item.UserId with
    | none => GoMap.set e.byUserIndex item.UserId (some [item])
    | some sl => GoMap.set e.byUserIndex item.UserId (Slice.append sl item)
  ({ e with items := items, byUserIndex := byUserIndex, calls := e.calls + 1 }, (item, none))

/-- The method `(e *exampleMemoryStore) Get`. -/
def exampleMemoryStore.Get (e : exampleMemoryStore) (id : String) :
    exampleMemoryStore × (Example × Option GoError) :=
  match GoMap.get e.items id with
  | none => (e, (pkgexample.Nil, some exampleNotFoundError))
  | some item => (e, (item, none))

/-- The method `(e *exampleMemoryStore) GetForUser`. -/
def exampleMemoryStore.GetForUser (e : exampleMemoryStore) (userId : String)
    (_limit _page : Int) : exampleMemoryStore × (Slice Example × Option GoError) :=
  let items := (GoMap.get e.byUserIndex userId).getD none
  (e, (items, none))

/-- The method `(e *exampleMemoryStore) Delete`. -/
def exampleMemoryStore.Delete (e : exampleMemoryStore) (id : String) :
    exampleMemoryStore × Option GoError :=
  match GoMap.get e.items id with
  | none => (e, some exampleNotFoundError)
  | some item =>
    let old : Slice Example := (GoMap.get e.byUserIndex item.UserId).getD none
    let b := List.foldl (fun b x => if x.Id != id then Slice.append b x else b)
      (Slice.resetLen old) (Slice.elems old)
    ({ e with
       byUserIndex := GoMap.set e.byUserIndex item.UserId b
       items := GoMap.delete e.items id }, none)

/-- The `exampleMemoryStore` as an `ExampleStorer`. -/
def exampleMemoryStorer : ExampleStorer exampleMemoryStore :=
  { Get := exampleMemoryStore.Get
    GetForUser := exampleMemoryStore.GetForUser
    Delete := exampleMemoryStore.Delete }

/-- The `userMemoryStore` as a `UserStorer`. -/
def userMemoryStorer : UserStorer userMemoryStore :=
  { Add := userMemoryStore.Add
    Get := userMemoryStore.Get
    List := userMemoryStore.List
    Delete := userMemoryStore.Delete }

/-- The method `Service.ListUsers`. -/
def Service.ListUsers {υ ε α : Type} (U : UserStorer υ) (s : Service υ ε α)
    (limit page : Int) : Service υ ε α × (Slice users.User × Option GoError) :=
  if limit > 50 then (s, (none, some limitToLargeError))
  else if page < 1 then (s, (none, some invalidPageError))
  else
    match U.List s.UserStore limit page with
    | (st, (_, some _)) => ({ s with UserStore := st }, (some [], none))
    | (st, (retrievedUsers, none)) => ({ s with UserStore := st }, (retrievedUsers, none))

/-- The method `Service.GetExamplesForUser`. -/
def Service.GetExamplesForUser {υ ε α : Type} (E : ExampleStorer ε) (s : Service υ ε α)
    (id : String) (limit page : Int) : Service υ ε α × (Slice Example × Option GoError) :=
  if limit > 50 then (s, (none, some limitToLargeError))
  else if page < 1 then (s, (none, some invalidPageError))
  else
    match E.GetForUser s.ExampleStore id limit page with
    | (st, (_, some err)) => ({ s with ExampleStore := st }, (none, some err))
    | (st, (items, none)) => ({ s with ExampleStore := st }, (items, none))

/-- The method `Service.GetEventsForItem`. -/
def Service.GetEventsForItem {υ ε α : Type} (A : AuditStorer α) (s : Service υ ε α)
    (itemId : String) (limit page : Int) : Service υ ε α × (Slice Event × Option GoError) :=
  if limit > 50 then (s, (none, some limitToLargeError))
  else if page < 1 then (s, (none, some invalidPageError))
  else
    match A.GetEventsForItem s.AuditStore itemId limit page with
    | (st, (_, some _)) => ({ s with AuditStore := st }, (none, some storeError))
    | (st, (data, none)) => ({ s with AuditStore := st }, (data, none))

/-- The method `Service.GetEventsForUser`. -/
def Service.GetEventsForUser {υ ε α : Type} (A : AuditStorer α) (s : Service υ ε α)
    (userId : String) (limit page : Int) : Service υ ε α × (Slice Event × Option GoError) :=
  if limit > 50 then (s, (none, some limitToLargeError))
  else if page < 1 then (s, (none, some invalidPageError))
  else
    match A.GetEventsForUser s.AuditStore userId limit page with
    | (st, (_, some _)) => ({ s with AuditStore := st }, (none, some storeError))
    | (st, (data, none)) => ({ s with AuditStore := st }, (data, none))

/-- The method `Service.GetByEventAndUser`. -/
def Service.GetByEventAndUser {υ ε α : Type} (A : AuditStorer α) (s : Service υ ε α)
    (userId eventName : String) (limit page : Int) :
    Service υ ε α × (Slice Event × Option GoError) :=
  if limit > 50 then (s, (none, some limitToLargeError))
  else if page < 1 then (s, (none, some invalidPageError))
  else
    match A.GetByEventAndUser s.AuditStore userId eventName limit page with
    | (st, (_, some _)) => ({ s with AuditStore := st }, (none, some storeError))
    | (st, (data, none)) => ({ s with AuditStore := st }, (data, none))

end adminservice

/-! ## The standard library, as far as `internal/requests` and `internal/cache` use it -/

namespace strconv

/-- The digits of `strconv.ParseUint(s, 10, 64)` before its range check: the value of a
non-empty string of ASCII digits, `none` for any other string. -/
def parseDigits (cs : List Char) : Option Nat :=
  match cs with
  | [] => none
  | _ =>
    cs.foldl
      (fun acc c =>
        match acc with
        | none => none
        | some n => if c.isDigit then some (n * 10 + (c.toNat - 48)) else none)
      (some 0)

/-- The function `strconv.Atoi` for a 64-bit `int`: `some n` when it returns `(n, nil)`,
`none` when it returns an error.  It accepts an optional sign followed by one or more
decimal digits whose value fits the type. -/
def Atoi (s : String) : Option Int :=
  let value (neg : Bool) (cs : List Char) : Option Int :=
    match parseDigits cs with
    | none => none
    | some un =>
      if neg then (if un > 2 ^ 63 then none else some (-(un : Int)))
      else (if un ≥ 2 ^ 63 then none else some (un : Int))
  match s.toList with
  | [] => none
  | '-' :: cs => value true cs
  | '+' :: cs => value false cs
  | cs => value false cs

end strconv

namespace url

/-- The type `url.Values`, a `map[string][]string`. -/
abbrev Values := GoMap (List String)

/-- The method `Values.Get`: the first value of the key, or the empty string. -/
def Values.Get (v : Values) (key : String) : String :=
  match GoMap.get v key with
  | some (x :: _) => x
  | _ => ""

end url

namespace hex

def hextable : List Char := "0123456789abcdef".toList

/-- The function `hex.EncodeToString` on a list of bytes (numbers below 256): two digits
of `hextable` per byte, the high half first. -/
def EncodeToString (src : List Nat) : String :=
  String.mk (src.flatMap (fun b => [hextable.getD (b / 16 % 16) '0', hextable.getD (b % 16) '0']))

end hex

/-! ## internal/requests -/

namespace requests

def LimitTooLowError : GoError :=
  .sentinel "requests" "LimitTooLowError" "limit must be greater than 0"
def InvalidLimitError : GoError :=
  .sentinel "requests" "InvalidLimitError" "limit must be an integer"
def PageTooLowError : GoError :=
  .sentinel "requests" "PageTooLowError" "page must be greater than 0"
def InvalidPageError : GoError :=
  .sentinel "requests" "InvalidPageError" "page must be an integer"

/-- The function `GetPaginationParameters`; the request is given by `query`, the value of
`r.URL.Query()`.  `page` is the part of the function after the limit is settled. -/
def GetPaginationParameters (query : url.Values) : Int × Int × Option GoError :=
  let queryLimit := query.Get "limit"
  let queryPage := query.Get "page"
  let page (limit : Int) : Int × Int × Option GoError :=
    if queryPage != "" then
      match strconv.Atoi queryPage with
      | none => (0, 0, some InvalidPageError)
      | some n => if n < 1 then (0, 0, some PageTooLowError) else (limit, n, none)
    else (limit, 1, none)
  if queryLimit != "" then
    match strconv.Atoi queryLimit with
    | none => (0, 0, some InvalidLimitError)
    | some n => if n < 1 then (0, 0, some LimitTooLowError) else page n
  else page 10

end requests

/-! ## internal/middleware: permissions -/

namespace middleware

/-- The type `PermissionSet`, a `map[string]Exists` with `Exists` the empty struct. -/
abbrev PermissionSet := GoMap Unit

/-- The function `NewPermissionSet`. -/
def NewPermissionSet (permissions : List String) : PermissionSet :=
  permissions.foldl (fun perms permission => GoMap.set perms permission ()) []

/-- The struct `HasAll`. -/
structure HasAll where
  permissions : PermissionSet
deriving DecidableEq, Repr

def NewHasAll (permissions : List String) : HasAll :=
  { permissions := NewPermissionSet permissions }

/-- The method `HasAll.Validate`; `range h.permissions` visits the entries in the order of
the list. -/
def HasAll.Validate (h : HasAll) (permissions : PermissionSet) : Option GoError :=
  let expectedNumPermissions := h.permissions.length
  let found : GoMap Unit :=
    h.permissions.foldl
      (fun found kv =>
        let ok := (GoMap.get permissions kv.1).isSome
        if ok then GoMap.set found kv.1 () else found)
      []
  if found.length != expectedNumPermissions then some (.dynamic "MISSING_PERMISSION")
  else none

/-- The struct `HasOne`. -/
structure HasOne where
  permissions : PermissionSet
deriving DecidableEq, Repr

def NewHasOne (permissions : List String) : HasOne :=
  { permissions := NewPermissionSet permissions }

/-- The loop of `HasOne.Validate` over the entries still to visit. -/
def HasOne.loop (permissions : PermissionSet) : List (String × Unit) → Option GoError
  | [] => some (.dynamic "MISSING_PERMISSION")
  | kv :: rest =>
    let ok := (GoMap.get permissions kv.1).isSome
    if ok then none else HasOne.loop permissions rest

/-- The method `HasOne.Validate`; `range h.permissions` visits the entries in the order of
the list. -/
def HasOne.Validate (h : HasOne) (permissions : PermissionSet) : Option GoError :=
  HasOne.loop permissions h.permissions

end middleware

/-! ## internal/cache -/

namespace cache

/-- The function `generateCacheValue`; `md5` is the digest `md5.New(); h.Write; h.Sum(nil)`
of the standard library, on lists of bytes. -/
def generateCacheValue (md5 : List Nat → List Nat) (val : List Nat) : String × Option GoError :=
  let hashBytes := md5 val
  (hex.EncodeToString hashBytes, none)

/-- The interface `Cacher`, over a cache state `κ`. -/
structure Cacher (κ : Type) where
  Set : κ → String → List Nat → κ × (String × Option GoError)
  Get : κ → String → String × Bool
  Delete : κ → String → κ × Option GoError

/-- The struct `InMemoryCache`. -/
structure InMemoryCache where
  items : GoMap String
deriving DecidableEq, Repr

def NewInMemoryCache : InMemoryCache := { items := [] }

/-- The method `(m *InMemoryCache) Set`. -/
def InMemoryCache.Set (md5 : List Nat → List Nat) (m : InMemoryCache) (key : String)
    (val : List Nat) : InMemoryCache × (String × Option GoError) :=
  match generateCacheValue md5 val with
  | (_, some err) => (m, ("", some err))
  | (genVal, none) => ({ items := GoMap.set m.items key genVal }, (genVal, none))

/-- The method `(m *InMemoryCache) Get`. -/
def InMemoryCache.Get (m : InMemoryCache) (key : String) : String × Bool :=
  match GoMap.get m.items key with
  | some val => (val, true)
  | none => ("", false)

/-- The method `(m *InMemoryCache) Delete`. -/
def InMemoryCache.Delete (m : InMemoryCache) (key : String) :
    InMemoryCache × Option GoError :=
  ({ items := GoMap.delete m.items key }, none)

/-- The `InMemoryCache` as a `Cacher`. -/
def InMemoryCacher (md5 : List Nat → List Nat) : Cacher InMemoryCache :=
  { Set := InMemoryCache.Set md5
    Get := InMemoryCache.Get
    Delete := InMemoryCache.Delete }

/-- The method `Match.Met`; the struct `Match` holds the cache `c` behind `C`. -/
def Match.Met {κ : Type} (C : Cacher κ) (c : κ) (key val : String) : Bool :=
  match C.Get c key with
  | (_, false) => false
  | (cachedVal, true) => if val == cachedVal then true else false

/-- The method `NoneMatch.Met`; the struct `NoneMatch` holds the cache `c` behind `C`. -/
def NoneMatch.Met {κ : Type} (C : Cacher κ) (c : κ) (key val : String) : Bool :=
  match C.Get c key with
  | (_, false) => false
  | (cacheVal, true) => if cacheVal != val then false else true

end cache

namespace exampleservice

/-- The cache check at the head of `Controller.Get`, for the path value `id` and the value
`etag` of the header `If-None-Match`: `true` when the handler writes the 304 response
(`WriteNotModifiedResponse`) and returns. -/
def Controller.cacheHit {κ : Type} (C : cache.Cacher κ) (c : κ) (id etag : String) : Bool :=
  if etag.length != 0 then
    if cache.NoneMatch.Met C c id etag then true else false
  else false

end exampleservice

namespace exampleservice

/-- What holds of the service of the tests after any sequence of calls: the generator is
the one it was made with, every stored item is stored under its own id, the stored ids are
the ids of the history, and every stored id was drawn from the generator. -/
structure Tracked.Inv (uuid : Nat → String) (t : Tracked) : Prop where
  uuid_eq : t.svc.Store.uuid = uuid
  key_id : ∀ k v, GoMap.get t.svc.Store.items k = some v → v.Id = k
  live_iff : ∀ k, k ∈ t.live ↔ GoMap.get t.svc.Store.items k ≠ none
  key_uuid : ∀ k v, GoMap.get t.svc.Store.items k = some v →
    ∃ i, i < t.svc.Store.calls ∧ uuid i = k

end exampleservice

/-! ## internal/exampleservice: the index of the in-memory repository -/

namespace exampleservice

open pkgexample

/-- The slice `e.byUserIndex[u]` as `range` visits it. -/
def indexOf (e : exampleRepository) (u : String) : List Example :=
  Slice.elems ((GoMap.get e.byUserIndex u).getD none)

/-- Consistency of the index of the repository with its map of items: for every user `u`,
the slice `byUserIndex[u]` holds exactly the items of the map `items` whose `UserId` is `u`,
each as it is stored under its `Id`. -/
def IndexConsistent (e : exampleRepository) : Prop :=
  ∀ (u : String) (x : Example),
    x ∈ indexOf e u ↔ (GoMap.get e.items x.Id = some x ∧ x.UserId = u)

end exampleservice

/-! ## internal/adminservice: responses -/

namespace adminservice

open pkgexample events

/-- The struct `GetExampleResponse`. -/
structure GetExampleResponse where
  Id : String
  UserId : String
deriving DecidableEq, Repr

/-- The function `NewGetExampleResponseFromExample`. -/
def NewGetExampleResponseFromExample (e : Example) : GetExampleResponse :=
  { Id := e.Id
    UserId := e.UserId }

/-- The struct `ListExampleResponse`. -/
structure ListExampleResponse where
  Items : Slice GetExampleResponse
deriving DecidableEq, Repr

/-- The function `NewListExampleResponseFromExamples`: `items` is made with the length of
`e` and filled element by element, so it is never the nil slice. -/
def NewListExampleResponseFromExamples (e : Slice Example) : ListExampleResponse :=
  let items : Slice GetExampleResponse :=
    some ((Slice.elems e).map NewGetExampleResponseFromExample)
  { Items := items }

/-- The struct `EventResponse`. -/
structure EventResponse where
  Name : ExampleEvent
  UserId : String
  EntityId : String
  Timestamp : Int
  Data : Option EventData
deriving DecidableEq, Repr

/-- The function `NewEventResponseFromEvent`. -/
def NewEventResponseFromEvent (e : Event) : EventResponse :=
  { Name := e.Name
    UserId := e.UserId
    EntityId := e.EntityId
    Timestamp := e.Timestamp
    Data := e.Data }

/-- The struct `ListEventResponse`. -/
structure ListEventResponse where
  Events : Slice EventResponse
deriving DecidableEq, Repr

/-- The function `NewListEventsFromEventsList`. -/
def NewListEventsFromEventsList (e : Slice Event) : ListEventResponse :=
  let events : Slice EventResponse := some ((Slice.elems e).map NewEventResponseFromEvent)
  { Events := events }

/-- The struct `auditLogMemoryStore`. -/
structure auditLogMemoryStore where
  byItemIdx : GoMap (Slice Event)
  byUserIndex : GoMap (Slice Event)
  byEventAndUserIndex : GoMap (Slice Event)
deriving DecidableEq, Repr

def newInMemoryAuditLogStore : auditLogMemoryStore :=
  { byItemIdx := []
    byUserIndex := []
    byEventAndUserIndex := [] }

/-- The method `generateCompositeKey`. -/
def auditLogMemoryStore.generateCompositeKey (_a : auditLogMemoryStore)
    (userId eventName : String) : String :=
  "UserId#" ++ userId ++ "+EventName#" ++ eventName

/-- The method `(a *auditLogMemoryStore) GetEventsForItem`. -/
def auditLogMemoryStore.GetEventsForItem (a : auditLogMemoryStore) (itemId : String)
    (_limit _page : Int) : auditLogMemoryStore × (Slice Event × Option GoError) :=
  let items := (GoMap.get a.byItemIdx itemId).getD none
  (a, (items, none))

/-- The method `(a *auditLogMemoryStore) GetEventsForUser`. -/
def auditLogMemoryStore.GetEventsForUser (a : auditLogMemoryStore) (userId : String)
    (_limit _page : Int) : auditLogMemoryStore × (Slice Event × Option GoError) :=
  let items := (GoMap.get a.byUserIndex userId).getD none
  (a, (items, none))

/-- The method `(a *auditLogMemoryStore) GetByEventAndUser`. -/
def auditLogMemoryStore.GetByEventAndUser (a : auditLogMemoryStore)
    (userId eventName : String) (_limit _page : Int) :
    auditLogMemoryStore × (Slice Event × Option GoError) :=
  let compositeKey := a.generateCompositeKey userId eventName
  let items := (GoMap.get a.byEventAndUserIndex compositeKey).getD none
  (a, (items, none))

/-- The `auditLogMemoryStore` as an `AuditStorer`. -/
def auditLogMemoryStorer : AuditStorer auditLogMemoryStore :=
  { GetEventsForItem := auditLogMemoryStore.GetEventsForItem
    GetEventsForUser := auditLogMemoryStore.GetEventsForUser
    GetByEventAndUser := auditLogMemoryStore.GetByEventAndUser }

end adminservice

/-! ## internal/requests and internal/responses: what the handlers use -/

namespace requests

/-- The request `*http.Request` as far as the handlers read it: the values of the path
wildcards (`r.PathValue`, the empty string for a missing one) and `r.URL.Query()`. -/
structure Request where
  PathValues : GoMap String
  Query : url.Values
deriving DecidableEq, Repr

/-- The method `r.PathValue(key)`. -/
def Request.PathValue (r : Request) (key : String) : String :=
  (GoMap.get r.PathValues key).getD ""

def msgMissingExpectedPathParam : String := "MISSING_EXPECTED_PATH_PARAM"

/-- The function `LoadPathValue`. -/
def LoadPathValue (r : Request) (key : String) : String × Option GoError :=
  let value := r.PathValue key
  if value == "" then ("", some (.dynamic msgMissingExpectedPathParam))
  else (value, none)

end requests

namespace responses

def NOT_FOUND : String := "NOT_FOUND"
def INTERNAL_SERVER_ERROR : String := "INTERNAL_SERVER_ERROR"

/-- The struct `Header`. -/
structure Header where
  key : String
  value : String
deriving DecidableEq, Repr

abbrev Headers := List Header

/-- The function `NoCachePrivate`. -/
def NoCachePrivate : Header := { key := "Cache-Control", value := "no-cache, private" }

/-- The function `ContentDigest` for the algorithm `SHA256`,
`fmt.Sprintf("%s=%s", alg, data)`. -/
def ContentDigest (data : String) (alg : String) : Header :=
  { key := "Content-Digest", value := alg ++ "=" ++ data }

def SHA256 : String := "sha-256"

/-- What is written as the body of a response: the marshalled `errorResponse` of
`writeErrorResponse`, kept as the struct it encodes, or the bytes a handler has marshalled. -/
inductive Data where
  | errorResponse (Error : String)
  | bytes (b : List Nat)
deriving DecidableEq, Repr

/-- The `http.ResponseWriter` as a recorder: the header map, the status code of
`WriteHeader` (`none` before the call) and what `Write` was given. -/
structure ResponseWriter where
  Header : GoMap String
  Code : Option Nat
  Body : List Data
deriving DecidableEq, Repr

/-- A writer nothing has been written to. -/
def ResponseWriter.new : ResponseWriter := { Header := [], Code := none, Body := [] }

/-- The function `writeResponse`; a second `WriteHeader` on a writer is ignored, as by
`net/http`. -/
def writeResponse (w : ResponseWriter) (data : Option Data) (code : Nat)
    (headers : Headers) : ResponseWriter :=
  let header := headers.foldl (fun h header => GoMap.set h header.key header.value)
    (GoMap.set w.Header "Content-Type" "application/json")
  let w := { w with Header := header, Code := some (w.Code.getD code) }
  match data with
  | none => w
  | some d => { w with Body := w.Body ++ [d] }

/-- The function `writeErrorResponse`; `json.Marshal` of an `errorResponse` does not fail. -/
def writeErrorResponse (w : ResponseWriter) (error : String) (code : Nat) : ResponseWriter :=
  writeResponse w (some (.errorResponse error)) code []

def WriteBadRequestResponse (w : ResponseWriter) (error : String) : ResponseWriter :=
  writeErrorResponse w error 400

def WriteNotFoundResponse (w : ResponseWriter) : ResponseWriter :=
  writeErrorResponse w NOT_FOUND 404

def WriteInternalServerErrorResponse (w : ResponseWriter) : ResponseWriter :=
  writeErrorResponse w INTERNAL_SERVER_ERROR 500

def WriteSuccessResponse (w : ResponseWriter) (data : Option Data) (headers : Headers) :
    ResponseWriter :=
  writeResponse w data 200 headers

end responses

/-! ## internal/adminservice: the handlers of the audit log -/

namespace adminservice

open events

def pathValId : String := "id"

/-- The method call `err.Error()` on a variable `err` of the interface type `error`: on the
nil interface there is no method to call and the call panics. -/
def callError (err : Option GoError) : Except String String :=
  match err with
  | none => .error "runtime error: invalid memory address or nil pointer dereference"
  | some e => .ok e.Error

/-- How a handler ends: the service and the writer after it, and the value of the panic
that ended it, if one did. -/
structure Handled (υ ε α : Type) where
  svc : Service υ ε α
  w : responses.ResponseWriter
  panicValue : Option String

/-- The method `Controller.GetEventsForItem`; `marshal` is `json.Marshal` on the response
and `CalculateContentDigest` the function `responses.CalculateContentDigest` on its bytes. -/
def Controller.GetEventsForItem {υ ε α : Type} (A : AuditStorer α)
    (marshal : ListEventResponse → Slice Nat × Option GoError)
    (CalculateContentDigest : List Nat → String)
    (c : Service υ ε α) (w : responses.ResponseWriter) (r : requests.Request) :
    Handled υ ε α :=
  let (id, err) := requests.LoadPathValue r pathValId
  if err.isSome then
    match callError err with
    | .error p => { svc := c, w := w, panicValue := some p }
    | .ok _ => { svc := c, w := responses.WriteInternalServerErrorResponse w, panicValue := none }
  else
    let (limit, page, err) := requests.GetPaginationParameters r.Query
    if err.isSome then
      match callError err with
      | .error p => { svc := c, w := w, panicValue := some p }
      | .ok msg => { svc := c, w := responses.WriteBadRequestResponse w msg, panicValue := none }
    else
      let (c, (data, err)) := Service.GetEventsForItem A c id limit page
      if err.isSome then
        match callError err with
        | .error p => { svc := c, w := w, panicValue := some p }
        | .ok _ =>
          { svc := c, w := responses.WriteInternalServerErrorResponse w, panicValue := none }
      else
        let resp := NewListEventsFromEventsList data
        let (respBytes, err) := marshal resp
        if err.isSome then
          match callError err with
          | .error p => { svc := c, w := w, panicValue := some p }
          | .ok _ =>
            { svc := c, w := responses.WriteInternalServerErrorResponse w, panicValue := none }
        else
          let digest := CalculateContentDigest (Slice.elems respBytes)
          { svc := c
            w := responses.WriteSuccessResponse w (some (.bytes (Slice.elems respBytes)))
              [responses.NoCachePrivate, responses.ContentDigest digest responses.SHA256]
            panicValue := none }

/-- The method `Controller.GetEventsForUser`.  In the branch `svcErr != nil` the log record
is built from `err.Error()`, with the variable `err` that `GetPaginationParameters` has
assigned last; an error of `json.Marshal` is logged and the handler goes on. -/
def Controller.GetEventsForUser {υ ε α : Type} (A : AuditStorer α)
    (marshal : ListEventResponse → Slice Nat × Option GoError)
    (CalculateContentDigest : List Nat → String)
    (c : Service υ ε α) (w : responses.ResponseWriter) (r : requests.Request) :
    Handled υ ε α :=
  let (id, err) := requests.LoadPathValue r pathValId
  if err.isSome then
    match callError err with
    | .error p => { svc := c, w := w, panicValue := some p }
    | .ok _ => { svc := c, w := responses.WriteInternalServerErrorResponse w, panicValue := none }
  else
    let (limit, page, err) := requests.GetPaginationParameters r.Query
    if err.isSome then
      match callError err with
      | .error p => { svc := c, w := w, panicValue := some p }
      | .ok msg => { svc := c, w := responses.WriteBadRequestResponse w msg, panicValue := none }
    else
      let eventName := r.Query.Get "eventName"
      let (c, (data, svcErr)) :=
        if eventName == "" then Service.GetEventsForUser A c id limit page
        else Service.GetByEventAndUser A c id eventName limit page
      if svcErr.isSome then
        match callError err with
        | .error p => { svc := c, w := w, panicValue := some p }
        | .ok _ =>
          { svc := c, w := responses.WriteInternalServerErrorResponse w, panicValue := none }
      else
        let resp := NewListEventsFromEventsList data
        let (respBytes, _) := marshal resp
        let digest := CalculateContentDigest (Slice.elems respBytes)
        { svc := c
          w := responses.WriteSuccessResponse w (some (.bytes (Slice.elems respBytes)))
            [responses.NoCachePrivate, responses.ContentDigest digest responses.SHA256]
          panicValue := none }

end adminservice

/-! ## internal/config -/

namespace config

def EMPTY_STRING : String := ""

/-- What the sources read outside the program: the environment of the process
(`os.LookupEnv`) and, for each URL, how the request `http.DefaultClient.Do` and the decoding
of its body end (the field `Value` of the body, or the error of one of the three steps). -/
structure World where
  env : GoMap String
  http : String → String × Option GoError

/-- The interface `Configurator`, read in a world.  `Must` returns its value or panics with
an error, which is the `error` of the result. -/
structure Configurator where
  Get : World → String × Option GoError
  Must : World → Except GoError String

/-- The struct `CustomSource[string]`. -/
structure CustomSource where
  f : World → String × Option GoError

def CustomSource.Get (t : CustomSource) (w : World) : String × Option GoError := t.f w

def CustomSource.Must (t : CustomSource) (w : World) : Except GoError String :=
  match t.f w with
  | (_, some err) => .error err
  | (v, none) => .ok v

/-- The struct `DefaultValueSource`. -/
structure DefaultValueSource where
  value : String
deriving DecidableEq, Repr

def NewDefaultValueSource (value : String) : DefaultValueSource := { value := value }

def DefaultValueSource.Get (d : DefaultValueSource) (_w : World) : String × Option GoError :=
  (d.value, none)

/-- The method `DefaultValueSource.Must`: `val, _ := d.Get(); return val`. -/
def DefaultValueSource.Must (d : DefaultValueSource) (w : World) : Except GoError String :=
  let (val, _) := d.Get w
  .ok val

/-- The struct `EnvironmentSource`. -/
structure EnvironmentSource where
  name : String
deriving DecidableEq, Repr

def NewEnvironmentSource (name : String) : EnvironmentSource := { name := name }

def EnvironmentSource.Get (e : EnvironmentSource) (w : World) : String × Option GoError :=
  match GoMap.get w.env e.name with
  | none => (EMPTY_STRING, some (.dynamic ("cannot find environment variable " ++ e.name)))
  | some val => (val, none)

def EnvironmentSource.Must (e : EnvironmentSource) (w : World) : Except GoError String :=
  match e.Get w with
  | (_, some err) => .error err
  | (v, none) => .ok v

/-- The struct `HttpSource`. -/
structure HttpSource where
  name : String
  baseUrl : String
deriving DecidableEq, Repr

def HttpSource.Get (h : HttpSource) (w : World) : String × Option GoError :=
  match w.http (h.baseUrl ++ "/" ++ h.name) with
  | (_, some err) => (EMPTY_STRING, some err)
  | (value, none) => (value, none)

def HttpSource.Must (h : HttpSource) (w : World) : Except GoError String :=
  match h.Get w with
  | (_, some err) => .error err
  | (v, none) => .ok v

/-- The text of `errors.Join(errs...)` under the verb `%w` of `fmt.Errorf`: `Join` of no
error is nil. -/
def joinText (errs : List GoError) : String :=
  match errs with
  | [] => "%!w(<nil>)"
  | _ => "\n".intercalate (errs.map GoError.Error)

/-- The struct `First`. -/
structure First where
  sources : List Configurator

/-- The function `NewFirst`. -/
def NewFirst (configurators : List Configurator) : First := { sources := configurators }

/-- The loop of `First.Get` over the sources still to visit, with the errors collected, and
the statement after it.  The error made by `fmt.Errorf` is kept by its text. -/
def First.loop (w : World) : List Configurator → List GoError → String × Option GoError
  | [], errs => (EMPTY_STRING, some (.dynamic ("No values found, errors: " ++ joinText errs)))
  | source :: rest, errs =>
    match source.Get w with
    | (v, none) => (v, none)
    | (_, some err) => First.loop w rest (errs ++ [err])

/-- The method `First.Get`. -/
def First.Get (f : First) (w : World) : String × Option GoError :=
  First.loop w f.sources []

/-- The method `First.Must`. -/
def First.Must (f : First) (w : World) : Except GoError String :=
  match f.Get w with
  | (_, some err) => .error err
  | (v, none) => .ok v

/-- The four sources and `First` as values of the interface. -/
def CustomSource.Configurator (t : CustomSource) : Configurator :=
  { Get := t.Get, Must := t.Must }

def DefaultValueSource.Configurator (d : DefaultValueSource) : Configurator :=
  { Get := d.Get, Must := d.Must }

def EnvironmentSource.Configurator (e : EnvironmentSource) : Configurator :=
  { Get := e.Get, Must := e.Must }

def HttpSource.Configurator (h : HttpSource) : Configurator :=
  { Get := h.Get, Must := h.Must }

def First.Configurator (f : First) : Configurator :=
  { Get := f.Get, Must := f.Must }

end config

/-! # Theorems -/

/-! ## Event construction -/

namespace events

open pkgexample

/-- C8: for every `userId` and payload `data`, `NewEvent` (a total function: it has no
failing path) returns the event with `Name = data.Name()`, `EntityId = data.EntityId()`,
`UserId = userId` and `Data = data`; for `ExampleCreated`, `ExampleUpdated` and
`ExampleDeleted` with a given `Id` the name is the matching constant and the entity id is
`Id`; the three constants are pairwise distinct. -/
theorem NewEvent_derives_fields_from_data (now : Int) (userId : String) (data : EventData) :
    ((NewEvent now userId data).Name = data.Name
      ∧ (NewEvent now userId data).EntityId = data.EntityId
      ∧ (NewEvent now userId data).UserId = userId
      ∧ (NewEvent now userId data).Data = some data)
    ∧ (∀ id : String,
        ((NewEvent now userId (.ExampleCreated { Id := id })).Name = ExampleCreatedEvent
          ∧ (NewEvent now userId (.ExampleCreated { Id := id })).EntityId = id)
        ∧ ((NewEvent now userId (.ExampleUpdated { Id := id })).Name = ExampleUpdatedEvent
          ∧ (NewEvent now userId (.ExampleUpdated { Id := id })).EntityId = id)
        ∧ ((NewEvent now userId (.ExampleDeleted { Id := id })).Name = ExampleDeletedEvent
          ∧ (NewEvent now userId (.ExampleDeleted { Id := id })).EntityId = id))
    ∧ (ExampleCreatedEvent ≠ ExampleUpdatedEvent
        ∧ ExampleCreatedEvent ≠ ExampleDeletedEvent
        ∧ ExampleUpdatedEvent ≠ ExampleDeletedEvent) := by
  refine ⟨⟨rfl, rfl, rfl, rfl⟩, fun id => ⟨⟨rfl, rfl⟩, ⟨rfl, rfl⟩, ⟨rfl, rfl⟩⟩, ?_, ?_, ?_⟩ <;>
    decide

/-- C10, as stated, fails: `NewEvent` checks nothing, so the event built from the empty user
id and the payload `ExampleCreated{}` has an empty `UserId` and an empty `EntityId`. -/
theorem NewEvent_nonempty_ids_counterexample :
    ¬ (∀ (now : Int) (userId : String) (data : EventData),
        (NewEvent now userId data).UserId ≠ "" ∧ (NewEvent now userId data).EntityId ≠ "") := by
  intro h
  exact (h 0 "" (.ExampleCreated { Id := "" })).1 rfl

/-- C10, amended: `NewEvent` copies its arguments unchecked, so the event has a non-empty
`UserId` exactly when the `userId` argument is non-empty, and a non-empty `EntityId`
exactly when the `Id` of the payload is non-empty. -/
theorem NewEvent_ids_nonempty_iff (now : Int) (userId : String) (data : EventData) :
    ((NewEvent now userId data).UserId ≠ "" ↔ userId ≠ "")
    ∧ ((NewEvent now userId data).EntityId ≠ "" ↔ data.EntityId ≠ "")
    ∧ (∀ id : String, (NewEvent now userId (.ExampleCreated { Id := id })).EntityId ≠ "" ↔ id ≠ "")
    ∧ (∀ id : String, (NewEvent now userId (.ExampleUpdated { Id := id })).EntityId ≠ "" ↔ id ≠ "")
    ∧ (∀ id : String, (NewEvent now userId (.ExampleDeleted { Id := id })).EntityId ≠ "" ↔ id ≠ "") :=
  ⟨Iff.rfl, Iff.rfl, fun _ => Iff.rfl, fun _ => Iff.rfl, fun _ => Iff.rfl⟩

end events

/-! ## Producers: the services on a recording bus -/

namespace exampleservice

open pkgexample events bus

/-- C7: over any store and the recording bus, `Add`, `Update` and `Delete` append exactly one
event to the bus when they return a nil error, with `UserId` the `userId` argument,
`EntityId` the id of the item stored (`Add`), updated (`Update`) or deleted (`Delete`) and
`Name` the constant `ExampleCreated`, `ExampleUpdated`, `ExampleDeleted`; when they
return an error the bus holds the same events as before. -/
theorem Service_notifies_exactly_once_on_success {σ : Type} (I : Storer σ) (now : Int)
    (e : Service σ) (userId id message : String) :
    (((Service.Add I now e userId message).2.2 = none →
        ∃ ev : Event,
          (Service.Add I now e userId message).1.Bus.Messages = e.Bus.Messages ++ [ev]
          ∧ ev.UserId = userId
          ∧ ev.EntityId = (Service.Add I now e userId message).2.1.Id
          ∧ ev.Name = ExampleCreatedEvent)
      ∧ ((Service.Add I now e userId message).2.2 ≠ none →
        (Service.Add I now e userId message).1.Bus.Messages = e.Bus.Messages))
    ∧ (((Service.Update I now e userId id message).2.2 = none →
        ∃ ev : Event,
          (Service.Update I now e userId id message).1.Bus.Messages = e.Bus.Messages ++ [ev]
          ∧ ev.UserId = userId
          ∧ ev.EntityId = (Service.Update I now e userId id message).2.1.Id
          ∧ ev.Name = ExampleUpdatedEvent)
      ∧ ((Service.Update I now e userId id message).2.2 ≠ none →
        (Service.Update I now e userId id message).1.Bus.Messages = e.Bus.Messages))
    ∧ (((Service.Delete I now e userId id).2 = none →
        ∃ ev : Event,
          (Service.Delete I now e userId id).1.Bus.Messages = e.Bus.Messages ++ [ev]
          ∧ ev.UserId = userId
          ∧ ev.EntityId = id
          ∧ ev.Name = ExampleDeletedEvent)
      ∧ ((Service.Delete I now e userId id).2 ≠ none →
        (Service.Delete I now e userId id).1.Bus.Messages = e.Bus.Messages)) := by
  refine ⟨?_, ?_, ?_⟩
  · unfold Service.Add
    split
    · simp
    · split
      · simp
      · simp [FakeBus.Notify, NewEvent, EventData.Name, EventData.EntityId,
          ExampleCreated.Name, ExampleCreated.EntityId]
  · unfold Service.Update
    split
    · simp
    · split
      · simp
      · split
        · split <;> simp
        · simp [FakeBus.Notify, NewEvent, EventData.Name, EventData.EntityId,
            ExampleUpdated.Name, ExampleUpdated.EntityId]
  · unfold Service.Delete
    split
    · split <;> simp
    · simp [FakeBus.Notify, NewEvent, EventData.Name, EventData.EntityId,
        ExampleDeleted.Name, ExampleDeleted.EntityId]

/-- C7 at a concrete input: `Add("u", "Hello")` on the empty in-memory repository returns a
nil error and records one event. -/
theorem Service_notifies_exactly_once_on_success_witness :
    (Service.Add exampleRepositoryStorer 0
        { Store := NewInMemoryExampleRepository (fun _ => "id-1"), Bus := NewFake }
        "u" "Hello").2.2 = none
    ∧ ∃ ev : Event,
        (Service.Add exampleRepositoryStorer 0
          { Store := NewInMemoryExampleRepository (fun _ => "id-1"), Bus := NewFake }
          "u" "Hello").1.Bus.Messages = NewFake.Messages ++ [ev]
        ∧ ev.UserId = "u"
        ∧ ev.EntityId = (Service.Add exampleRepositoryStorer 0
            { Store := NewInMemoryExampleRepository (fun _ => "id-1"), Bus := NewFake }
            "u" "Hello").2.1.Id
        ∧ ev.Name = ExampleCreatedEvent :=
  ⟨by decide,
   (Service_notifies_exactly_once_on_success exampleRepositoryStorer 0
      { Store := NewInMemoryExampleRepository (fun _ => "id-1"), Bus := NewFake }
      "u" "id-1" "Hello").1.1 (by decide)⟩

end exampleservice

namespace adminservice

open pkgexample events bus

/-- C9, as stated, fails: on the in-memory user store and the recording bus, `AddUser("u1")`
returns a nil error and the bus holds no event, and the `DeleteUser("u1")` that follows
returns a nil error and the bus still holds no event. -/
theorem Service_user_flows_counterexample :
    (Service.AddUser userMemoryStorer
        ({ UserStore := newInMemoryUserStore, ExampleStore := (), AuditStore := (),
           Bus := NewFake } : Service userMemoryStore Unit Unit) "u1").2 = none
    ∧ (Service.AddUser userMemoryStorer
        ({ UserStore := newInMemoryUserStore, ExampleStore := (), AuditStore := (),
           Bus := NewFake } : Service userMemoryStore Unit Unit) "u1").1.Bus.Messages = []
    ∧ (Service.DeleteUser userMemoryStorer
        (Service.AddUser userMemoryStorer
          ({ UserStore := newInMemoryUserStore, ExampleStore := (), AuditStore := (),
             Bus := NewFake } : Service userMemoryStore Unit Unit) "u1").1 "u1").2 = none
    ∧ (Service.DeleteUser userMemoryStorer
        (Service.AddUser userMemoryStorer
          ({ UserStore := newInMemoryUserStore, ExampleStore := (), AuditStore := (),
             Bus := NewFake } : Service userMemoryStore Unit Unit) "u1").1 "u1").1.Bus.Messages
        = [] := by
  decide

/-- C9, amended: `AddUser` and `DeleteUser` never touch the bus, whatever the user store
answers; of the mutations of the admin service only `DeleteExample` submits an event: when
it returns a nil error it appends exactly one `ExampleDeleted` event carrying the acting
user's id and the deleted example's id. -/
theorem Service_user_flows_leave_bus_unchanged {υ ε α : Type} (U : UserStorer υ)
    (E : ExampleStorer ε) (now : Int) (s : Service υ ε α) (userId id : String) :
    (Service.AddUser U s id).1.Bus = s.Bus
    ∧ (Service.DeleteUser U s id).1.Bus = s.Bus
    ∧ ((Service.DeleteExample E now s userId id).2 = none →
        ∃ ev : Event,
          (Service.DeleteExample E now s userId id).1.Bus.Messages = s.Bus.Messages ++ [ev]
          ∧ ev.UserId = userId
          ∧ ev.EntityId = id
          ∧ ev.Name = ExampleDeletedEvent) := by
  refine ⟨?_, ?_, ?_⟩
  · unfold Service.AddUser
    simp only
    split <;> rfl
  · unfold Service.DeleteUser
    split
    · split <;> rfl
    · rfl
  · unfold Service.DeleteExample
    split
    · split <;> simp
    · simp [FakeBus.Notify, NewEvent, EventData.Name, EventData.EntityId,
        ExampleDeleted.Name, ExampleDeleted.EntityId]

/-- C9, amended, at a concrete input: `DeleteExample("admin", "id-1")` on the in-memory
example store that holds the item `id-1` returns a nil error and records the event. -/
theorem Service_user_flows_leave_bus_unchanged_witness :
    (Service.DeleteExample exampleMemoryStorer 0
        ({ UserStore := newInMemoryUserStore
           ExampleStore :=
            ((newInMemoryExampleStore (fun _ => "id-1")).add
              { UserId := "u", Id := "", Message := "Hello" }).1
           AuditStore := ()
           Bus := NewFake } : Service userMemoryStore exampleMemoryStore Unit)
        "admin" "id-1").2 = none
    ∧ ∃ ev : Event,
        (Service.DeleteExample exampleMemoryStorer 0
          ({ UserStore := newInMemoryUserStore
             ExampleStore :=
              ((newInMemoryExampleStore (fun _ => "id-1")).add
                { UserId := "u", Id := "", Message := "Hello" }).1
             AuditStore := ()
             Bus := NewFake } : Service userMemoryStore exampleMemoryStore Unit)
          "admin" "id-1").1.Bus.Messages = NewFake.Messages ++ [ev]
        ∧ ev.UserId = "admin"
        ∧ ev.EntityId = "id-1"
        ∧ ev.Name = ExampleDeletedEvent :=
  ⟨by decide,
   (Service_user_flows_leave_bus_unchanged userMemoryStorer exampleMemoryStorer 0
      ({ UserStore := newInMemoryUserStore
         ExampleStore :=
          ((newInMemoryExampleStore (fun _ => "id-1")).add
            { UserId := "u", Id := "", Message := "Hello" }).1
         AuditStore := ()
         Bus := NewFake } : Service userMemoryStore exampleMemoryStore Unit)
      "admin" "id-1").2.2 (by decide)⟩

end adminservice

/-! ## The bus -/

namespace bus

open events

theorem foldl_spawn (v : Event) (l : List Nat) (s : System) :
    l.foldl (spawn v) s =
      { s with
        b := { s.b with wg := s.b.wg + l.length }
        goroutines := s.goroutines ++ l.map (fun i => ⟨i, v⟩)
        started := s.started ++ l.map (fun i => ⟨i, v⟩) } := by
  induction l generalizing s with
  | nil => simp
  | cons i l ih =>
    simp only [List.foldl_cons, ih, spawn, List.length_cons, List.map_cons, List.append_assoc,
      List.singleton_append]
    congr 2
    omega

theorem fanOut_eq (v : Event) (s : System) :
    fanOut v s =
      { s with
        b := { s.b with wg := s.b.wg + s.b.subscribers.length }
        goroutines := s.goroutines ++ invocationsOf s.b.subscribers.length v
        started := s.started ++ invocationsOf s.b.subscribers.length v } := by
  unfold fanOut invocationsOf
  rw [foldl_spawn]
  simp

theorem run_append (s : System) (as bs : List Action) :
    run s (as ++ bs) = (run s as).bind (fun t => run t bs) := by
  induction as generalizing s with
  | nil => rfl
  | cons a as ih =>
    simp only [List.cons_append, run]
    cases h : step s a with
    | error p => rfl
    | ok t => simpa using ih t

theorem Inv_init (subscribers : Subscribers) (deadline : Nat) :
    Inv subscribers (System.init subscribers deadline) := by
  constructor <;> simp [System.init, New, makeChan, drainLog]

/-- With capacity zero and an empty buffer, a receive either blocks, or takes the value of
the oldest parked sender, or finds the channel closed. -/
theorem recv_cases (c : Chan) (hb : c.buf = []) :
    (c.recv = none ∧ c.sendq = [] ∧ c.closed = false)
    ∨ (∃ e q, c.sendq = e :: q ∧ c.recv = some ⟨e, true, some e, { c with sendq := q }⟩)
    ∨ (c.sendq = [] ∧ c.closed = true ∧ c.recv = some ⟨events.Nil, false, none, c⟩) := by
  unfold Chan.recv
  rw [hb]
  cases hq : c.sendq with
  | nil =>
    cases hc : c.closed
    · left; simp
    · right; right; simp
  | cons e q => right; left; exact ⟨e, q, rfl, rfl⟩

theorem Inv_Listen (subscribers : Subscribers) (c : SelectCase) (s : System)
    (h : Inv subscribers s) : Inv subscribers (Listen c s) := by
  unfold Listen
  cases hl : s.listen with
  | Stopped => exact h
  | Running =>
    cases c with
    | done =>
      simp only
      split
      · constructor
        · exact h.subs_eq
        · exact h.cap_zero
        · exact h.buf_nil
        · exact h.drained_nil
        · exact h.wg_eq
        · exact h.started_eq
        · exact h.returned_sub
        · exact h.closed_iff
        · exact h.closed_sendq
        · exact h.doneChan_false
        · exact h.log_eq
      · exact h
    | recv =>
      simp only
      rcases recv_cases s.b.ch h.buf_nil with ⟨hr, -, -⟩ | ⟨e, q, hq, hr⟩ | ⟨hq, hc, hr⟩
      · rw [hr]; exact h
      · rw [hr]; dsimp only; rw [fanOut_eq]
        have hcl : s.b.ch.closed = false := by
          cases hc : s.b.ch.closed
          · rfl
          · have := h.closed_sendq hc; rw [hq] at this; cases this
        constructor
        · exact h.subs_eq
        · exact h.cap_zero
        · exact h.buf_nil
        · exact h.drained_nil
        · simp [h.wg_eq, h.subs_eq, invocationsOf]
        · simp [h.started_eq, h.subs_eq]
        · simpa using List.Sublist.append h.returned_sub (List.Sublist.refl [e])
        · exact h.closed_iff
        · intro hc; simp [hcl] at hc
        · exact h.doneChan_false
        · exact h.log_eq
      · rw [hr]; dsimp only; rw [fanOut_eq]
        constructor
        · exact h.subs_eq
        · exact h.cap_zero
        · exact h.buf_nil
        · exact h.drained_nil
        · simp [h.wg_eq, h.subs_eq, invocationsOf]
        · simp [h.started_eq, h.subs_eq, events.Nil]
        · simpa using List.Sublist.trans h.returned_sub (List.sublist_append_left _ _)
        · exact h.closed_iff
        · exact h.closed_sendq
        · exact h.doneChan_false
        · exact h.log_eq

/-- On a channel of capacity zero a send on the open channel parks the sender, and a send on
the closed channel panics. -/
theorem Notify_eq (subscribers : Subscribers) (e : Event) (s : System)
    (h : Inv subscribers s) :
    (s.b.ch.closed = true ∧ Notify e s = .error "send on closed channel")
    ∨ (s.b.ch.closed = false
        ∧ Notify e s =
          .ok { s with b := { s.b with ch := { s.b.ch with sendq := s.b.ch.sendq ++ [e] } } }) := by
  unfold Notify Chan.send
  cases hc : s.b.ch.closed
  · right
    simp [h.cap_zero, hc]
  · left
    simp

theorem Inv_notify (subscribers : Subscribers) (e : Event) (s t : System)
    (h : Inv subscribers s) (ht : step s (.notify e) = .ok t) : Inv subscribers t := by
  simp only [step] at ht
  rcases Notify_eq subscribers e s h with ⟨-, hn⟩ | ⟨hc, hn⟩
  · rw [hn] at ht
    cases ht
    exact ⟨h.subs_eq, h.cap_zero, h.buf_nil, h.drained_nil, h.wg_eq, h.started_eq,
      h.returned_sub, h.closed_iff, h.closed_sendq, h.doneChan_false, h.log_eq⟩
  · rw [hn] at ht
    cases ht
    refine ⟨h.subs_eq, h.cap_zero, h.buf_nil, h.drained_nil, h.wg_eq, h.started_eq,
      h.returned_sub, h.closed_iff, ?_, h.doneChan_false, h.log_eq⟩
    intro hc2
    simp [hc] at hc2

theorem Inv_signal (subscribers : Subscribers) (s : System) (h : Inv subscribers s) :
    Inv subscribers (signal s) := by
  unfold signal
  split
  · exact h
  · refine ⟨h.subs_eq, h.cap_zero, h.buf_nil, h.drained_nil, h.wg_eq, h.started_eq,
      h.returned_sub, h.closed_iff, h.closed_sendq, h.doneChan_false, ?_⟩
    have := h.log_eq
    simpa [drainLog, List.filter_append] using this

/-- In a state of the invariant the `i`-th live goroutine finishes without a panic. -/
theorem finish_eq (subscribers : Subscribers) (i : Nat) (s : System) (h : Inv subscribers s) :
    (s.goroutines[i]? = none ∧ finish i s = .ok s)
    ∨ (∃ g, s.goroutines[i]? = some g
        ∧ finish i s =
          .ok { s with
                b := { s.b with wg := s.b.wg - 1 }
                goroutines := s.goroutines.eraseIdx i
                outcomes := s.outcomes ++ [(g, (s.b.subscribers.getD g.sub (fun _ => none)) g.v)] }) := by
  unfold finish
  cases hg : s.goroutines[i]? with
  | none => left; simp
  | some g =>
    right
    refine ⟨g, rfl, ?_⟩
    have hi : i < s.goroutines.length := by
      rcases List.getElem?_eq_some_iff.mp hg with ⟨hi, -⟩
      exact hi
    have hw : s.b.wg ≠ 0 := by rw [h.wg_eq]; omega
    simp [wgDone, hw]

theorem Inv_finish (subscribers : Subscribers) (i : Nat) (s t : System)
    (h : Inv subscribers s) (ht : finish i s = .ok t) : Inv subscribers t := by
  rcases finish_eq subscribers i s h with ⟨-, hf⟩ | ⟨g, hg, hf⟩
  · rw [hf] at ht; cases ht; exact h
  · rw [hf] at ht
    cases ht
    have hi : i < s.goroutines.length := by
      rcases List.getElem?_eq_some_iff.mp hg with ⟨hi, -⟩
      exact hi
    refine ⟨h.subs_eq, h.cap_zero, h.buf_nil, h.drained_nil, ?_, h.started_eq,
      h.returned_sub, h.closed_iff, h.closed_sendq, h.doneChan_false, h.log_eq⟩
    simp [h.wg_eq, List.length_eraseIdx, hi]

/-- The steps of `CloseAndDrain` in a state of the invariant: the close succeeds and
releases the parked senders, the loop over the closed channel ends at once without a
value, and the final `select` returns when the deadline has passed or `doneChan` is closed. -/
theorem CloseAndDrain_eq (subscribers : Subscribers) (s : System) (h : Inv subscribers s) :
    (s.drain = .NotCalled
      ∧ CloseAndDrain s =
        .ok { s with
              b := { s.b with ch := { s.b.ch with closed := true, sendq := [] } }
              panicked := s.panicked ++ s.b.ch.sendq
              log := s.log ++ [⟨"INFO", QUEUE_CLOSED⟩]
              drain := .Ranging })
    ∨ (s.drain = .Ranging ∧ CloseAndDrain s = .ok { s with drain := .Waiting })
    ∨ (s.drain = .Waiting ∧ (s.deadline ≤ s.now ∨ s.doneChan = true)
        ∧ CloseAndDrain s = .ok { s with drain := .Returned })
    ∨ (s.drain = .Waiting ∧ ¬ (s.deadline ≤ s.now ∨ s.doneChan = true)
        ∧ CloseAndDrain s = .ok s)
    ∨ (s.drain = .Returned ∧ CloseAndDrain s = .ok s) := by
  unfold CloseAndDrain
  cases hd : s.drain with
  | NotCalled =>
    left
    have hc : s.b.ch.closed = false := by
      cases hc : s.b.ch.closed
      · rfl
      · exact absurd hd (h.closed_iff.mp hc)
    simp [Chan.close, hc]
  | Ranging =>
    right; left
    have hc : s.b.ch.closed = true := h.closed_iff.mpr (by simp [hd])
    have hq := h.closed_sendq hc
    simp [Chan.recv, h.buf_nil, hq, hc]
  | Waiting =>
    by_cases hw : s.deadline ≤ s.now ∨ s.doneChan = true
    · right; right; left
      refine ⟨rfl, hw, ?_⟩
      have : (decide (s.deadline ≤ s.now) || s.doneChan) = true := by
        rcases hw with hw | hw <;> simp [hw]
      simp [this]
    · right; right; right; left
      refine ⟨rfl, hw, ?_⟩
      have : (decide (s.deadline ≤ s.now) || s.doneChan) = false := by
        push_neg at hw
        simp [hw.1, hw.2]
      simp [this]
  | Returned => right; right; right; right; simp

theorem Inv_CloseAndDrain (subscribers : Subscribers) (s t : System)
    (h : Inv subscribers s) (ht : CloseAndDrain s = .ok t) : Inv subscribers t := by
  rcases CloseAndDrain_eq subscribers s h with
    ⟨hd, hc⟩ | ⟨hd, hc⟩ | ⟨hd, -, hc⟩ | ⟨-, -, hc⟩ | ⟨-, hc⟩
  · rw [hc] at ht
    cases ht
    refine ⟨h.subs_eq, h.cap_zero, h.buf_nil, h.drained_nil, h.wg_eq, h.started_eq,
      h.returned_sub, by simp, by simp, ?_, ?_⟩
    · intro _
      exact h.doneChan_false (Or.inl hd)
    · have := h.log_eq
      simp only [drainLog, hd, if_true] at this
      simp only [drainLog, List.filter_append, this]
      simp [List.filter, QUEUE_CLOSED, server.QueueShutdownSignalMsg]
  · rw [hc] at ht
    cases ht
    refine ⟨h.subs_eq, h.cap_zero, h.buf_nil, h.drained_nil, h.wg_eq, h.started_eq,
      h.returned_sub, ?_, h.closed_sendq, ?_, ?_⟩
    · have := h.closed_iff
      simp [hd] at this
      simp [this]
    · intro hx
      simp at hx
    · have := h.log_eq
      simp only [drainLog, hd] at this
      simpa [drainLog] using this
  · rw [hc] at ht
    cases ht
    refine ⟨h.subs_eq, h.cap_zero, h.buf_nil, h.drained_nil, h.wg_eq, h.started_eq,
      h.returned_sub, ?_, h.closed_sendq, ?_, ?_⟩
    · have := h.closed_iff
      simp [hd] at this
      simp [this]
    · intro hx
      simp at hx
    · have := h.log_eq
      simp only [drainLog, hd] at this
      simpa [drainLog] using this
  · rw [hc] at ht; cases ht; exact h
  · rw [hc] at ht; cases ht; exact h

theorem Inv_waiter (subscribers : Subscribers) (s : System) (h : Inv subscribers s) :
    Inv subscribers (waiter s) := by
  unfold waiter
  split
  · exact h
  · exact h
  · rename_i h1 h2
    split
    · refine ⟨h.subs_eq, h.cap_zero, h.buf_nil, h.drained_nil, h.wg_eq, h.started_eq,
        h.returned_sub, h.closed_iff, h.closed_sendq, ?_, h.log_eq⟩
      intro hx
      rcases hx with hx | hx
      · exact absurd hx h1
      · exact absurd hx h2
    · exact h

theorem Inv_step (subscribers : Subscribers) (s t : System) (a : Action)
    (h : Inv subscribers s) (ht : step s a = .ok t) : Inv subscribers t := by
  cases a with
  | notify e => exact Inv_notify subscribers e s t h ht
  | signal => simp only [step] at ht; cases ht; exact Inv_signal subscribers s h
  | listen c => simp only [step] at ht; cases ht; exact Inv_Listen subscribers c s h
  | finish i => exact Inv_finish subscribers i s t h ht
  | drain => exact Inv_CloseAndDrain subscribers s t h ht
  | waiter => simp only [step] at ht; cases ht; exact Inv_waiter subscribers s h
  | tick =>
    simp only [step] at ht
    cases ht
    exact ⟨h.subs_eq, h.cap_zero, h.buf_nil, h.drained_nil, h.wg_eq, h.started_eq,
      h.returned_sub, h.closed_iff, h.closed_sendq, h.doneChan_false, h.log_eq⟩

/-- No step panics in a state of the invariant. -/
theorem step_ok (subscribers : Subscribers) (s : System) (a : Action)
    (h : Inv subscribers s) : ∃ t, step s a = .ok t := by
  cases a with
  | notify e =>
    simp only [step]
    rcases Notify_eq subscribers e s h with ⟨-, hn⟩ | ⟨-, hn⟩ <;> rw [hn] <;> exact ⟨_, rfl⟩
  | signal => exact ⟨_, rfl⟩
  | listen c => exact ⟨_, rfl⟩
  | finish i =>
    rcases finish_eq subscribers i s h with ⟨-, hf⟩ | ⟨g, -, hf⟩ <;> exact ⟨_, hf⟩
  | drain =>
    rcases CloseAndDrain_eq subscribers s h with
      ⟨-, hc⟩ | ⟨-, hc⟩ | ⟨-, -, hc⟩ | ⟨-, -, hc⟩ | ⟨-, hc⟩ <;> exact ⟨_, hc⟩
  | waiter => exact ⟨_, rfl⟩
  | tick => exact ⟨_, rfl⟩

/-- Every schedule runs without a panic from a state of the invariant, and ends in a state
of the invariant. -/
theorem run_Inv (subscribers : Subscribers) (as : List Action) (s : System)
    (h : Inv subscribers s) : ∃ t, run s as = .ok t ∧ Inv subscribers t := by
  induction as generalizing s with
  | nil => exact ⟨s, rfl, h⟩
  | cons a as ih =>
    obtain ⟨u, hu⟩ := step_ok subscribers s a h
    obtain ⟨t, ht, hI⟩ := ih u (Inv_step subscribers s u a h hu)
    exact ⟨t, by simp only [run, hu, ht], hI⟩

theorem run_init_Inv (subscribers : Subscribers) (deadline : Nat) (as : List Action) :
    ∃ t, run (System.init subscribers deadline) as = .ok t ∧ Inv subscribers t :=
  run_Inv subscribers as _ (Inv_init subscribers deadline)

theorem facts_of_frame (s t : System) (P : Prop) (h1 : t.deadline = s.deadline)
    (h2 : t.now = s.now) (h3 : t.drain = s.drain) (h4 : t.doneChan = s.doneChan)
    (h5 : s.b.wg ≤ t.b.wg) :
    t.deadline = s.deadline
    ∧ s.now ≤ t.now
    ∧ (t.drain = .Returned → s.drain ≠ .Returned →
        s.drain = .Waiting ∧ (s.deadline ≤ s.now ∨ s.doneChan = true))
    ∧ (t.doneChan = true → s.doneChan = false →
        s.b.wg = 0 ∧ (s.drain = .Waiting ∨ s.drain = .Returned))
    ∧ (P → s.b.wg ≤ t.b.wg) := by
  refine ⟨h1, by rw [h2], fun hr hn => absurd (h3 ▸ hr) hn, fun hd hf => ?_, fun _ => h5⟩
  rw [h4, hf] at hd
  cases hd

/-- What one step can change of the clock, of the state of `CloseAndDrain`, of `doneChan` and
of the in-flight counter. -/
theorem step_facts (s t : System) (a : Action) (h : step s a = .ok t) :
    t.deadline = s.deadline
    ∧ s.now ≤ t.now
    ∧ (t.drain = .Returned → s.drain ≠ .Returned →
        s.drain = .Waiting ∧ (s.deadline ≤ s.now ∨ s.doneChan = true))
    ∧ (t.doneChan = true → s.doneChan = false →
        s.b.wg = 0 ∧ (s.drain = .Waiting ∨ s.drain = .Returned))
    ∧ ((∀ i, a ≠ .finish i) → s.b.wg ≤ t.b.wg) := by
  cases a with
  | notify e =>
    simp only [step, Notify] at h
    cases hs : s.b.ch.send e with
    | error p =>
      simp only [hs] at h
      cases h
      exact facts_of_frame _ _ _ rfl rfl rfl rfl (le_refl _)
    | ok cb =>
      obtain ⟨c, b⟩ := cb
      cases b <;>
      · simp only [hs] at h
        cases h
        exact facts_of_frame _ _ _ rfl rfl rfl rfl (le_refl _)
  | signal =>
    simp only [step, signal] at h
    split at h <;>
    · cases h
      exact facts_of_frame _ _ _ rfl rfl rfl rfl (le_refl _)
  | listen c =>
    simp only [step, Listen] at h
    cases hl : s.listen with
    | Stopped =>
      simp only [hl] at h
      cases h
      exact facts_of_frame _ _ _ rfl rfl rfl rfl (le_refl _)
    | Running =>
      cases c with
      | done =>
        simp only [hl] at h
        split at h <;>
        · cases h
          exact facts_of_frame _ _ _ rfl rfl rfl rfl (le_refl _)
      | recv =>
        simp only [hl] at h
        cases hr : s.b.ch.recv with
        | none =>
          simp only [hr] at h
          cases h
          exact facts_of_frame _ _ _ rfl rfl rfl rfl (le_refl _)
        | some r =>
          simp only [hr, fanOut_eq] at h
          cases h
          exact facts_of_frame _ _ _ rfl rfl rfl rfl (Nat.le_add_right _ _)
  | finish i =>
    simp only [step, finish] at h
    cases hg : s.goroutines[i]? with
    | none =>
      simp only [hg] at h
      cases h
      exact facts_of_frame _ _ _ rfl rfl rfl rfl (le_refl _)
    | some g =>
      cases hw : wgDone s.b.wg with
      | error p =>
        simp only [hg, hw] at h
        cases h
      | ok n =>
        simp only [hg, hw] at h
        cases h
        refine ⟨rfl, le_refl _, fun hr hn => absurd hr hn, fun hd hf => ?_, fun hne => ?_⟩
        · rw [hf] at hd
          cases hd
        · exact absurd rfl (hne i)
  | drain =>
    simp only [step, CloseAndDrain] at h
    cases hd : s.drain with
    | NotCalled =>
      cases hc : s.b.ch.close with
      | error p =>
        simp only [hd, hc] at h
        cases h
      | ok cr =>
        simp only [hd, hc] at h
        cases h
        refine ⟨rfl, le_refl _, ?_, ?_, ?_⟩ <;> intros <;> simp_all
    | Ranging =>
      cases hr : s.b.ch.recv with
      | none =>
        simp only [hd, hr] at h
        cases h
        refine ⟨rfl, le_refl _, ?_, ?_, ?_⟩ <;> intros <;> simp_all
      | some r =>
        obtain ⟨v, ok, woken, c⟩ := r
        cases ok with
        | true =>
          simp only [hd, hr, fanOut_eq, if_true] at h
          cases h
          refine ⟨rfl, le_refl _, ?_, ?_, ?_⟩ <;> intros <;> simp_all
        | false =>
          simp only [hd, hr] at h
          cases h
          refine ⟨rfl, le_refl _, ?_, ?_, ?_⟩ <;> intros <;> simp_all
    | Waiting =>
      simp only [hd] at h
      split at h
      · rename_i hw
        cases h
        simp only [Bool.or_eq_true, decide_eq_true_eq] at hw
        refine ⟨rfl, le_refl _, fun _ _ => ⟨rfl, hw⟩, ?_, ?_⟩ <;> intros <;> simp_all
      · cases h
        refine ⟨rfl, le_refl _, ?_, ?_, ?_⟩ <;> intros <;> simp_all
    | Returned =>
      simp only [hd] at h
      cases h
      refine ⟨rfl, le_refl _, ?_, ?_, ?_⟩ <;> intros <;> simp_all
  | waiter =>
    simp only [step, waiter] at h
    cases hd : s.drain with
    | NotCalled =>
      simp only [hd] at h
      cases h
      refine ⟨rfl, le_refl _, ?_, ?_, ?_⟩ <;> intros <;> simp_all
    | Ranging =>
      simp only [hd] at h
      cases h
      refine ⟨rfl, le_refl _, ?_, ?_, ?_⟩ <;> intros <;> simp_all
    | Waiting =>
      simp only [hd] at h
      split at h
      · rename_i hw
        cases h
        refine ⟨rfl, le_refl _, ?_, ?_, ?_⟩ <;> intros <;> simp_all
      · cases h
        refine ⟨rfl, le_refl _, ?_, ?_, ?_⟩ <;> intros <;> simp_all
    | Returned =>
      simp only [hd] at h
      split at h
      · rename_i hw
        cases h
        refine ⟨rfl, le_refl _, ?_, ?_, ?_⟩ <;> intros <;> simp_all
      · cases h
        refine ⟨rfl, le_refl _, ?_, ?_, ?_⟩ <;> intros <;> simp_all
  | tick =>
    simp only [step] at h
    cases h
    refine ⟨rfl, Nat.le_succ _, ?_, ?_, ?_⟩ <;> intros <;> simp_all

/-- Along a run the deadline stays and the clock does not go back. -/
theorem run_clock (as : List Action) (s t : System) (h : run s as = .ok t) :
    t.deadline = s.deadline ∧ s.now ≤ t.now := by
  induction as generalizing s with
  | nil => cases h; exact ⟨rfl, le_refl _⟩
  | cons a as ih =>
    simp only [run] at h
    cases hs : step s a with
    | error p => rw [hs] at h; cases h
    | ok u =>
      rw [hs] at h
      obtain ⟨h1, h2, -⟩ := step_facts s u a hs
      obtain ⟨h3, h4⟩ := ih u h
      exact ⟨h3.trans h1, le_trans h2 h4⟩

/-- Along a run in which no invocation finishes the in-flight counter does not go down. -/
theorem run_wg_mono (as : List Action) (s t : System) (hf : ∀ i, Action.finish i ∉ as)
    (h : run s as = .ok t) : s.b.wg ≤ t.b.wg := by
  induction as generalizing s with
  | nil => cases h; exact le_refl _
  | cons a as ih =>
    simp only [run] at h
    cases hs : step s a with
    | error p => rw [hs] at h; cases h
    | ok u =>
      rw [hs] at h
      obtain ⟨-, -, -, -, h5⟩ := step_facts s u a hs
      have ha : ∀ i, a ≠ .finish i := fun i hi => hf i (by simp [hi])
      have hf2 : ∀ i, Action.finish i ∉ as := fun i hi => hf i (List.mem_cons_of_mem _ hi)
      exact le_trans (h5 ha) (ih u hf2 h)

/-- A run that ends with `CloseAndDrain` returned, from a state in which it has not returned and
`doneChan` is open, has passed the deadline or a state in the final `select` with the
in-flight counter at zero. -/
theorem run_returned (as : List Action) (s t : System) (h : run s as = .ok t)
    (hr : t.drain = .Returned) (hn : s.drain ≠ .Returned) (hd : s.doneChan = false) :
    t.deadline ≤ t.now
    ∨ ∃ as1 as2 u, as = as1 ++ as2 ∧ run s as1 = .ok u ∧ u.drain = .Waiting ∧ u.b.wg = 0 := by
  induction as generalizing s with
  | nil => cases h; exact absurd hr hn
  | cons a as ih =>
    simp only [run] at h
    cases hs : step s a with
    | error p => rw [hs] at h; cases h
    | ok s1 =>
      rw [hs] at h
      obtain ⟨h1, h2, h3, h4, -⟩ := step_facts s s1 a hs
      obtain ⟨h5, h6⟩ := run_clock as s1 t h
      by_cases hr1 : s1.drain = .Returned
      · left
        rcases (h3 hr1 hn).2 with hw | hw
        · rw [h5, h1]
          exact le_trans hw (le_trans h2 h6)
        · rw [hd] at hw
          cases hw
      · cases hd1 : s1.doneChan with
        | false =>
          rcases ih s1 h hr1 hd1 with hl | ⟨as1, as2, u, e1, e2, e3, e4⟩
          · exact Or.inl hl
          · right
            refine ⟨a :: as1, as2, u, by simp [e1], ?_, e3, e4⟩
            simp only [run, hs, e2]
        | true =>
          right
          obtain ⟨hw, hdr⟩ := h4 hd1 hd
          refine ⟨[], a :: as, s, rfl, rfl, ?_, hw⟩
          rcases hdr with hdr | hdr
          · exact hdr
          · exact absurd hdr hn

/-- C2: for a state `s` in which `CloseAndDrain` has not been called (so `doneChan` is not
closed).
Not before: a run that ends with `CloseAndDrain` returned has reached the deadline or has
passed a state of the final `select` with the in-flight counter at zero.
As soon as: in any state `u` of the final `select`, a zero counter lets `CloseAndDrain`
return with no time passing (the waiting goroutine closes `doneChan`, the `select` takes
it), and so does a deadline that has been reached.
With an empty open queue and a zero counter the whole call returns with no time passing,
whatever the deadline; with a non-zero counter and no invocation ever finishing, the call
has returned only in states at or past the deadline. -/
theorem CloseAndDrain_returns_on_completion_or_deadline (s : System)
    (hN : s.drain = .NotCalled) (hD : s.doneChan = false) :
    (∀ (as : List Action) (t : System), run s as = .ok t → t.drain = .Returned →
        t.deadline ≤ t.now
        ∨ ∃ as1 as2 u, as = as1 ++ as2 ∧ run s as1 = .ok u ∧ u.drain = .Waiting ∧ u.b.wg = 0)
    ∧ (∀ u : System, u.drain = .Waiting →
        (u.b.wg = 0 →
          ∃ t, run u [.waiter, .drain] = .ok t ∧ t.drain = .Returned ∧ t.now = u.now)
        ∧ (u.deadline ≤ u.now →
          ∃ t, run u [.drain] = .ok t ∧ t.drain = .Returned ∧ t.now = u.now)
        ∧ (u.b.wg ≠ 0 → u.now < u.deadline → u.doneChan = false →
          run u [.waiter, .drain] = .ok u))
    ∧ (s.b.ch.closed = false → s.b.ch.buf = [] → s.b.ch.sendq = [] → s.b.wg = 0 →
        ∃ t, run s [.drain, .drain, .waiter, .drain] = .ok t
          ∧ t.drain = .Returned ∧ t.now = s.now)
    ∧ (s.b.wg ≠ 0 →
        ∀ (as : List Action) (t : System), (∀ i, Action.finish i ∉ as) → run s as = .ok t →
          t.drain = .Returned → t.deadline ≤ t.now) := by
  have hn : s.drain ≠ .Returned := by rw [hN]; simp
  refine ⟨fun as t h hr => run_returned as s t h hr hn hD, fun u hu => ⟨?_, ?_, ?_⟩, ?_, ?_⟩
  · intro hw
    refine ⟨{ u with doneChan := true, drain := .Returned }, ?_, rfl, rfl⟩
    simp [run, step, waiter, CloseAndDrain, hu, hw]
  · intro hd
    refine ⟨{ u with drain := .Returned }, ?_, rfl, rfl⟩
    simp [run, step, CloseAndDrain, hu, hd]
  · intro hw hlt hdc
    have : ¬ u.deadline ≤ u.now := by omega
    simp [run, step, waiter, CloseAndDrain, hu, hw, this, hdc]
  · intro hc hb hq hw
    refine ⟨{ s with
              b := { s.b with ch := { s.b.ch with closed := true, sendq := [] } }
              panicked := s.panicked ++ s.b.ch.sendq
              log := s.log ++ [⟨"INFO", QUEUE_CLOSED⟩]
              doneChan := true
              drain := .Returned }, ?_, rfl, rfl⟩
    simp [run, step, waiter, CloseAndDrain, Chan.close, Chan.recv, hN, hc, hb, hq, hw]
  · intro hw as t hf h hr
    rcases run_returned as s t h hr hn hD with hl | ⟨as1, as2, u, e1, e2, -, e4⟩
    · exact hl
    · have hf1 : ∀ i, Action.finish i ∉ as1 := by
        intro i hi
        exact hf i (by rw [e1]; exact List.mem_append_left _ hi)
      have := run_wg_mono as1 s u hf1 e2
      omega

/-- C2 at a concrete input: on a fresh bus, with the deadline seven ticks away,
`CloseAndDrain` returns at time zero. -/
theorem CloseAndDrain_returns_on_completion_or_deadline_witness :
    ∃ t, run (System.init [fun _ => none] 7) [.drain, .drain, .waiter, .drain] = .ok t
      ∧ t.drain = .Returned ∧ t.now = (System.init [fun _ => none] 7).now :=
  (CloseAndDrain_returns_on_completion_or_deadline (System.init [fun _ => none] 7)
    rfl rfl).2.2.1 rfl rfl rfl rfl

theorem invocationsOf_count (k : Nat) (e : Event) (i : Nat) (hi : i < k) :
    (invocationsOf k e).count ⟨i, e⟩ = 1 := by
  have hinj : Function.Injective (fun j : Nat => (⟨j, e⟩ : Invocation)) := by
    intro a b hab
    simpa using congrArg Invocation.sub hab
  unfold invocationsOf
  rw [show (⟨i, e⟩ : Invocation) = (fun j : Nat => (⟨j, e⟩ : Invocation)) i from rfl,
    List.count_map_of_injective _ _ hinj]
  exact List.count_eq_one_of_mem (List.nodup_range k) (List.mem_range.mpr hi)

theorem invocationsOf_mem (k : Nat) (e : Event) (x : Invocation)
    (hx : x ∈ invocationsOf k e) : x.v = e ∧ x.sub < k := by
  unfold invocationsOf at hx
  rcases List.mem_map.mp hx with ⟨j, hj, rfl⟩
  exact ⟨rfl, List.mem_range.mp hj⟩

theorem length_flatMap_invocationsOf (k : Nat) (l : List Event) :
    (l.flatMap (invocationsOf k)).length = l.length * k := by
  induction l with
  | nil => simp
  | cons e l ih =>
    simp only [List.flatMap_cons, List.length_append, ih, List.length_cons]
    simp [invocationsOf, Nat.add_mul, Nat.add_comm]

/-- C3: in every run, once `CloseAndDrain` has been called (it closes the queue in its first
step), `Notify` of any event panics with "send on closed channel": the call does not
return, and the event is neither received nor left in the channel. -/
theorem Notify_after_CloseAndDrain_panics (subscribers : Subscribers) (deadline : Nat)
    (as : List Action) (event : Event) :
    ∃ t, run (System.init subscribers deadline) as = .ok t
      ∧ (t.drain ≠ .NotCalled →
          t.b.ch.closed = true
          ∧ Notify event t = .error "send on closed channel"
          ∧ ∃ u, step t (.notify event) = .ok u
              ∧ u.panicked = t.panicked ++ [event]
              ∧ u.returned = t.returned
              ∧ u.received = t.received
              ∧ u.b.ch = t.b.ch) := by
  obtain ⟨t, ht, hI⟩ := run_init_Inv subscribers deadline as
  refine ⟨t, ht, fun hd => ?_⟩
  have hc : t.b.ch.closed = true := hI.closed_iff.mpr hd
  rcases Notify_eq subscribers event t hI with ⟨-, hn⟩ | ⟨hc2, -⟩
  · refine ⟨hc, hn, ?_⟩
    simp only [step, hn]
    exact ⟨_, rfl, rfl, rfl, rfl, rfl⟩
  · rw [hc] at hc2
    cases hc2

/-- C3 at a concrete input: after the first step of `CloseAndDrain` on a fresh bus, `Notify`
panics. -/
theorem Notify_after_CloseAndDrain_panics_witness :
    ∃ t, run (System.init [] 5) [.drain] = .ok t
      ∧ t.drain ≠ .NotCalled
      ∧ Notify (NewEvent 0 "u" (.ExampleCreated { Id := "A" })) t
          = .error "send on closed channel" := by
  obtain ⟨t, ht, h⟩ :=
    Notify_after_CloseAndDrain_panics [] 5 [.drain] (NewEvent 0 "u" (.ExampleCreated { Id := "A" }))
  have hd : (match run (System.init [] 5) [.drain] with
      | .ok t => decide (t.drain ≠ .NotCalled)
      | .error _ => false) = true := by decide
  rw [ht] at hd
  have hd2 : t.drain ≠ .NotCalled := of_decide_eq_true hd
  exact ⟨t, ht, hd2, (h hd2).2.1⟩

/-- C6: the queue made by `New` has capacity zero, and in every run the buffer of the queue
is empty and the calls of `Notify` that have returned are, in order, among the events that
`Listen` has received: a call returns only in the step in which the loop takes its event.
The call itself, on the open queue, parks the sender without returning. -/
theorem Notify_returns_only_when_received (subscribers : Subscribers) (deadline : Nat)
    (as : List Action) :
    (New subscribers).ch.cap = 0
    ∧ ∃ t, run (System.init subscribers deadline) as = .ok t
      ∧ t.b.ch.cap = 0
      ∧ t.b.ch.buf = []
      ∧ List.Sublist t.returned t.received
      ∧ (∀ (e : Event) (u : System), Notify e t = .ok u →
          u.returned = t.returned
          ∧ u.received = t.received
          ∧ u.b.ch.buf = []
          ∧ u.b.ch.sendq = t.b.ch.sendq ++ [e]) := by
  refine ⟨rfl, ?_⟩
  obtain ⟨t, ht, hI⟩ := run_init_Inv subscribers deadline as
  refine ⟨t, ht, hI.cap_zero, hI.buf_nil, hI.returned_sub, fun e u hu => ?_⟩
  rcases Notify_eq subscribers e t hI with ⟨-, hn⟩ | ⟨-, hn⟩
  · rw [hn] at hu
    cases hu
  · rw [hn] at hu
    cases hu
    exact ⟨rfl, rfl, hI.buf_nil, rfl⟩

/-- C6 at a concrete input: on a fresh bus `Notify` parks its event, and the call has
returned after the pass of `Listen` that receives it. -/
theorem Notify_returns_only_when_received_witness :
    ∃ u, Notify (NewEvent 0 "u" (.ExampleCreated { Id := "A" })) (System.init [] 5) = .ok u
      ∧ u.returned = []
      ∧ u.b.ch.sendq = [NewEvent 0 "u" (.ExampleCreated { Id := "A" })]
      ∧ (Listen .recv u).returned = [NewEvent 0 "u" (.ExampleCreated { Id := "A" })]
      ∧ (Listen .recv u).received = [NewEvent 0 "u" (.ExampleCreated { Id := "A" })] := by
  obtain ⟨-, t, ht, -, -, -, h⟩ := Notify_returns_only_when_received [] 5 []
  cases ht
  obtain ⟨h1, -, -, h4⟩ := h (NewEvent 0 "u" (.ExampleCreated { Id := "A" })) _ rfl
  exact ⟨_, rfl, h1, h4, rfl, rfl⟩

/-- C4, as stated, fails.  Two runs of a bus with one subscriber and the deadline at tick 1:
in the first the invocation never finishes and `CloseAndDrain` returns on the deadline with
the invocation outstanding; in the second the invocation finishes and `CloseAndDrain`
returns before the deadline.  `CloseAndDrain` returns no value, and the two logs are equal,
also after the records that `main` writes next. -/
theorem CloseAndDrain_timeout_not_observable :
    ∃ tA tB,
      run (System.init [fun _ => none] 1)
        [.notify (NewEvent 0 "u" (.ExampleCreated { Id := "A" })), .listen .recv,
         .signal, .listen .done, .drain, .drain, .waiter, .tick, .drain] = .ok tA
      ∧ run (System.init [fun _ => none] 1)
        [.notify (NewEvent 0 "u" (.ExampleCreated { Id := "A" })), .listen .recv, .finish 0,
         .signal, .listen .done, .drain, .drain, .waiter, .drain] = .ok tB
      ∧ (tA.drain = .Returned ∧ tA.deadline ≤ tA.now ∧ tA.b.wg = 1
          ∧ tA.goroutines = [⟨0, NewEvent 0 "u" (.ExampleCreated { Id := "A" })⟩])
      ∧ (tB.drain = .Returned ∧ tB.now < tB.deadline ∧ tB.b.wg = 0 ∧ tB.goroutines = [])
      ∧ tA.log = tB.log
      ∧ (mainAfterDrain tA).log = (mainAfterDrain tB).log := by
  refine ⟨_, _, rfl, rfl, ?_, ?_, ?_, ?_⟩ <;> decide

/-- C4, amended: `CloseAndDrain` returns no value and writes one log record, `QUEUE_CLOSED`
at level INFO, when it closes the queue.  In every run the records of the drain are
`QUEUE_CLOSED` alone once `CloseAndDrain` has been called, and after its return `main`
adds `QUEUE_SHUTDOWN_COMPLETE` and `PROCESS_SHUTDOWN_COMPLETE` at level INFO, whether
invocations are outstanding or not; the final `select` writes no record. -/
theorem CloseAndDrain_log_is_the_same_on_timeout (subscribers : Subscribers) (deadline : Nat)
    (as : List Action) :
    ∃ t, run (System.init subscribers deadline) as = .ok t
      ∧ (t.drain = .NotCalled → drainLog t = [])
      ∧ (t.drain ≠ .NotCalled → drainLog t = [⟨"INFO", QUEUE_CLOSED⟩])
      ∧ (t.drain = .Returned →
          drainLog (mainAfterDrain t) =
            [⟨"INFO", QUEUE_CLOSED⟩, ⟨"INFO", server.QueueShutdownCompleteMsg⟩,
             ⟨"INFO", server.ProcessShutdownMsg⟩])
      ∧ (t.drain = .Waiting → ∀ u, CloseAndDrain t = .ok u → u.log = t.log) := by
  obtain ⟨t, ht, hI⟩ := run_init_Inv subscribers deadline as
  have hl := hI.log_eq
  refine ⟨t, ht, fun hd => ?_, fun hd => ?_, fun hd => ?_, fun hd u hu => ?_⟩
  · simpa [hd] using hl
  · simpa [hd] using hl
  · have h1 : drainLog t = [⟨"INFO", QUEUE_CLOSED⟩] := by simpa [hd] using hl
    simp only [drainLog] at h1
    simp only [mainAfterDrain, hd, drainLog, List.filter_append, h1]
    simp [List.filter, server.QueueShutdownCompleteMsg, server.ProcessShutdownMsg,
      server.QueueShutdownSignalMsg]
  · simp only [CloseAndDrain, hd] at hu
    split at hu <;> cases hu <;> rfl

/-- C4, amended, at a concrete input: the run in which the drain times out with one
invocation outstanding ends with the same three records. -/
theorem CloseAndDrain_log_is_the_same_on_timeout_witness :
    ∃ t,
      run (System.init [fun _ => none] 1)
        [.notify (NewEvent 0 "u" (.ExampleCreated { Id := "A" })), .listen .recv,
         .signal, .listen .done, .drain, .drain, .waiter, .tick, .drain] = .ok t
      ∧ t.drain = .Returned
      ∧ t.b.wg = 1
      ∧ drainLog (mainAfterDrain t) =
          [⟨"INFO", QUEUE_CLOSED⟩, ⟨"INFO", server.QueueShutdownCompleteMsg⟩,
           ⟨"INFO", server.ProcessShutdownMsg⟩] := by
  obtain ⟨t, ht, -, -, h, -⟩ :=
    CloseAndDrain_log_is_the_same_on_timeout [fun _ => none] 1
      [.notify (NewEvent 0 "u" (.ExampleCreated { Id := "A" })), .listen .recv,
       .signal, .listen .done, .drain, .drain, .waiter, .tick, .drain]
  have hd : (match run (System.init [fun _ => none] 1)
        [.notify (NewEvent 0 "u" (.ExampleCreated { Id := "A" })), .listen .recv,
         .signal, .listen .done, .drain, .drain, .waiter, .tick, .drain] with
      | .ok t => decide (t.drain = .Returned ∧ t.b.wg = 1)
      | .error _ => false) = true := by decide
  rw [ht] at hd
  have hd2 : t.drain = .Returned ∧ t.b.wg = 1 := of_decide_eq_true hd
  exact ⟨t, ht, hd2.1, hd2.2, h hd2.1⟩

theorem SameUpToResults_fanOut (v : Event) (s s' : System) (h : SameUpToResults s s') :
    SameUpToResults (fanOut v s) (fanOut v s') := by
  rw [fanOut_eq, fanOut_eq]
  constructor <;>
    simp [h.ch, h.wg, h.subs, h.done, h.listen, h.goroutines, h.drain, h.doneChan, h.now,
      h.deadline, h.log, h.started, h.finished, h.received, h.drained, h.returned, h.panicked]

/-- A step taken from two states that agree up to the subscribers' results panics in both
or leads to two states that agree up to the subscribers' results. -/
theorem SameUpToResults_step (s s' : System) (a : Action) (h : SameUpToResults s s') :
    (∃ p, step s a = .error p ∧ step s' a = .error p)
    ∨ (∃ t t', step s a = .ok t ∧ step s' a = .ok t' ∧ SameUpToResults t t') := by
  cases a with
  | notify e =>
    right
    simp only [step, Notify, h.ch]
    cases hsend : s'.b.ch.send e with
    | error p =>
      refine ⟨_, _, rfl, rfl, ?_⟩
      constructor <;>
        simp [h.ch, h.wg, h.subs, h.done, h.listen, h.goroutines, h.drain, h.doneChan, h.now,
          h.deadline, h.log, h.started, h.finished, h.received, h.drained, h.returned,
          h.panicked]
    | ok cb =>
      obtain ⟨c, b⟩ := cb
      cases b <;>
      · refine ⟨_, _, rfl, rfl, ?_⟩
        constructor <;>
          simp [h.ch, h.wg, h.subs, h.done, h.listen, h.goroutines, h.drain, h.doneChan, h.now,
            h.deadline, h.log, h.started, h.finished, h.received, h.drained, h.returned,
            h.panicked]
  | signal =>
    right
    refine ⟨_, _, rfl, rfl, ?_⟩
    unfold signal
    rw [h.done]
    split
    · exact h
    · constructor <;>
        simp [h.ch, h.wg, h.subs, h.done, h.listen, h.goroutines, h.drain, h.doneChan, h.now,
          h.deadline, h.log, h.started, h.finished, h.received, h.drained, h.returned,
          h.panicked]
  | listen c =>
    right
    refine ⟨_, _, rfl, rfl, ?_⟩
    unfold Listen
    rw [h.listen]
    cases s'.listen with
    | Stopped => exact h
    | Running =>
      cases c with
      | done =>
        simp only [h.done]
        split
        · constructor <;>
            simp [h.ch, h.wg, h.subs, h.done, h.listen, h.goroutines, h.drain, h.doneChan,
              h.now, h.deadline, h.log, h.started, h.finished, h.received, h.drained,
              h.returned, h.panicked]
        · exact h
      | recv =>
        simp only [h.ch]
        cases s'.b.ch.recv with
        | none => exact h
        | some r =>
          apply SameUpToResults_fanOut
          constructor <;>
            simp [h.ch, h.wg, h.subs, h.done, h.listen, h.goroutines, h.drain, h.doneChan,
              h.now, h.deadline, h.log, h.started, h.finished, h.received, h.drained,
              h.returned, h.panicked]
  | finish i =>
    simp only [step, finish, h.goroutines]
    cases s'.goroutines[i]? with
    | none => exact Or.inr ⟨_, _, rfl, rfl, h⟩
    | some g =>
      simp only [h.wg]
      cases wgDone s'.b.wg with
      | error p => exact Or.inl ⟨p, rfl, rfl⟩
      | ok n =>
        refine Or.inr ⟨_, _, rfl, rfl, ?_⟩
        constructor <;>
          simp [h.ch, h.wg, h.subs, h.done, h.listen, h.goroutines, h.drain, h.doneChan, h.now,
            h.deadline, h.log, h.started, h.finished, h.received, h.drained, h.returned,
            h.panicked]
  | drain =>
    simp only [step, CloseAndDrain, h.drain]
    cases s'.drain with
    | NotCalled =>
      simp only [h.ch]
      cases s'.b.ch.close with
      | error p => exact Or.inl ⟨p, rfl, rfl⟩
      | ok cr =>
        obtain ⟨c, released⟩ := cr
        refine Or.inr ⟨_, _, rfl, rfl, ?_⟩
        constructor <;>
          simp [h.ch, h.wg, h.subs, h.done, h.listen, h.goroutines, h.drain, h.doneChan, h.now,
            h.deadline, h.log, h.started, h.finished, h.received, h.drained, h.returned,
            h.panicked]
    | Ranging =>
      simp only [h.ch]
      cases s'.b.ch.recv with
      | none => exact Or.inr ⟨_, _, rfl, rfl, h⟩
      | some r =>
        obtain ⟨v, ok, woken, c⟩ := r
        cases ok with
        | true =>
          refine Or.inr ⟨_, _, rfl, rfl, ?_⟩
          apply SameUpToResults_fanOut
          constructor <;>
            simp [h.ch, h.wg, h.subs, h.done, h.listen, h.goroutines, h.drain, h.doneChan,
              h.now, h.deadline, h.log, h.started, h.finished, h.received, h.drained,
              h.returned, h.panicked]
        | false =>
          refine Or.inr ⟨_, _, rfl, rfl, ?_⟩
          constructor <;>
            simp [h.ch, h.wg, h.subs, h.done, h.listen, h.goroutines, h.drain, h.doneChan,
              h.now, h.deadline, h.log, h.started, h.finished, h.received, h.drained,
              h.returned, h.panicked]
    | Waiting =>
      simp only [h.deadline, h.now, h.doneChan]
      split
      · refine Or.inr ⟨_, _, rfl, rfl, ?_⟩
        constructor <;>
          simp [h.ch, h.wg, h.subs, h.done, h.listen, h.goroutines, h.drain, h.doneChan, h.now,
            h.deadline, h.log, h.started, h.finished, h.received, h.drained, h.returned,
            h.panicked]
      · exact Or.inr ⟨_, _, rfl, rfl, h⟩
    | Returned => exact Or.inr ⟨_, _, rfl, rfl, h⟩
  | waiter =>
    right
    refine ⟨_, _, rfl, rfl, ?_⟩
    unfold waiter
    rw [h.drain, h.wg]
    cases s'.drain with
    | NotCalled => exact h
    | Ranging => exact h
    | Waiting =>
      simp only
      split
      · constructor <;>
          simp [h.ch, h.wg, h.subs, h.done, h.listen, h.goroutines, h.drain, h.doneChan, h.now,
            h.deadline, h.log, h.started, h.finished, h.received, h.drained, h.returned,
            h.panicked]
      · exact h
    | Returned =>
      simp only
      split
      · constructor <;>
          simp [h.ch, h.wg, h.subs, h.done, h.listen, h.goroutines, h.drain, h.doneChan, h.now,
            h.deadline, h.log, h.started, h.finished, h.received, h.drained, h.returned,
            h.panicked]
      · exact h
  | tick =>
    right
    refine ⟨_, _, rfl, rfl, ?_⟩
    constructor <;>
      simp [h.ch, h.wg, h.subs, h.done, h.listen, h.goroutines, h.drain, h.doneChan, h.now,
        h.deadline, h.log, h.started, h.finished, h.received, h.drained, h.returned,
        h.panicked]

theorem SameUpToResults_run (as : List Action) (s s' : System) (h : SameUpToResults s s') :
    (∃ p, run s as = .error p ∧ run s' as = .error p)
    ∨ (∃ t t', run s as = .ok t ∧ run s' as = .ok t' ∧ SameUpToResults t t') := by
  induction as generalizing s s' with
  | nil => exact Or.inr ⟨s, s', rfl, rfl, h⟩
  | cons a as ih =>
    rcases SameUpToResults_step s s' a h with ⟨p, h1, h2⟩ | ⟨t, t', h1, h2, hS⟩
    · exact Or.inl ⟨p, by simp only [run, h1], by simp only [run, h2]⟩
    · simp only [run, h1, h2]
      exact ih t t' hS

/-- C5: the bus drops what a subscriber returns.  For two subscriber lists of the same
length, which may differ in what every subscriber returns for every event (nil or an
error), every schedule runs to states that agree on the queue, the in-flight counter, the
invocations started, live and finished, and on every other field but the subscribers'
code and the recorded results; finishing an invocation changes the state in the same way
whatever the subscriber returned. -/
theorem subscriber_results_do_not_reach_the_bus (S S' : Subscribers) (deadline : Nat)
    (as : List Action) (hlen : S.length = S'.length) :
    ∃ t t', run (System.init S deadline) as = .ok t
      ∧ run (System.init S' deadline) as = .ok t'
      ∧ SameUpToResults t t'
      ∧ t.started = t'.started
      ∧ t.b.wg = t'.b.wg
      ∧ t.b.ch = t'.b.ch := by
  have h0 : SameUpToResults (System.init S deadline) (System.init S' deadline) := by
    constructor <;> simp [System.init, New, hlen]
  obtain ⟨t, ht, -⟩ := run_init_Inv S deadline as
  rcases SameUpToResults_run as _ _ h0 with ⟨p, h1, -⟩ | ⟨u, u', h1, h2, hS⟩
  · rw [ht] at h1
    cases h1
  · exact ⟨u, u', h1, h2, hS, hS.started, hS.wg, hS.ch⟩

/-- C5 at a concrete input: the same schedule with a subscriber that returns nil and with one
that returns an error; the results recorded differ, the states agree otherwise. -/
theorem subscriber_results_do_not_reach_the_bus_witness :
    ∃ t t',
      run (System.init [fun _ => none] 1)
        [.notify (NewEvent 0 "u" (.ExampleCreated { Id := "A" })), .listen .recv, .finish 0]
        = .ok t
      ∧ run (System.init [fun _ => some (.dynamic "subscriber failed")] 1)
        [.notify (NewEvent 0 "u" (.ExampleCreated { Id := "A" })), .listen .recv, .finish 0]
        = .ok t'
      ∧ SameUpToResults t t'
      ∧ t.outcomes.map Prod.snd = [none]
      ∧ t'.outcomes.map Prod.snd = [some (.dynamic "subscriber failed")] := by
  obtain ⟨t, t', h1, h2, hS, -⟩ :=
    subscriber_results_do_not_reach_the_bus [fun _ => none]
      [fun _ => some (.dynamic "subscriber failed")] 1
      [.notify (NewEvent 0 "u" (.ExampleCreated { Id := "A" })), .listen .recv, .finish 0] rfl
  refine ⟨t, t', h1, h2, hS, ?_, ?_⟩
  · have h3 : (match run (System.init [fun _ => none] 1)
          [.notify (NewEvent 0 "u" (.ExampleCreated { Id := "A" })), .listen .recv, .finish 0]
        with
        | .ok t => t.outcomes.map Prod.snd
        | .error _ => []) = [none] := by decide
    rw [h1] at h3
    exact h3
  · have h3 : (match run (System.init [fun _ => some (.dynamic "subscriber failed")] 1)
          [.notify (NewEvent 0 "u" (.ExampleCreated { Id := "A" })), .listen .recv, .finish 0]
        with
        | .ok t => t.outcomes.map Prod.snd
        | .error _ => []) = [some (.dynamic "subscriber failed")] := by decide
    rw [h2] at h3
    exact h3

end bus

/-! ## Go maps -/

theorem GoMap.lookup_filter_self {α : Type} (m : GoMap α) (k : String) :
    List.lookup k (List.filter (fun kv => kv.1 != k) m) = none := by
  induction m with
  | nil => rfl
  | cons kv m ih =>
    obtain ⟨a, b⟩ := kv
    by_cases h : a = k
    · rw [List.filter_cons_of_neg (by simp [h])]
      exact ih
    · rw [List.filter_cons_of_pos (by simp [h])]
      have h2 : (k == a) = false := by simpa using fun h3 => h h3.symm
      simp only [List.lookup, h2]
      exact ih

theorem GoMap.lookup_filter_other {α : Type} (m : GoMap α) (k k' : String) (hk : k' ≠ k) :
    List.lookup k' (List.filter (fun kv => kv.1 != k) m) = List.lookup k' m := by
  induction m with
  | nil => rfl
  | cons kv m ih =>
    obtain ⟨a, b⟩ := kv
    by_cases h : a = k
    · rw [List.filter_cons_of_neg (by simp [h])]
      have h2 : (k' == a) = false := by rw [h]; simpa using hk
      simp only [List.lookup, h2]
      exact ih
    · rw [List.filter_cons_of_pos (by simp [h])]
      simp only [List.lookup]
      cases k' == a
      · exact ih
      · rfl

theorem GoMap.get_set_self {α : Type} (m : GoMap α) (k : String) (v : α) :
    GoMap.get (GoMap.set m k v) k = some v := by
  simp [GoMap.get, GoMap.set, List.lookup]

theorem GoMap.get_set_other {α : Type} (m : GoMap α) (k k' : String) (v : α) (hk : k' ≠ k) :
    GoMap.get (GoMap.set m k v) k' = GoMap.get m k' := by
  have h2 : (k' == k) = false := by simpa using hk
  simp only [GoMap.get, GoMap.set, List.lookup, h2]
  exact GoMap.lookup_filter_other m k k' hk

theorem GoMap.get_delete_self {α : Type} (m : GoMap α) (k : String) :
    GoMap.get (GoMap.delete m k) k = none :=
  GoMap.lookup_filter_self m k

theorem GoMap.get_delete_other {α : Type} (m : GoMap α) (k k' : String) (hk : k' ≠ k) :
    GoMap.get (GoMap.delete m k) k' = GoMap.get m k' :=
  GoMap.lookup_filter_other m k k' hk

/-! ## The example service on the in-memory repository -/

namespace exampleservice

open pkgexample events bus

theorem CannotBeEmpty_iff (msg : String) : CannotBeEmpty msg = true ↔ msg ≠ "" := by
  simp [CannotBeEmpty]

/-- `Service.Add` with the empty message, on any store. -/
theorem Add_empty {σ : Type} (I : Storer σ) (now : Int) (e : Service σ) (userId : String) :
    Service.Add I now e userId "" =
      (e, (pkgexample.Nil, some (.InvalidMessageError EmptyMessageError))) := by
  rfl

/-- `Service.Add` with a non-empty message, on the in-memory repository. -/
theorem Add_repo (now : Int) (e : Service exampleRepository) (userId message : String)
    (hm : message ≠ "") :
    (Service.Add exampleRepositoryStorer now e userId message).2 =
        ({ UserId := userId, Id := e.Store.uuid e.Store.calls, Message := message }, none)
    ∧ (Service.Add exampleRepositoryStorer now e userId message).1.Store.items =
        GoMap.set e.Store.items (e.Store.uuid e.Store.calls)
          { UserId := userId, Id := e.Store.uuid e.Store.calls, Message := message }
    ∧ (Service.Add exampleRepositoryStorer now e userId message).1.Store.uuid = e.Store.uuid
    ∧ (Service.Add exampleRepositoryStorer now e userId message).1.Store.calls
        = e.Store.calls + 1
    ∧ (Service.Add exampleRepositoryStorer now e userId message).1.Bus.Messages =
        e.Bus.Messages ++
          [NewEvent now userId (.ExampleCreated { Id := e.Store.uuid e.Store.calls })] := by
  have hc : CannotBeEmpty message = true := (CannotBeEmpty_iff message).mpr hm
  simp [Service.Add, pkgexample.New, hc, exampleRepositoryStorer, exampleRepository.Add,
    FakeBus.Notify]

/-- `Service.Get` on the in-memory repository. -/
theorem Get_repo (e : Service exampleRepository) (id : String) :
    (Service.Get exampleRepositoryStorer e id).1 = e
    ∧ (∀ item, GoMap.get e.Store.items id = some item →
        (Service.Get exampleRepositoryStorer e id).2 = (item, none))
    ∧ (GoMap.get e.Store.items id = none →
        (Service.Get exampleRepositoryStorer e id).2 =
          (pkgexample.Nil, some repositoryNotFoundError)) := by
  unfold Service.Get
  simp only [exampleRepositoryStorer, exampleRepository.Get]
  cases h : GoMap.get e.Store.items id with
  | none => simp [errorsIs]
  | some item => simp

/-- `Service.List` on the in-memory repository leaves the service as it is. -/
theorem List_repo (e : Service exampleRepository) (userId : String) (limit page : Int) :
    (Service.List exampleRepositoryStorer e userId limit page).1 = e := by
  unfold Service.List
  simp only [exampleRepositoryStorer, exampleRepository.List]
  split
  · rfl
  · split <;> rfl

/-- `Service.Delete` on the in-memory repository. -/
theorem Delete_repo (now : Int) (e : Service exampleRepository) (userId id : String) :
    (Service.Delete exampleRepositoryStorer now e userId id).2 = none
    ∧ (Service.Delete exampleRepositoryStorer now e userId id).1.Store.items =
        GoMap.delete e.Store.items id
    ∧ (Service.Delete exampleRepositoryStorer now e userId id).1.Store.uuid = e.Store.uuid
    ∧ (Service.Delete exampleRepositoryStorer now e userId id).1.Store.calls = e.Store.calls := by
  simp [Service.Delete, exampleRepositoryStorer, exampleRepository.Delete]

/-- `Service.Update` on the in-memory repository: the three ways it ends. -/
theorem Update_repo (now : Int) (e : Service exampleRepository) (userId id message : String) :
    (GoMap.get e.Store.items id = none →
      Service.Update exampleRepositoryStorer now e userId id message =
        (e, (pkgexample.Nil, some repositoryNotFoundError)))
    ∧ (∀ item, GoMap.get e.Store.items id = some item → message = "" →
      Service.Update exampleRepositoryStorer now e userId id message =
        (e, (pkgexample.Nil, some (.InvalidMessageError EmptyMessageError))))
    ∧ (∀ item, GoMap.get e.Store.items id = some item → message ≠ "" →
      (Service.Update exampleRepositoryStorer now e userId id message).2 =
          ({ item with Message := message }, none)
      ∧ (Service.Update exampleRepositoryStorer now e userId id message).1.Store.items =
          GoMap.set e.Store.items item.Id { item with Message := message }
      ∧ (Service.Update exampleRepositoryStorer now e userId id message).1.Store.uuid
          = e.Store.uuid
      ∧ (Service.Update exampleRepositoryStorer now e userId id message).1.Store.calls
          = e.Store.calls
      ∧ (Service.Update exampleRepositoryStorer now e userId id message).1.Store.byUserIndex
          = e.Store.byUserIndex
      ∧ (Service.Update exampleRepositoryStorer now e userId id message).1.Bus.Messages =
          e.Bus.Messages ++ [NewEvent now userId (.ExampleUpdated { Id := item.Id })]) := by
  refine ⟨fun h => ?_, fun item h hm => ?_, fun item h hm => ?_⟩
  · simp [Service.Update, exampleRepositoryStorer, exampleRepository.Get, h]
  · subst hm
    simp [Service.Update, exampleRepositoryStorer, exampleRepository.Get, h,
      Example.SetMessage, CannotBeEmpty]
  · have hc : CannotBeEmpty message = true := (CannotBeEmpty_iff message).mpr hm
    simp [Service.Update, exampleRepositoryStorer, exampleRepository.Get, h,
      Example.SetMessage, hc, exampleRepository.Update, FakeBus.Notify]


theorem Tracked_Inv_init (uuid : Nat → String) : Tracked.Inv uuid (Tracked.run uuid []) := by
  constructor <;> simp [Tracked.run, NewInMemoryExampleRepository, GoMap.get]

theorem Tracked_Inv_call (uuid : Nat → String) (t : Tracked) (c : Call)
    (h : Tracked.Inv uuid t) : Tracked.Inv uuid (t.call c) := by
  cases c with
  | Add now userId message =>
    by_cases hm : message = ""
    · subst hm
      simp only [Tracked.call, Add_empty]
      exact ⟨h.uuid_eq, h.key_id, h.live_iff, h.key_uuid⟩
    · obtain ⟨h1, h2, h3, h4, -⟩ := Add_repo now t.svc userId message hm
      simp only [Tracked.call, h1]
      refine ⟨h3.trans h.uuid_eq, ?_, ?_, ?_⟩
      · intro k v hk
        rw [h2] at hk
        by_cases hkk : k = t.svc.Store.uuid t.svc.Store.calls
        · subst hkk
          rw [GoMap.get_set_self] at hk
          cases hk
          rfl
        · rw [GoMap.get_set_other _ _ _ _ hkk] at hk
          exact h.key_id k v hk
      · intro k
        rw [h2]
        by_cases hkk : k = t.svc.Store.uuid t.svc.Store.calls
        · subst hkk
          simp [GoMap.get_set_self]
        · rw [GoMap.get_set_other _ _ _ _ hkk]
          simp [hkk, h.live_iff k]
      · intro k v hk
        rw [h2] at hk
        rw [h4]
        by_cases hkk : k = t.svc.Store.uuid t.svc.Store.calls
        · exact ⟨t.svc.Store.calls, Nat.lt_succ_self _, by rw [hkk, h.uuid_eq]⟩
        · rw [GoMap.get_set_other _ _ _ _ hkk] at hk
          obtain ⟨i, hi, hu⟩ := h.key_uuid k v hk
          exact ⟨i, Nat.lt_succ_of_lt hi, hu⟩
  | Update now userId id message =>
    obtain ⟨u1, u2, u3⟩ := Update_repo now t.svc userId id message
    simp only [Tracked.call]
    cases hg : GoMap.get t.svc.Store.items id with
    | none =>
      rw [u1 hg]
      exact ⟨h.uuid_eq, h.key_id, h.live_iff, h.key_uuid⟩
    | some item =>
      by_cases hm : message = ""
      · rw [u2 item hg hm]
        exact ⟨h.uuid_eq, h.key_id, h.live_iff, h.key_uuid⟩
      · obtain ⟨-, h2, h3, h4, -, -⟩ := u3 item hg hm
        have hid : item.Id = id := h.key_id id item hg
        rw [hid] at h2
        refine ⟨h3.trans h.uuid_eq, ?_, ?_, ?_⟩
        · intro k v hk
          rw [h2] at hk
          by_cases hkk : k = id
          · subst hkk
            rw [GoMap.get_set_self] at hk
            cases hk
            rfl
          · rw [GoMap.get_set_other _ _ _ _ hkk] at hk
            exact h.key_id k v hk
        · intro k
          rw [h2]
          by_cases hkk : k = id
          · subst hkk
            simp [GoMap.get_set_self, h.live_iff k, hg]
          · rw [GoMap.get_set_other _ _ _ _ hkk]
            exact h.live_iff k
        · intro k v hk
          rw [h2] at hk
          rw [h4]
          by_cases hkk : k = id
          · subst hkk
            exact h.key_uuid k item hg
          · rw [GoMap.get_set_other _ _ _ _ hkk] at hk
            exact h.key_uuid k v hk
  | Delete now userId id =>
    obtain ⟨h1, h2, h3, h4⟩ := Delete_repo now t.svc userId id
    simp only [Tracked.call, h1]
    refine ⟨h3.trans h.uuid_eq, ?_, ?_, ?_⟩
    · intro k v hk
      rw [h2] at hk
      by_cases hkk : k = id
      · subst hkk
        rw [GoMap.get_delete_self] at hk
        cases hk
      · rw [GoMap.get_delete_other _ _ _ hkk] at hk
        exact h.key_id k v hk
    · intro k
      rw [h2]
      by_cases hkk : k = id
      · subst hkk
        simp [GoMap.get_delete_self]
      · rw [GoMap.get_delete_other _ _ _ hkk]
        simp [hkk, h.live_iff k]
    · intro k v hk
      rw [h2] at hk
      rw [h4]
      by_cases hkk : k = id
      · subst hkk
        rw [GoMap.get_delete_self] at hk
        cases hk
      · rw [GoMap.get_delete_other _ _ _ hkk] at hk
        exact h.key_uuid k v hk
  | Get id =>
    simp only [Tracked.call, (Get_repo t.svc id).1]
    exact ⟨h.uuid_eq, h.key_id, h.live_iff, h.key_uuid⟩
  | List userId limit page =>
    simp only [Tracked.call, List_repo]
    exact ⟨h.uuid_eq, h.key_id, h.live_iff, h.key_uuid⟩

theorem Tracked_Inv_foldl (uuid : Nat → String) (calls : List Call) (t : Tracked)
    (h : Tracked.Inv uuid t) : Tracked.Inv uuid (calls.foldl Tracked.call t) := by
  induction calls generalizing t with
  | nil => exact h
  | cons c calls ih => exact ih (t.call c) (Tracked_Inv_call uuid t c h)

theorem Tracked_Inv_run (uuid : Nat → String) (calls : List Call) :
    Tracked.Inv uuid (Tracked.run uuid calls) :=
  Tracked_Inv_foldl uuid calls _ (Tracked_Inv_init uuid)

/-- C11: an empty message is rejected before anything is done.  `Add(userId, "")`, on any
store, and `Update(userId, id, "")`, on the in-memory repository for a stored `id`, return
the `Nil` example and the error with the text "invalid message. error: message length must
be greater than 0", and the service (repository and recorded events) is as it was. -/
theorem Service_rejects_empty_message {σ : Type} (I : Storer σ) (now : Int) (e : Service σ)
    (userId : String) (r : Service exampleRepository) (id : String) (item : Example)
    (hs : GoMap.get r.Store.items id = some item) :
    Service.Add I now e userId "" =
      (e, (pkgexample.Nil, some (.InvalidMessageError EmptyMessageError)))
    ∧ Service.Update exampleRepositoryStorer now r userId id "" =
      (r, (pkgexample.Nil, some (.InvalidMessageError EmptyMessageError)))
    ∧ (Service.Add I now e userId "").1.Store = e.Store
    ∧ (Service.Add I now e userId "").1.Bus.Messages = e.Bus.Messages
    ∧ (Service.Update exampleRepositoryStorer now r userId id "").1.Store.items = r.Store.items
    ∧ (Service.Update exampleRepositoryStorer now r userId id "").1.Bus.Messages
        = r.Bus.Messages
    ∧ (GoError.InvalidMessageError EmptyMessageError).Error
        = "invalid message. error: message length must be greater than 0" := by
  have hu := (Update_repo now r userId id "").2.1 item hs rfl
  refine ⟨Add_empty I now e userId, hu, rfl, rfl, ?_, ?_, by decide⟩
  · rw [hu]
  · rw [hu]

/-- C11 at a concrete input: the repository that holds one item, stored by `Add("u", "Hi")`. -/
theorem Service_rejects_empty_message_witness :
    GoMap.get
        (Service.Add exampleRepositoryStorer 0
          { Store := NewInMemoryExampleRepository (fun _ => "id-1"), Bus := NewFake }
          "u" "Hi").1.Store.items "id-1"
      = some { UserId := "u", Id := "id-1", Message := "Hi" }
    ∧ Service.Update exampleRepositoryStorer 1
        (Service.Add exampleRepositoryStorer 0
          { Store := NewInMemoryExampleRepository (fun _ => "id-1"), Bus := NewFake }
          "u" "Hi").1 "u" "id-1" ""
      = ((Service.Add exampleRepositoryStorer 0
          { Store := NewInMemoryExampleRepository (fun _ => "id-1"), Bus := NewFake }
          "u" "Hi").1,
         (pkgexample.Nil, some (.InvalidMessageError EmptyMessageError))) :=
  ⟨by decide,
   (Service_rejects_empty_message exampleRepositoryStorer 1
      (Service.Add exampleRepositoryStorer 0
        { Store := NewInMemoryExampleRepository (fun _ => "id-1"), Bus := NewFake }
        "u" "Hi").1 "u"
      (Service.Add exampleRepositoryStorer 0
        { Store := NewInMemoryExampleRepository (fun _ => "id-1"), Bus := NewFake }
        "u" "Hi").1 "id-1" { UserId := "u", Id := "id-1", Message := "Hi" }
      (by decide)).2.1⟩

/-- C12: on the in-memory repository in any state, `Add` with a non-empty message returns a
nil error and the item with the given `UserId` and `Message` whose `Id` is the value that
`uuid.NewString()` returns for this call, and the `Get` of that id that follows returns
exactly that item with a nil error.  The id is fresh: when the generator never repeats a
value, then in every state that the service reaches from the empty repository no item is
stored under it before the call. -/
theorem Service_Add_Get_round_trip (now : Int) (e : Service exampleRepository)
    (userId message : String) (hm : message ≠ "") :
    (Service.Add exampleRepositoryStorer now e userId message).2.2 = none
    ∧ (Service.Add exampleRepositoryStorer now e userId message).2.1 =
        { UserId := userId, Id := e.Store.uuid e.Store.calls, Message := message }
    ∧ Service.Get exampleRepositoryStorer
        (Service.Add exampleRepositoryStorer now e userId message).1
        (Service.Add exampleRepositoryStorer now e userId message).2.1.Id =
        ((Service.Add exampleRepositoryStorer now e userId message).1,
         ((Service.Add exampleRepositoryStorer now e userId message).2.1, none))
    ∧ (∀ (uuid : Nat → String) (calls : List Call), Function.Injective uuid →
        e = (Tracked.run uuid calls).svc →
        GoMap.get e.Store.items
          (Service.Add exampleRepositoryStorer now e userId message).2.1.Id = none) := by
  obtain ⟨h1, h2, -, -, -⟩ := Add_repo now e userId message hm
  refine ⟨by rw [h1], by rw [h1], ?_, ?_⟩
  · obtain ⟨g1, g2, -⟩ :=
      Get_repo (Service.Add exampleRepositoryStorer now e userId message).1
        (Service.Add exampleRepositoryStorer now e userId message).2.1.Id
    have hget : GoMap.get (Service.Add exampleRepositoryStorer now e userId message).1.Store.items
        (Service.Add exampleRepositoryStorer now e userId message).2.1.Id
        = some (Service.Add exampleRepositoryStorer now e userId message).2.1 := by
      rw [h2, h1]
      exact GoMap.get_set_self _ _ _
    exact Prod.ext g1 (g2 _ hget)
  · intro uuid calls hinj he
    have hI := Tracked_Inv_run uuid calls
    rw [h1]
    simp only
    cases hg : GoMap.get e.Store.items (e.Store.uuid e.Store.calls) with
    | none => rfl
    | some v =>
      exfalso
      rw [he] at hg
      obtain ⟨i, hi, hu⟩ := hI.key_uuid _ v hg
      rw [hI.uuid_eq] at hu
      have := hinj hu
      omega

/-- C12 at a concrete input: `Add("u", "Hello")` on the empty repository. -/
theorem Service_Add_Get_round_trip_witness :
    (Service.Add exampleRepositoryStorer 0
        { Store := NewInMemoryExampleRepository (fun _ => "id-1"), Bus := NewFake }
        "u" "Hello").2
      = ({ UserId := "u", Id := "id-1", Message := "Hello" }, none)
    ∧ (Service.Get exampleRepositoryStorer
        (Service.Add exampleRepositoryStorer 0
          { Store := NewInMemoryExampleRepository (fun _ => "id-1"), Bus := NewFake }
          "u" "Hello").1 "id-1").2
      = ({ UserId := "u", Id := "id-1", Message := "Hello" }, none) := by
  have h := Service_Add_Get_round_trip 0
    { Store := NewInMemoryExampleRepository (fun _ => "id-1"), Bus := NewFake }
    "u" "Hello" (by decide)
  exact ⟨Prod.ext h.2.1 h.1, congrArg Prod.snd h.2.2.1⟩

/-- C13: in every state that the service reaches from the empty repository, for a stored
`id` and a non-empty `m`, `Update(userId, id, m)` returns a nil error and the stored item
with its `Message` set to `m` and its `Id` and `UserId` as they were; the `Get(id)` that
follows returns that item, and the item stored under any other id is as before. -/
theorem Service_Update_sets_message (uuid : Nat → String) (calls : List Call) (now : Int)
    (userId id m : String) (item : Example)
    (hs : GoMap.get (Tracked.run uuid calls).svc.Store.items id = some item) (hm : m ≠ "") :
    (Service.Update exampleRepositoryStorer now (Tracked.run uuid calls).svc userId id m).2
        = ({ UserId := item.UserId, Id := id, Message := m }, none)
    ∧ item.Id = id
    ∧ Service.Get exampleRepositoryStorer
        (Service.Update exampleRepositoryStorer now (Tracked.run uuid calls).svc userId id m).1
        id =
        ((Service.Update exampleRepositoryStorer now (Tracked.run uuid calls).svc
            userId id m).1,
         ({ UserId := item.UserId, Id := id, Message := m }, none))
    ∧ (∀ other : String, other ≠ id →
        GoMap.get
          (Service.Update exampleRepositoryStorer now (Tracked.run uuid calls).svc
            userId id m).1.Store.items other
          = GoMap.get (Tracked.run uuid calls).svc.Store.items other
        ∧ (Service.Get exampleRepositoryStorer
            (Service.Update exampleRepositoryStorer now (Tracked.run uuid calls).svc
              userId id m).1 other).2
          = (Service.Get exampleRepositoryStorer (Tracked.run uuid calls).svc other).2) := by
  have hI := Tracked_Inv_run uuid calls
  have hid : item.Id = id := hI.key_id id item hs
  obtain ⟨h1, h2, -, -, -, -⟩ :=
    (Update_repo now (Tracked.run uuid calls).svc userId id m).2.2 item hs hm
  rw [hid] at h2
  have h1' : (Service.Update exampleRepositoryStorer now (Tracked.run uuid calls).svc
      userId id m).2 = ({ UserId := item.UserId, Id := id, Message := m }, none) := by
    rw [h1, ← hid]
  have hother : ∀ other : String, other ≠ id →
      GoMap.get (Service.Update exampleRepositoryStorer now (Tracked.run uuid calls).svc
          userId id m).1.Store.items other
        = GoMap.get (Tracked.run uuid calls).svc.Store.items other := by
    intro other ho
    rw [h2]
    exact GoMap.get_set_other _ _ _ _ ho
  refine ⟨h1', hid, ?_, fun other ho => ⟨hother other ho, ?_⟩⟩
  · obtain ⟨g1, g2, -⟩ :=
      Get_repo (Service.Update exampleRepositoryStorer now (Tracked.run uuid calls).svc
        userId id m).1 id
    have hget : GoMap.get (Service.Update exampleRepositoryStorer now
        (Tracked.run uuid calls).svc userId id m).1.Store.items id
        = some { UserId := item.UserId, Id := id, Message := m } := by
      rw [h2, GoMap.get_set_self, ← hid]
    exact Prod.ext g1 (g2 _ hget)
  · obtain ⟨-, g2, g3⟩ :=
      Get_repo (Service.Update exampleRepositoryStorer now (Tracked.run uuid calls).svc
        userId id m).1 other
    obtain ⟨-, k2, k3⟩ := Get_repo (Tracked.run uuid calls).svc other
    cases hg : GoMap.get (Tracked.run uuid calls).svc.Store.items other with
    | none => rw [g3 ((hother other ho).trans hg), k3 hg]
    | some v => rw [g2 v ((hother other ho).trans hg), k2 v hg]

/-- C13 at a concrete input: the item stored by `Add("u", "Hi")` is updated to "Bye". -/
theorem Service_Update_sets_message_witness :
    (Service.Update exampleRepositoryStorer 1
        (Tracked.run (fun _ => "id-1") [.Add 0 "u" "Hi"]).svc "u" "id-1" "Bye").2
      = ({ UserId := "u", Id := "id-1", Message := "Bye" }, none) :=
  (Service_Update_sets_message (fun _ => "id-1") [.Add 0 "u" "Hi"] 1 "u" "id-1" "Bye"
    { UserId := "u", Id := "id-1", Message := "Hi" } (by decide) (by decide)).1

/-- C14: after any sequence of calls on the service over the empty in-memory repository,
`Get(id)` returns a nil error, and the item stored under `id`, exactly when `id` was
returned by an earlier successful `Add` and not given to a `Delete` since; for every other
`id` it returns the `Nil` example and the error with the text "item not found". -/
theorem Service_Get_succeeds_iff_added_and_not_deleted (uuid : Nat → String)
    (calls : List Call) (id : String) :
    ((Service.Get exampleRepositoryStorer (Tracked.run uuid calls).svc id).2.2 = none
        ↔ id ∈ (Tracked.run uuid calls).live)
    ∧ (id ∈ (Tracked.run uuid calls).live →
        ∃ item : Example, item.Id = id
          ∧ GoMap.get (Tracked.run uuid calls).svc.Store.items id = some item
          ∧ Service.Get exampleRepositoryStorer (Tracked.run uuid calls).svc id
              = ((Tracked.run uuid calls).svc, (item, none)))
    ∧ (id ∉ (Tracked.run uuid calls).live →
        Service.Get exampleRepositoryStorer (Tracked.run uuid calls).svc id
          = ((Tracked.run uuid calls).svc, (pkgexample.Nil, some repositoryNotFoundError)))
    ∧ repositoryNotFoundError.Error = "item not found" := by
  have hI := Tracked_Inv_run uuid calls
  obtain ⟨g1, g2, g3⟩ := Get_repo (Tracked.run uuid calls).svc id
  have hlive := hI.live_iff id
  cases hg : GoMap.get (Tracked.run uuid calls).svc.Store.items id with
  | none =>
    have hn : id ∉ (Tracked.run uuid calls).live := by
      rw [hlive, hg]
      simp
    refine ⟨?_, fun h => absurd h hn, fun _ => Prod.ext g1 (g3 hg), rfl⟩
    rw [g3 hg]
    simp [hn]
  | some item =>
    have hy : id ∈ (Tracked.run uuid calls).live := by
      rw [hlive, hg]
      simp
    refine ⟨?_, fun _ => ⟨item, hI.key_id id item hg, rfl, Prod.ext g1 (g2 item hg)⟩,
      fun h => absurd hy h, rfl⟩
    rw [g2 item hg]
    simp [hy]

/-- C14 at a concrete input: two items are added and the first is deleted; `Get` finds the
second and does not find the first. -/
theorem Service_Get_succeeds_iff_added_and_not_deleted_witness :
    (Service.Get exampleRepositoryStorer
        (Tracked.run (fun n => String.mk (List.replicate (n + 1) 'x'))
          [.Add 0 "u" "Hi", .Add 1 "u" "Yo", .Delete 2 "u" "x"]).svc "x").2
      = (pkgexample.Nil, some repositoryNotFoundError)
    ∧ ∃ item : Example, item.Id = "xx"
        ∧ (Service.Get exampleRepositoryStorer
          (Tracked.run (fun n => String.mk (List.replicate (n + 1) 'x'))
            [.Add 0 "u" "Hi", .Add 1 "u" "Yo", .Delete 2 "u" "x"]).svc "xx").2
          = (item, none) := by
  have h1 := (Service_Get_succeeds_iff_added_and_not_deleted
    (fun n => String.mk (List.replicate (n + 1) 'x'))
    [.Add 0 "u" "Hi", .Add 1 "u" "Yo", .Delete 2 "u" "x"] "x").2.2.1 (by decide)
  obtain ⟨item, hid, -, h2⟩ := (Service_Get_succeeds_iff_added_and_not_deleted
    (fun n => String.mk (List.replicate (n + 1) 'x'))
    [.Add 0 "u" "Hi", .Add 1 "u" "Yo", .Delete 2 "u" "x"] "xx").2.1 (by decide)
  exact ⟨congrArg Prod.snd h1, item, hid, congrArg Prod.snd h2⟩

end exampleservice

/-! ## The admin service on the in-memory example store -/

namespace adminservice

open pkgexample events bus

/-- C20: over the in-memory example store, `DeleteExample(userId, id)` returns the error
"example not found" exactly when no item is stored under `id`; then the service (its
stores and the events recorded on the bus) is as it was.  When an item is stored under
`id` the error is nil. -/
theorem Service_DeleteExample_not_found_iff {υ α : Type} (now : Int)
    (s : Service υ exampleMemoryStore α) (userId id : String) :
    ((Service.DeleteExample exampleMemoryStorer now s userId id).2
        = some exampleServiceNotFound
      ↔ GoMap.get s.ExampleStore.items id = none)
    ∧ ((Option.map GoError.Error (Service.DeleteExample exampleMemoryStorer now s userId id).2
        = some "example not found")
      ↔ GoMap.get s.ExampleStore.items id = none)
    ∧ (GoMap.get s.ExampleStore.items id = none →
        Service.DeleteExample exampleMemoryStorer now s userId id
          = (s, some exampleServiceNotFound))
    ∧ (GoMap.get s.ExampleStore.items id ≠ none →
        (Service.DeleteExample exampleMemoryStorer now s userId id).2 = none) := by
  cases hg : GoMap.get s.ExampleStore.items id with
  | none =>
    have h : Service.DeleteExample exampleMemoryStorer now s userId id
        = (s, some exampleServiceNotFound) := by
      simp [Service.DeleteExample, exampleMemoryStorer, exampleMemoryStore.Delete, hg,
        errorsIs]
    refine ⟨by simp [h], ?_, fun _ => h, fun hn => absurd rfl hn⟩
    rw [h]
    simp [exampleServiceNotFound, GoError.Error]
  | some item =>
    have h : (Service.DeleteExample exampleMemoryStorer now s userId id).2 = none := by
      simp [Service.DeleteExample, exampleMemoryStorer, exampleMemoryStore.Delete, hg]
    refine ⟨by simp [h], by simp [h], ?_, fun _ => h⟩
    intro hn
    cases hn

/-- C20 at a concrete input: deleting from the empty store. -/
theorem Service_DeleteExample_not_found_iff_witness :
    Service.DeleteExample exampleMemoryStorer 0
        ({ UserStore := newInMemoryUserStore
           ExampleStore := newInMemoryExampleStore (fun _ => "id-1")
           AuditStore := ()
           Bus := NewFake } : Service userMemoryStore exampleMemoryStore Unit)
        "admin" "id-1"
      = (({ UserStore := newInMemoryUserStore
            ExampleStore := newInMemoryExampleStore (fun _ => "id-1")
            AuditStore := ()
            Bus := NewFake } : Service userMemoryStore exampleMemoryStore Unit),
         some exampleServiceNotFound) :=
  (Service_DeleteExample_not_found_iff 0
    ({ UserStore := newInMemoryUserStore
       ExampleStore := newInMemoryExampleStore (fun _ => "id-1")
       AuditStore := ()
       Bus := NewFake } : Service userMemoryStore exampleMemoryStore Unit)
    "admin" "id-1").2.2.1 rfl

end adminservice

/-! ## Pagination limits of the services -/

namespace adminservice

open pkgexample events bus

/-- C15: `exampleservice.Service.List` and the five list operations of the admin service
check the limit, then the page, before they touch a store.  For `limit > 50` each returns
the nil list and the error "maximum limit is 50"; for `limit <= 50` and `page < 1` each
returns the nil list and the error "page must be greater than 0"; in both cases the
service comes back as it was, whatever the methods of the store are. -/
theorem list_operations_check_limit_and_page {σ υ ε α : Type}
    (I : exampleservice.Storer σ) (U : UserStorer υ) (E : ExampleStorer ε)
    (A : AuditStorer α) (e : exampleservice.Service σ) (s : Service υ ε α)
    (id eventName : String) (limit page : Int) :
    (limit > 50 →
      exampleservice.Service.List I e id limit page
          = (e, (none, some exampleservice.limitToLargeError))
      ∧ Service.ListUsers U s limit page = (s, (none, some limitToLargeError))
      ∧ Service.GetExamplesForUser E s id limit page = (s, (none, some limitToLargeError))
      ∧ Service.GetEventsForItem A s id limit page = (s, (none, some limitToLargeError))
      ∧ Service.GetEventsForUser A s id limit page = (s, (none, some limitToLargeError))
      ∧ Service.GetByEventAndUser A s id eventName limit page
          = (s, (none, some limitToLargeError)))
    ∧ (limit ≤ 50 → page < 1 →
      exampleservice.Service.List I e id limit page
          = (e, (none, some exampleservice.invalidPageError))
      ∧ Service.ListUsers U s limit page = (s, (none, some invalidPageError))
      ∧ Service.GetExamplesForUser E s id limit page = (s, (none, some invalidPageError))
      ∧ Service.GetEventsForItem A s id limit page = (s, (none, some invalidPageError))
      ∧ Service.GetEventsForUser A s id limit page = (s, (none, some invalidPageError))
      ∧ Service.GetByEventAndUser A s id eventName limit page
          = (s, (none, some invalidPageError)))
    ∧ (exampleservice.limitToLargeError.Error = "maximum limit is 50"
      ∧ limitToLargeError.Error = "maximum limit is 50"
      ∧ exampleservice.invalidPageError.Error = "page must be greater than 0"
      ∧ invalidPageError.Error = "page must be greater than 0") := by
  refine ⟨fun hl => ?_, fun hl hp => ?_, rfl, rfl, rfl, rfl⟩
  · simp [exampleservice.Service.List, Service.ListUsers, Service.GetExamplesForUser,
      Service.GetEventsForItem, Service.GetEventsForUser, Service.GetByEventAndUser, hl]
  · have hn : ¬ limit > 50 := by omega
    simp [exampleservice.Service.List, Service.ListUsers, Service.GetExamplesForUser,
      Service.GetEventsForItem, Service.GetEventsForUser, Service.GetByEventAndUser, hn, hp]

/-- C15 at a concrete input: `ListUsers(51, 1)` and `ListUsers(10, 0)` on the in-memory
user store. -/
theorem list_operations_check_limit_and_page_witness :
    Service.ListUsers userMemoryStorer
        ({ UserStore := newInMemoryUserStore
           ExampleStore := newInMemoryExampleStore (fun _ => "id-1")
           AuditStore := ()
           Bus := NewFake } : Service userMemoryStore exampleMemoryStore Unit) 51 1
      = (({ UserStore := newInMemoryUserStore
            ExampleStore := newInMemoryExampleStore (fun _ => "id-1")
            AuditStore := ()
            Bus := NewFake } : Service userMemoryStore exampleMemoryStore Unit),
         (none, some limitToLargeError))
    ∧ Service.ListUsers userMemoryStorer
        ({ UserStore := newInMemoryUserStore
           ExampleStore := newInMemoryExampleStore (fun _ => "id-1")
           AuditStore := ()
           Bus := NewFake } : Service userMemoryStore exampleMemoryStore Unit) 10 0
      = (({ UserStore := newInMemoryUserStore
            ExampleStore := newInMemoryExampleStore (fun _ => "id-1")
            AuditStore := ()
            Bus := NewFake } : Service userMemoryStore exampleMemoryStore Unit),
         (none, some invalidPageError)) :=
  ⟨((list_operations_check_limit_and_page exampleservice.exampleRepositoryStorer
      userMemoryStorer exampleMemoryStorer
      ({ GetEventsForItem := fun a _ _ _ => (a, (none, none))
         GetEventsForUser := fun a _ _ _ => (a, (none, none))
         GetByEventAndUser := fun a _ _ _ _ => (a, (none, none)) } : AuditStorer Unit)
      { Store := exampleservice.NewInMemoryExampleRepository (fun _ => "id-1"), Bus := NewFake }
      ({ UserStore := newInMemoryUserStore
         ExampleStore := newInMemoryExampleStore (fun _ => "id-1")
         AuditStore := ()
         Bus := NewFake } : Service userMemoryStore exampleMemoryStore Unit)
      "u" "ExampleCreated" 51 1).1 (by decide)).2.1,
   ((list_operations_check_limit_and_page exampleservice.exampleRepositoryStorer
      userMemoryStorer exampleMemoryStorer
      ({ GetEventsForItem := fun a _ _ _ => (a, (none, none))
         GetEventsForUser := fun a _ _ _ => (a, (none, none))
         GetByEventAndUser := fun a _ _ _ _ => (a, (none, none)) } : AuditStorer Unit)
      { Store := exampleservice.NewInMemoryExampleRepository (fun _ => "id-1"), Bus := NewFake }
      ({ UserStore := newInMemoryUserStore
         ExampleStore := newInMemoryExampleStore (fun _ => "id-1")
         AuditStore := ()
         Bus := NewFake } : Service userMemoryStore exampleMemoryStore Unit)
      "u" "ExampleCreated" 10 0).2.1 (by decide) (by decide)).2.1⟩

end adminservice

/-! ## Pagination parameters of a request -/

namespace requests

/-- The function `GetPaginationParameters` in terms of its two query values. -/
theorem GetPaginationParameters_eq (query : url.Values) :
    GetPaginationParameters query =
      (if query.Get "limit" = "" then
        (if query.Get "page" = "" then (10, 1, none)
         else match strconv.Atoi (query.Get "page") with
          | none => (0, 0, some InvalidPageError)
          | some n => if n < 1 then (0, 0, some PageTooLowError) else (10, n, none))
      else match strconv.Atoi (query.Get "limit") with
        | none => (0, 0, some InvalidLimitError)
        | some l =>
          if l < 1 then (0, 0, some LimitTooLowError)
          else if query.Get "page" = "" then (l, 1, none)
          else match strconv.Atoi (query.Get "page") with
            | none => (0, 0, some InvalidPageError)
            | some n => if n < 1 then (0, 0, some PageTooLowError) else (l, n, none)
        : Int × Int × Option GoError) := by
  unfold GetPaginationParameters
  by_cases hl : query.Get "limit" = "" <;> by_cases hp : query.Get "page" = ""
  · simp [hl, hp]
  · cases h1 : strconv.Atoi (query.Get "page") <;> simp [hl, hp, h1]
  · cases h1 : strconv.Atoi (query.Get "limit") <;> simp [hl, hp, h1]
  · cases h1 : strconv.Atoi (query.Get "limit") with
    | none => simp [hl, hp, h1]
    | some l =>
      by_cases hl1 : l < 1
      · simp [hl, hp, h1, hl1]
      · cases h2 : strconv.Atoi (query.Get "page") <;> simp [hl, hp, h1, hl1, h2]

/-- C16: with `query.Get "limit"` and `query.Get "page"` the values of the two parameters
(empty when the parameter is absent), `GetPaginationParameters` returns `(limit, page, nil)`
exactly when each non-empty value is accepted by `strconv.Atoi` with a result of at least
1; an empty limit gives 10 and an empty page gives 1.  Otherwise it returns `(0, 0, err)`
with `err` the first check that fails, in the order: limit not an integer, limit below 1,
page not an integer, page below 1. -/
theorem GetPaginationParameters_checks_in_order (query : url.Values) :
    (GoMap.get query "limit" = none → query.Get "limit" = "")
    ∧ (GoMap.get query "page" = none → query.Get "page" = "")
    ∧ (∀ l p : Int,
        (query.Get "limit" = "" ∧ l = 10
          ∨ query.Get "limit" ≠ "" ∧ strconv.Atoi (query.Get "limit") = some l ∧ 1 ≤ l) →
        (query.Get "page" = "" ∧ p = 1
          ∨ query.Get "page" ≠ "" ∧ strconv.Atoi (query.Get "page") = some p ∧ 1 ≤ p) →
        GetPaginationParameters query = (l, p, none))
    ∧ ((GetPaginationParameters query).2.2 = none ↔
        (query.Get "limit" = "" ∨ ∃ l, strconv.Atoi (query.Get "limit") = some l ∧ 1 ≤ l)
        ∧ (query.Get "page" = "" ∨ ∃ p, strconv.Atoi (query.Get "page") = some p ∧ 1 ≤ p))
    ∧ (query.Get "limit" ≠ "" → strconv.Atoi (query.Get "limit") = none →
        GetPaginationParameters query = (0, 0, some InvalidLimitError))
    ∧ (∀ l : Int, query.Get "limit" ≠ "" → strconv.Atoi (query.Get "limit") = some l →
        l < 1 → GetPaginationParameters query = (0, 0, some LimitTooLowError))
    ∧ ((query.Get "limit" = "" ∨ ∃ l, strconv.Atoi (query.Get "limit") = some l ∧ 1 ≤ l) →
        query.Get "page" ≠ "" → strconv.Atoi (query.Get "page") = none →
        GetPaginationParameters query = (0, 0, some InvalidPageError))
    ∧ ((query.Get "limit" = "" ∨ ∃ l, strconv.Atoi (query.Get "limit") = some l ∧ 1 ≤ l) →
        ∀ p : Int, query.Get "page" ≠ "" → strconv.Atoi (query.Get "page") = some p →
        p < 1 → GetPaginationParameters query = (0, 0, some PageTooLowError))
    ∧ (InvalidLimitError.Error = "limit must be an integer"
        ∧ LimitTooLowError.Error = "limit must be greater than 0"
        ∧ InvalidPageError.Error = "page must be an integer"
        ∧ PageTooLowError.Error = "page must be greater than 0") := by
  have heq := GetPaginationParameters_eq query
  refine ⟨fun h => by simp [url.Values.Get, h], fun h => by simp [url.Values.Get, h],
    ?_, ?_, ?_, ?_, ?_, ?_, rfl, rfl, rfl, rfl⟩
  · intro l p hl hp
    rw [heq]
    rcases hl with ⟨hl, rfl⟩ | ⟨hl, hla, hl1⟩ <;> rcases hp with ⟨hp, rfl⟩ | ⟨hp, hpa, hp1⟩
    · simp [hl, hp]
    · have : ¬ p < 1 := by omega
      simp [hl, hp, hpa, this]
    · have : ¬ l < 1 := by omega
      simp [hl, hp, hla, this]
    · have h1 : ¬ l < 1 := by omega
      have h2 : ¬ p < 1 := by omega
      simp [hl, hp, hla, hpa, h1, h2]
  · rw [heq]
    by_cases hl : query.Get "limit" = "" <;> by_cases hp : query.Get "page" = ""
    · simp [hl, hp]
    · cases hpa : strconv.Atoi (query.Get "page") with
      | none => simp [hl, hp]
      | some p =>
        by_cases hp1 : p < 1
        · have : ¬ 1 ≤ p := by omega
          simp [hl, hp, hp1, this]
        · have : 1 ≤ p := by omega
          simp [hl, hp, hp1, this]
    · cases hla : strconv.Atoi (query.Get "limit") with
      | none => simp [hl, hp]
      | some l =>
        by_cases hl1 : l < 1
        · have : ¬ 1 ≤ l := by omega
          simp [hl, hp, hl1, this]
        · have : 1 ≤ l := by omega
          simp [hl, hp, hl1, this]
    · cases hla : strconv.Atoi (query.Get "limit") with
      | none => simp [hl, hp]
      | some l =>
        by_cases hl1 : l < 1
        · have : ¬ 1 ≤ l := by omega
          simp [hl, hp, hl1, this]
        · have hl2 : 1 ≤ l := by omega
          cases hpa : strconv.Atoi (query.Get "page") with
          | none => simp [hl, hp, hl1]
          | some p =>
            by_cases hp1 : p < 1
            · have : ¬ 1 ≤ p := by omega
              simp [hl, hp, hl1, hl2, hp1, this]
            · have : 1 ≤ p := by omega
              simp [hl, hp, hl1, hl2, hp1, this]
  · intro hl hla
    rw [heq]
    simp [hl, hla]
  · intro l hl hla hl1
    rw [heq]
    simp [hl, hla, hl1]
  · intro hl hp hpa
    rw [heq]
    rcases hl with hl | ⟨l, hla, hl1⟩
    · simp [hl, hp, hpa]
    · have : ¬ l < 1 := by omega
      by_cases hle : query.Get "limit" = ""
      · simp [hle, hp, hpa]
      · simp [hle, hla, this, hp, hpa]
  · intro hl p hp hpa hp1
    rw [heq]
    rcases hl with hl | ⟨l, hla, hl1⟩
    · simp [hl, hp, hpa, hp1]
    · have : ¬ l < 1 := by omega
      by_cases hle : query.Get "limit" = ""
      · simp [hle, hp, hpa, hp1]
      · simp [hle, hla, this, hp, hpa, hp1]

/-- C16 at the inputs of the repository's test: `limit=10&page=1`, `page=-1`, `page=null`,
`limit=-1`, `limit=nan`, and the request without parameters. -/
theorem GetPaginationParameters_checks_in_order_witness :
    GetPaginationParameters [("limit", ["10"]), ("page", ["1"])] = (10, 1, none)
    ∧ GetPaginationParameters [("limit", ["10"]), ("page", ["-1"])]
        = (0, 0, some PageTooLowError)
    ∧ GetPaginationParameters [("limit", ["10"]), ("page", ["null"])]
        = (0, 0, some InvalidPageError)
    ∧ GetPaginationParameters [("limit", ["-1"]), ("page", ["10"])]
        = (0, 0, some LimitTooLowError)
    ∧ GetPaginationParameters [("limit", ["nan"]), ("page", ["10"])]
        = (0, 0, some InvalidLimitError)
    ∧ GetPaginationParameters [] = (10, 1, none) :=
  ⟨(GetPaginationParameters_checks_in_order [("limit", ["10"]), ("page", ["1"])]).2.2.1 10 1
      (Or.inr ⟨by decide, by decide, by decide⟩) (Or.inr ⟨by decide, by decide, by decide⟩),
   (GetPaginationParameters_checks_in_order [("limit", ["10"]), ("page", ["-1"])]).2.2.2.2.2.2.2.1
      (Or.inr ⟨10, by decide, by decide⟩) (-1) (by decide) (by decide) (by decide),
   (GetPaginationParameters_checks_in_order [("limit", ["10"]), ("page", ["null"])]).2.2.2.2.2.2.1
      (Or.inr ⟨10, by decide, by decide⟩) (by decide) (by decide),
   (GetPaginationParameters_checks_in_order [("limit", ["-1"]), ("page", ["10"])]).2.2.2.2.2.1
      (-1) (by decide) (by decide) (by decide),
   (GetPaginationParameters_checks_in_order [("limit", ["nan"]), ("page", ["10"])]).2.2.2.2.1
      (by decide) (by decide),
   (GetPaginationParameters_checks_in_order []).2.2.1 10 1
      (Or.inl ⟨by decide, rfl⟩) (Or.inl ⟨by decide, rfl⟩)⟩

end requests

/-! ## Permissions -/

namespace middleware

/-- The keys of a map. -/
theorem keys_set {α : Type} (m : GoMap α) (k : String) (v : α) :
    (GoMap.set m k v).map Prod.fst = k :: (m.map Prod.fst).filter (fun a => a != k) := by
  simp only [GoMap.set, List.map_cons, List.cons.injEq, true_and]
  induction m with
  | nil => rfl
  | cons kv m ih =>
    by_cases h : kv.1 = k
    · rw [List.filter_cons_of_neg (by simp [h]), List.map_cons,
        List.filter_cons_of_neg (by simp [h])]
      exact ih
    · rw [List.filter_cons_of_pos (by simp [h]), List.map_cons, List.map_cons,
        List.filter_cons_of_pos (by simp [h])]
      rw [ih]

theorem length_set_of_not_mem {α : Type} (m : GoMap α) (k : String) (v : α)
    (hk : k ∉ m.map Prod.fst) : (GoMap.set m k v).length = m.length + 1 := by
  have : List.filter (fun kv => kv.1 != k) m = m := by
    rw [List.filter_eq_self]
    intro kv hkv
    have : kv.1 ≠ k := fun h => hk (h ▸ List.mem_map_of_mem Prod.fst hkv)
    simpa using this
  simp [GoMap.set, this]

theorem get_ne_none_iff_mem_keys {α : Type} (m : GoMap α) (k : String) :
    GoMap.get m k ≠ none ↔ k ∈ m.map Prod.fst := by
  unfold GoMap.get
  rw [ne_eq, List.lookup_eq_none_iff]
  constructor
  · intro h
    push_neg at h
    obtain ⟨p, hp, hk⟩ := h
    have hk2 : k = p.1 := by simpa using hk
    rw [hk2]
    exact List.mem_map_of_mem Prod.fst hp
  · intro h hn
    obtain ⟨p, hp, rfl⟩ := List.mem_map.mp h
    have := hn p hp
    simp at this

/-- The keys of the set made by the loop of `NewPermissionSet` from a set `acc`. -/
theorem foldl_set_keys (R : List String) (acc : PermissionSet)
    (hacc : (acc.map Prod.fst).Nodup) :
    ((R.foldl (fun perms permission => GoMap.set perms permission ()) acc).map Prod.fst).Nodup
    ∧ ∀ k, k ∈ (R.foldl (fun perms permission => GoMap.set perms permission ()) acc).map Prod.fst
        ↔ k ∈ acc.map Prod.fst ∨ k ∈ R := by
  induction R generalizing acc with
  | nil => exact ⟨hacc, fun k => by simp⟩
  | cons r R ih =>
    have hn : ((GoMap.set acc r ()).map Prod.fst).Nodup := by
      rw [keys_set]
      refine List.nodup_cons.mpr ⟨by simp, hacc.filter _⟩
    obtain ⟨h1, h2⟩ := ih (GoMap.set acc r ()) hn
    refine ⟨h1, fun k => ?_⟩
    rw [List.foldl_cons, h2 k, keys_set]
    simp only [List.mem_cons, List.mem_filter, bne_iff_ne, ne_eq]
    constructor
    · rintro ((h | ⟨h, -⟩) | h)
      · exact Or.inr (Or.inl h)
      · exact Or.inl h
      · exact Or.inr (Or.inr h)
    · rintro (h | h | h)
      · by_cases hk : k = r
        · exact Or.inl (Or.inl hk)
        · exact Or.inl (Or.inr ⟨h, hk⟩)
      · exact Or.inl (Or.inl h)
      · exact Or.inr h

/-- The set that `NewPermissionSet` makes holds each element of the list once. -/
theorem NewPermissionSet_keys (R : List String) :
    ((NewPermissionSet R).map Prod.fst).Nodup
    ∧ ∀ k, k ∈ (NewPermissionSet R).map Prod.fst ↔ k ∈ R := by
  obtain ⟨h1, h2⟩ := foldl_set_keys R [] (by simp)
  exact ⟨h1, fun k => by rw [NewPermissionSet, h2 k]; simp⟩

/-- The size of `found` after the loop of `HasAll.Validate` over entries with distinct keys,
none of them in `found` at the start. -/
theorem length_found (P : PermissionSet) (f : GoMap Unit → String × Unit → GoMap Unit)
    (hf : ∀ found kv, f found kv =
      if (GoMap.get P kv.1).isSome then GoMap.set found kv.1 () else found)
    (l : List (String × Unit)) (acc : GoMap Unit)
    (hl : (l.map Prod.fst).Nodup) (hd : ∀ k ∈ acc.map Prod.fst, k ∉ l.map Prod.fst) :
    (l.foldl f acc).length
      = acc.length + (l.filter (fun kv => (GoMap.get P kv.1).isSome)).length := by
  induction l generalizing acc with
  | nil => simp
  | cons kv l ih =>
    rw [List.map_cons, List.nodup_cons] at hl
    rw [List.foldl_cons, hf]
    have hk : kv.1 ∉ acc.map Prod.fst := fun h => hd kv.1 h (by simp)
    cases hg : GoMap.get P kv.1 with
    | none =>
      rw [List.filter_cons_of_neg (by simp [hg])]
      simp only [Option.isSome_none, Bool.false_eq_true, if_false]
      exact ih acc hl.2 (fun k hka hkl => hd k hka (by simp [hkl]))
    | some u =>
      rw [List.filter_cons_of_pos (by simp [hg])]
      simp only [Option.isSome_some, if_true]
      have := ih (GoMap.set acc kv.1 ()) hl.2 (by
        intro k hka hkl
        rw [keys_set] at hka
        simp only [List.mem_cons, List.mem_filter] at hka
        rcases hka with hka | ⟨hka, -⟩
        · exact hl.1 (hka ▸ hkl)
        · exact hd k hka (by simp [hkl]))
      simp only at this ⊢
      rw [this, length_set_of_not_mem acc kv.1 () hk, List.length_cons]
      omega

/-- C17: `NewHasAll(R).Validate(P)` returns nil exactly when every element of `R` is a key
of `P`, and otherwise the error "MISSING_PERMISSION"; so a list with repeated elements is
validated as the list without the repetitions, and the empty list always passes. -/
theorem HasAll_Validate_iff_all_present (R : List String) (P : PermissionSet) :
    ((NewHasAll R).Validate P = none ↔ ∀ r ∈ R, GoMap.get P r ≠ none)
    ∧ ((NewHasAll R).Validate P ≠ none →
        (NewHasAll R).Validate P = some (.dynamic "MISSING_PERMISSION"))
    ∧ (GoError.dynamic "MISSING_PERMISSION").Error = "MISSING_PERMISSION"
    ∧ (NewHasAll R.dedup).Validate P = (NewHasAll R).Validate P
    ∧ (NewHasAll []).Validate P = none := by
  have key : ∀ R : List String,
      ((NewHasAll R).Validate P = none ↔ ∀ r ∈ R, GoMap.get P r ≠ none)
      ∧ ((NewHasAll R).Validate P ≠ none →
          (NewHasAll R).Validate P = some (.dynamic "MISSING_PERMISSION")) := by
    intro R
    obtain ⟨hnd, hmem⟩ := NewPermissionSet_keys R
    have hall : (List.filter (fun kv => (GoMap.get P kv.1).isSome) (NewPermissionSet R)).length
        = (NewPermissionSet R).length ↔ ∀ r ∈ R, GoMap.get P r ≠ none := by
      rw [List.filter_length_eq_length]
      constructor
      · intro h r hr
        obtain ⟨kv, hkv, rfl⟩ := List.mem_map.mp ((hmem r).mpr hr)
        have := h kv hkv
        intro hn
        rw [hn] at this
        cases this
      · intro h kv hkv
        have := h kv.1 ((hmem kv.1).mp (List.mem_map_of_mem Prod.fst hkv))
        cases hg : GoMap.get P kv.1 with
        | none => exact absurd hg this
        | some u => rfl
    simp only [HasAll.Validate, NewHasAll]
    have hlen := length_found P
      (fun found kv => if (GoMap.get P kv.1).isSome then GoMap.set found kv.1 () else found)
      (fun _ _ => rfl) (NewPermissionSet R) [] hnd (by simp)
    simp only [List.length_nil, Nat.zero_add] at hlen
    simp only [hlen]
    constructor
    · rw [← hall]
      by_cases h : (List.filter (fun kv => (GoMap.get P kv.1).isSome)
          (NewPermissionSet R)).length = (NewPermissionSet R).length
      · simp [h]
      · simp [h]
    · intro h
      by_cases h2 : (List.filter (fun kv => (GoMap.get P kv.1).isSome)
          (NewPermissionSet R)).length = (NewPermissionSet R).length
      · simp [h2] at h
      · simp [h2]
  refine ⟨(key R).1, (key R).2, rfl, ?_, ?_⟩
  · have h1 := (key R).1
    have h2 := (key R.dedup).1
    have h3 : (∀ r ∈ R.dedup, GoMap.get P r ≠ none) ↔ ∀ r ∈ R, GoMap.get P r ≠ none := by
      simp [List.mem_dedup]
    cases ha : (NewHasAll R).Validate P with
    | none => exact h2.mpr (h3.mpr (h1.mp ha))
    | some e =>
      have hb : (NewHasAll R.dedup).Validate P ≠ none := by
        intro hb
        have := h1.mpr (h3.mp (h2.mp hb))
        rw [ha] at this
        cases this
      rw [(key R.dedup).2 hb]
      have := (key R).2 (by rw [ha]; simp)
      rw [ha] at this
      exact this.symm
  · rfl

/-- C17 at the inputs of the repository's test, and a list with a repeated element. -/
theorem HasAll_Validate_iff_all_present_witness :
    (NewHasAll ["recipe:read", "recipe:write", "recipe:read"]).Validate
        (NewPermissionSet ["recipe:read", "recipe:write"]) = none
    ∧ (NewHasAll ["recipe:read"]).Validate (NewPermissionSet ["recipe:write"])
        = some (.dynamic "MISSING_PERMISSION") :=
  ⟨(HasAll_Validate_iff_all_present ["recipe:read", "recipe:write", "recipe:read"]
      (NewPermissionSet ["recipe:read", "recipe:write"])).1.mpr (by decide),
   (HasAll_Validate_iff_all_present ["recipe:read"]
      (NewPermissionSet ["recipe:write"])).2.1 (by decide)⟩

/-- The loop of `HasOne.Validate` ends with nil exactly when a visited key is a key of `P`. -/
theorem HasOne_loop_iff (P : PermissionSet) (l : List (String × Unit)) :
    (HasOne.loop P l = none ↔ ∃ k ∈ l.map Prod.fst, GoMap.get P k ≠ none)
    ∧ (HasOne.loop P l ≠ none → HasOne.loop P l = some (.dynamic "MISSING_PERMISSION")) := by
  induction l with
  | nil => simp [HasOne.loop]
  | cons kv l ih =>
    unfold HasOne.loop
    cases hg : GoMap.get P kv.1 with
    | none =>
      simp only [List.map_cons, List.mem_cons, exists_eq_or_imp, hg, ne_eq, not_true_eq_false,
        false_or, Option.isSome_none, Bool.false_eq_true, if_false]
      exact ih
    | some u => simp [hg]

/-- C18: `NewHasOne(R).Validate(P)` returns nil exactly when some element of `R` is a key of
`P`, and otherwise the error "MISSING_PERMISSION"; the empty list always fails; and the
result is the same for every order in which the loop visits the entries of the set. -/
theorem HasOne_Validate_iff_one_present (R : List String) (P : PermissionSet) :
    ((NewHasOne R).Validate P = none ↔ ∃ r ∈ R, GoMap.get P r ≠ none)
    ∧ ((NewHasOne R).Validate P ≠ none →
        (NewHasOne R).Validate P = some (.dynamic "MISSING_PERMISSION"))
    ∧ (GoError.dynamic "MISSING_PERMISSION").Error = "MISSING_PERMISSION"
    ∧ (NewHasOne []).Validate P = some (.dynamic "MISSING_PERMISSION")
    ∧ (∀ order : List (String × Unit), List.Perm order (NewHasOne R).permissions →
        HasOne.Validate { permissions := order } P = (NewHasOne R).Validate P) := by
  obtain ⟨-, hmem⟩ := NewPermissionSet_keys R
  have h1 : (NewHasOne R).Validate P = none ↔ ∃ r ∈ R, GoMap.get P r ≠ none := by
    simp only [HasOne.Validate, NewHasOne]
    rw [(HasOne_loop_iff P _).1]
    constructor
    · rintro ⟨k, hk, hg⟩
      exact ⟨k, (hmem k).mp hk, hg⟩
    · rintro ⟨k, hk, hg⟩
      exact ⟨k, (hmem k).mpr hk, hg⟩
  refine ⟨h1, (HasOne_loop_iff P _).2, rfl, rfl, fun order hperm => ?_⟩
  have h2 : HasOne.Validate { permissions := order } P = none
      ↔ (NewHasOne R).Validate P = none := by
    simp only [HasOne.Validate]
    rw [(HasOne_loop_iff P _).1, (HasOne_loop_iff P _).1]
    constructor
    · rintro ⟨k, hk, hg⟩
      exact ⟨k, (hperm.map Prod.fst).mem_iff.mp hk, hg⟩
    · rintro ⟨k, hk, hg⟩
      exact ⟨k, (hperm.map Prod.fst).mem_iff.mpr hk, hg⟩
  cases ha : (NewHasOne R).Validate P with
  | none => exact h2.mpr ha
  | some e =>
    have hb : HasOne.Validate { permissions := order } P ≠ none := by
      intro hb
      rw [h2.mp hb] at ha
      cases ha
    have hc := (HasOne_loop_iff P order).2 hb
    have hd := (HasOne_loop_iff P (NewHasOne R).permissions).2 (by
      intro hx
      simp only [HasOne.Validate] at ha
      rw [hx] at ha
      cases ha)
    simp only [HasOne.Validate] at ha ⊢
    rw [hc, ← ha, hd]

/-- C18 at the inputs of the repository's test. -/
theorem HasOne_Validate_iff_one_present_witness :
    (NewHasOne ["recipe:read", "recipe:write"]).Validate (NewPermissionSet ["recipe:read"])
        = none
    ∧ (NewHasOne ["recipe:read", "recipe:write"]).Validate (NewPermissionSet ["recipe:delete"])
        = some (.dynamic "MISSING_PERMISSION") :=
  ⟨(HasOne_Validate_iff_one_present ["recipe:read", "recipe:write"]
      (NewPermissionSet ["recipe:read"])).1.mpr ⟨"recipe:read", by decide, by decide⟩,
   (HasOne_Validate_iff_one_present ["recipe:read", "recipe:write"]
      (NewPermissionSet ["recipe:delete"])).2.1 (by decide)⟩

end middleware

/-! ## The cache -/

namespace cache

/-- The text that `hex.EncodeToString` makes has two characters per byte. -/
theorem length_EncodeToString (src : List Nat) :
    (hex.EncodeToString src).length = 2 * src.length := by
  unfold hex.EncodeToString
  rw [String.length_mk]
  induction src with
  | nil => rfl
  | cons b src ih =>
    simp only [List.flatMap_cons, List.length_append, List.length_cons, List.length_nil, ih]
    omega

/-- C19: on the in-memory cache in any state, `Set(k, v)` returns a nil error and the tag
`hex(md5(v))`; after it `Get(k)` returns that tag and `true`, `NoneMatch.Met(k, tag)` is
true, and, the digest having its 16 bytes, the tag has 32 characters and the cache check of
`Controller.Get` for the path value `k` and the header value `tag` answers 304; the entry
of every other key is as it was. -/
theorem InMemoryCache_Set_Get_round_trip (md5 : List Nat → List Nat) (m : InMemoryCache)
    (k : String) (v : List Nat) :
    (InMemoryCache.Set md5 m k v).2 = (hex.EncodeToString (md5 v), none)
    ∧ InMemoryCache.Get (InMemoryCache.Set md5 m k v).1 k = (hex.EncodeToString (md5 v), true)
    ∧ NoneMatch.Met (InMemoryCacher md5) (InMemoryCache.Set md5 m k v).1 k
        (hex.EncodeToString (md5 v)) = true
    ∧ ((md5 v).length = 16 →
        (hex.EncodeToString (md5 v)).length = 32
        ∧ exampleservice.Controller.cacheHit (InMemoryCacher md5)
            (InMemoryCache.Set md5 m k v).1 k (hex.EncodeToString (md5 v)) = true)
    ∧ (∀ other : String, other ≠ k →
        InMemoryCache.Get (InMemoryCache.Set md5 m k v).1 other = InMemoryCache.Get m other) := by
  have hset : InMemoryCache.Set md5 m k v
      = ({ items := GoMap.set m.items k (hex.EncodeToString (md5 v)) },
         (hex.EncodeToString (md5 v), none)) := rfl
  have hget : InMemoryCache.Get (InMemoryCache.Set md5 m k v).1 k
      = (hex.EncodeToString (md5 v), true) := by
    rw [hset]
    simp [InMemoryCache.Get, GoMap.get_set_self]
  have hmet : NoneMatch.Met (InMemoryCacher md5) (InMemoryCache.Set md5 m k v).1 k
      (hex.EncodeToString (md5 v)) = true := by
    simp only [NoneMatch.Met, InMemoryCacher, hget]
    simp
  refine ⟨by rw [hset], hget, hmet, fun h16 => ?_, fun other ho => ?_⟩
  · have hlen : (hex.EncodeToString (md5 v)).length = 32 := by
      rw [length_EncodeToString, h16]
    refine ⟨hlen, ?_⟩
    simp [exampleservice.Controller.cacheHit, hlen, hmet]
  · rw [hset]
    simp only [InMemoryCache.Get, GoMap.get_set_other _ _ _ _ ho]

/-- C19 at a concrete input, with a stand-in for the digest that returns sixteen zero
bytes. -/
theorem InMemoryCache_Set_Get_round_trip_witness :
    (hex.EncodeToString ((fun _ => List.replicate 16 0) [104, 105])).length = 32
    ∧ exampleservice.Controller.cacheHit (InMemoryCacher (fun _ => List.replicate 16 0))
        (InMemoryCache.Set (fun _ => List.replicate 16 0) NewInMemoryCache "id-1"
          [104, 105]).1 "id-1"
        (hex.EncodeToString ((fun _ => List.replicate 16 0) [104, 105])) = true :=
  (InMemoryCache_Set_Get_round_trip (fun _ => List.replicate 16 0) NewInMemoryCache "id-1"
    [104, 105]).2.2.2.1 (by decide)

end cache

/-! ## The bus: accounting, the drain loop and the end of `Listen` -/

namespace bus

open events

/-- One pass of `Listen` in a state of the invariant: it does nothing when `Listen` has
returned or its case is not ready; it takes the stop signal; or it receives, from a parked
sender or from the closed queue, and fans out. -/
theorem Listen_eq (subscribers : Subscribers) (c : SelectCase) (s : System)
    (h : Inv subscribers s) :
    Listen c s = s
    ∨ (s.listen = .Running ∧ c = .done ∧ s.done = true
        ∧ Listen c s = { s with done := false, listen := .Stopped })
    ∨ (s.listen = .Running ∧ c = .recv
        ∧ ∃ (v : Event) (ch : Chan) (woken : Option Event),
            Listen c s =
              { s with
                b := { s.b with ch := ch, wg := s.b.wg + s.b.subscribers.length }
                received := s.received ++ [v]
                returned := s.returned ++ woken.toList
                goroutines := s.goroutines ++ invocationsOf s.b.subscribers.length v
                started := s.started ++ invocationsOf s.b.subscribers.length v }) := by
  unfold Listen
  cases hl : s.listen with
  | Stopped => exact Or.inl rfl
  | Running =>
    cases c with
    | done =>
      cases hd : s.done with
      | false => left; simp
      | true => right; left; simp
    | recv =>
      rcases recv_cases s.b.ch h.buf_nil with ⟨hr, -, -⟩ | ⟨e, q, -, hr⟩ | ⟨-, -, hr⟩
      · left; simp [hr]
      · right; right
        refine ⟨rfl, rfl, e, { s.b.ch with sendq := q }, some e, ?_⟩
        simp only [hr, fanOut_eq]
      · right; right
        refine ⟨rfl, rfl, events.Nil, s.b.ch, none, ?_⟩
        simp only [hr, fanOut_eq]

/-- The invocations started are the live ones and the finished ones. -/
theorem accounting_step (subscribers : Subscribers) (s t : System) (a : Action)
    (hI : Inv subscribers s) (h : step s a = .ok t)
    (hA : s.started.length = s.goroutines.length + s.outcomes.length) :
    t.started.length = t.goroutines.length + t.outcomes.length := by
  cases a with
  | notify e =>
    simp only [step] at h
    rcases Notify_eq subscribers e s hI with ⟨-, hn⟩ | ⟨-, hn⟩ <;>
    · rw [hn] at h
      cases h
      exact hA
  | signal =>
    simp only [step, signal] at h
    split at h <;>
    · cases h
      exact hA
  | listen c =>
    simp only [step] at h
    cases h
    rcases Listen_eq subscribers c s hI with hl | ⟨-, -, -, hl⟩ | ⟨-, -, v, ch, woken, hl⟩
    · rw [hl]; exact hA
    · rw [hl]; exact hA
    · rw [hl]
      simp only [List.length_append]
      omega
  | finish i =>
    rcases finish_eq subscribers i s hI with ⟨-, hf⟩ | ⟨g, hg, hf⟩
    · simp only [step, hf] at h
      cases h
      exact hA
    · simp only [step, hf] at h
      cases h
      have hi : i < s.goroutines.length := by
        rcases List.getElem?_eq_some_iff.mp hg with ⟨hi, -⟩
        exact hi
      simp only [List.length_eraseIdx, hi, if_true, List.length_append, List.length_cons,
        List.length_nil]
      omega
  | drain =>
    simp only [step] at h
    rcases CloseAndDrain_eq subscribers s hI with
      ⟨-, hc⟩ | ⟨-, hc⟩ | ⟨-, -, hc⟩ | ⟨-, -, hc⟩ | ⟨-, hc⟩ <;>
    · rw [hc] at h
      cases h
      exact hA
  | waiter =>
    simp only [step, waiter] at h
    split at h
    · cases h; exact hA
    · cases h; exact hA
    · split at h <;>
      · cases h
        exact hA
  | tick =>
    simp only [step] at h
    cases h
    exact hA

theorem accounting_run (subscribers : Subscribers) (as : List Action) (s t : System)
    (hI : Inv subscribers s) (h : run s as = .ok t)
    (hA : s.started.length = s.goroutines.length + s.outcomes.length) :
    t.started.length = t.goroutines.length + t.outcomes.length := by
  induction as generalizing s with
  | nil => cases h; exact hA
  | cons a as ih =>
    simp only [run] at h
    cases hs : step s a with
    | error p => rw [hs] at h; cases h
    | ok u =>
      rw [hs] at h
      exact ih u (Inv_step subscribers s u a hI hs) h
        (accounting_step subscribers s u a hI hs hA)

/-- After `Listen` has returned no step receives for it or starts an invocation. -/
theorem stopped_step (subscribers : Subscribers) (s t : System) (a : Action)
    (hI : Inv subscribers s) (h : step s a = .ok t) (hS : s.listen = .Stopped) :
    t.listen = .Stopped ∧ t.received = s.received ∧ t.started = s.started := by
  cases a with
  | notify e =>
    simp only [step] at h
    rcases Notify_eq subscribers e s hI with ⟨-, hn⟩ | ⟨-, hn⟩ <;>
    · rw [hn] at h
      cases h
      exact ⟨hS, rfl, rfl⟩
  | signal =>
    simp only [step, signal] at h
    split at h <;>
    · cases h
      exact ⟨hS, rfl, rfl⟩
  | listen c =>
    simp only [step, Listen, hS] at h
    cases h
    exact ⟨hS, rfl, rfl⟩
  | finish i =>
    rcases finish_eq subscribers i s hI with ⟨-, hf⟩ | ⟨g, -, hf⟩ <;>
    · simp only [step, hf] at h
      cases h
      exact ⟨hS, rfl, rfl⟩
  | drain =>
    simp only [step] at h
    rcases CloseAndDrain_eq subscribers s hI with
      ⟨-, hc⟩ | ⟨-, hc⟩ | ⟨-, -, hc⟩ | ⟨-, -, hc⟩ | ⟨-, hc⟩ <;>
    · rw [hc] at h
      cases h
      exact ⟨hS, rfl, rfl⟩
  | waiter =>
    simp only [step, waiter] at h
    split at h
    · cases h; exact ⟨hS, rfl, rfl⟩
    · cases h; exact ⟨hS, rfl, rfl⟩
    · split at h <;>
      · cases h
        exact ⟨hS, rfl, rfl⟩
  | tick =>
    simp only [step] at h
    cases h
    exact ⟨hS, rfl, rfl⟩

theorem stopped_run (subscribers : Subscribers) (as : List Action) (s t : System)
    (hI : Inv subscribers s) (h : run s as = .ok t) (hS : s.listen = .Stopped) :
    t.listen = .Stopped ∧ t.received = s.received ∧ t.started = s.started := by
  induction as generalizing s with
  | nil => cases h; exact ⟨hS, rfl, rfl⟩
  | cons a as ih =>
    simp only [run] at h
    cases hs : step s a with
    | error p => rw [hs] at h; cases h
    | ok u =>
      rw [hs] at h
      obtain ⟨h1, h2, h3⟩ := stopped_step subscribers s u a hI hs hS
      obtain ⟨k1, k2, k3⟩ := ih u (Inv_step subscribers s u a hI hs) h h1
      exact ⟨k1, k2.trans h2, k3.trans h3⟩

/-- C22: in every run of the step model the in-flight counter `wg` equals the number of
subscriber invocations spawned and not yet completed: it is the number of live invocations,
and together with the completed ones they are all the invocations started.  Completing a live
invocation lowers the counter by exactly one whatever the subscriber returned (the result is
only recorded among the outcomes), no step of a run panics, so the counter never goes below
zero; each spawn raises the counter by one, and a `Done` on a zero counter would panic. -/
theorem inflight_counter_counts_live_invocations (subscribers : Subscribers) (deadline : Nat)
    (as : List Action) :
    (∃ t, run (System.init subscribers deadline) as = .ok t
      ∧ t.b.wg = t.goroutines.length
      ∧ t.b.wg + t.outcomes.length = t.started.length
      ∧ (∀ i g, t.goroutines[i]? = some g →
          ∃ u, step t (.finish i) = .ok u ∧ u.b.wg + 1 = t.b.wg
            ∧ u.goroutines = t.goroutines.eraseIdx i
            ∧ u.outcomes =
                t.outcomes ++ [(g, (t.b.subscribers.getD g.sub (fun _ => none)) g.v)]
            ∧ u.started = t.started)
      ∧ (∀ a, ∃ u, step t a = .ok u))
    ∧ (∀ v s sub, (spawn v s sub).b.wg = s.b.wg + 1
        ∧ (spawn v s sub).goroutines = s.goroutines ++ [⟨sub, v⟩]
        ∧ (spawn v s sub).started = s.started ++ [⟨sub, v⟩])
    ∧ wgDone 0 = .error "sync: negative WaitGroup counter" := by
  refine ⟨?_, fun v s sub => ⟨rfl, rfl, rfl⟩, rfl⟩
  obtain ⟨t, ht, hI⟩ := run_init_Inv subscribers deadline as
  have hA := accounting_run subscribers as _ t (Inv_init subscribers deadline) ht rfl
  refine ⟨t, ht, hI.wg_eq, ?_, ?_, fun a => step_ok subscribers t a hI⟩
  · rw [hI.wg_eq]; exact hA.symm
  · intro i g hg
    rcases finish_eq subscribers i t hI with ⟨hn, -⟩ | ⟨g', hg', hf⟩
    · rw [hn] at hg; cases hg
    · rw [hg'] at hg
      cases hg
      refine ⟨_, hf, ?_, rfl, rfl, rfl⟩
      have hi : i < t.goroutines.length := by
        rcases List.getElem?_eq_some_iff.mp hg' with ⟨hi, -⟩
        exact hi
      have := hI.wg_eq
      show t.b.wg - 1 + 1 = t.b.wg
      omega

theorem inflight_counter_counts_live_invocations_witness :
    ∃ t, run (System.init [fun _ => none, fun e => some (.dynamic e.Name)] 1)
        [.notify (NewEvent 0 "u" (.ExampleCreated { Id := "A" })), .listen .recv,
         .finish 1] = .ok t
      ∧ t.b.wg = 1 ∧ t.started.length = 2 ∧ t.outcomes.length = 1 := by
  obtain ⟨⟨t, ht, h1, h2, -, -⟩, -, -⟩ :=
    inflight_counter_counts_live_invocations [fun _ => none, fun e => some (.dynamic e.Name)] 1
      [.notify (NewEvent 0 "u" (.ExampleCreated { Id := "A" })), .listen .recv, .finish 1]
  have h3 : (match run (System.init [fun _ => none, fun e => some (.dynamic e.Name)] 1)
        [.notify (NewEvent 0 "u" (.ExampleCreated { Id := "A" })), .listen .recv,
         .finish 1] with
      | .ok t => t.goroutines.length
      | .error _ => 0) = 1 := by decide
  have h4 : (match run (System.init [fun _ => none, fun e => some (.dynamic e.Name)] 1)
        [.notify (NewEvent 0 "u" (.ExampleCreated { Id := "A" })), .listen .recv,
         .finish 1] with
      | .ok t => t.outcomes.length
      | .error _ => 0) = 1 := by decide
  rw [ht] at h3 h4
  have h5 : t.goroutines.length = 1 := h3
  have h6 : t.outcomes.length = 1 := h4
  exact ⟨t, ht, by omega, by omega, h6⟩

/-- C23: in every run the queue holds no buffered event (its capacity is zero), so the drain
loop of `CloseAndDrain` has received nothing: its pass on the closed queue ends the loop at
once, no step of `CloseAndDrain` starts a subscriber invocation or changes the in-flight
counter, and every invocation started is one of `Listen`, for an event `Listen` received.
The loop body itself fans out: on a closed queue that still held an event it would take that
event and start one invocation per subscriber for it. -/
theorem CloseAndDrain_drain_loop_runs_zero_times (subscribers : Subscribers) (deadline : Nat)
    (as : List Action) :
    (∃ t, run (System.init subscribers deadline) as = .ok t
      ∧ t.b.ch.cap = 0 ∧ t.b.ch.buf = [] ∧ t.drained = []
      ∧ t.started = t.received.flatMap (invocationsOf subscribers.length)
      ∧ (t.drain = .Ranging → CloseAndDrain t = .ok { t with drain := .Waiting })
      ∧ (∃ u, CloseAndDrain t = .ok u ∧ u.started = t.started ∧ u.goroutines = t.goroutines
          ∧ u.b.wg = t.b.wg ∧ u.drained = []))
    ∧ (∀ (s : System) (x : Event) (rest : List Event), s.drain = .Ranging →
        s.b.ch.buf = x :: rest → s.b.ch.sendq = [] →
        ∃ u, CloseAndDrain s = .ok u ∧ u.drain = .Ranging ∧ u.b.ch.buf = rest
          ∧ u.drained = s.drained ++ [x]
          ∧ u.started = s.started ++ invocationsOf s.b.subscribers.length x
          ∧ u.b.wg = s.b.wg + s.b.subscribers.length) := by
  constructor
  · obtain ⟨t, ht, hI⟩ := run_init_Inv subscribers deadline as
    refine ⟨t, ht, hI.cap_zero, hI.buf_nil, hI.drained_nil, hI.started_eq, ?_, ?_⟩
    · intro hd
      rcases CloseAndDrain_eq subscribers t hI with
        ⟨h1, -⟩ | ⟨-, hc⟩ | ⟨h1, -, -⟩ | ⟨h1, -, -⟩ | ⟨h1, -⟩
      · rw [hd] at h1; cases h1
      · exact hc
      · rw [hd] at h1; cases h1
      · rw [hd] at h1; cases h1
      · rw [hd] at h1; cases h1
    · rcases CloseAndDrain_eq subscribers t hI with
        ⟨-, hc⟩ | ⟨-, hc⟩ | ⟨-, -, hc⟩ | ⟨-, -, hc⟩ | ⟨-, hc⟩ <;>
      exact ⟨_, hc, rfl, rfl, rfl, hI.drained_nil⟩
  · intro s x rest hd hb hq
    have hc : CloseAndDrain s = .ok (fanOut x
        { s with
          b := { s.b with ch := { s.b.ch with buf := rest } }
          drained := s.drained ++ [x]
          returned := s.returned ++ [] }) := by
      unfold CloseAndDrain
      simp [hd, Chan.recv, hb, hq]
    refine ⟨_, hc, ?_, ?_, ?_, ?_, ?_⟩ <;> simp [fanOut_eq, hd]

theorem CloseAndDrain_drain_loop_runs_zero_times_witness :
    ∃ t, run (System.init [fun _ => none] 1)
        [.notify (NewEvent 0 "u" (.ExampleCreated { Id := "A" })), .listen .recv, .signal,
         .listen .done, .drain] = .ok t
      ∧ t.drained = [] ∧ CloseAndDrain t = .ok { t with drain := .Waiting } := by
  obtain ⟨⟨t, ht, -, -, hdr, -, hR, -⟩, -⟩ :=
    CloseAndDrain_drain_loop_runs_zero_times [fun _ => none] 1
      [.notify (NewEvent 0 "u" (.ExampleCreated { Id := "A" })), .listen .recv, .signal,
       .listen .done, .drain]
  have h3 : (match run (System.init [fun _ => none] 1)
        [.notify (NewEvent 0 "u" (.ExampleCreated { Id := "A" })), .listen .recv, .signal,
         .listen .done, .drain] with
      | .ok t => decide (t.drain = .Ranging)
      | .error _ => false) = true := by decide
  rw [ht] at h3
  exact ⟨t, ht, hdr, hR (of_decide_eq_true h3)⟩

/-- C24: `Listen` has the two states Running and Stopped and starts Running.  It stops only
by taking the stop signal, which it does without receiving from the queue; a stopped `Listen`
does nothing, and in every run, from the moment `Listen` has stopped it stays stopped and no
further event is received or dispatched: the events received and the invocations started are
the same at every later state. -/
theorem Listen_stops_for_good (subscribers : Subscribers) (deadline : Nat)
    (as bs : List Action) :
    (∃ s t, run (System.init subscribers deadline) as = .ok s ∧ run s bs = .ok t
      ∧ (s.listen = .Stopped →
          t.listen = .Stopped ∧ t.received = s.received ∧ t.started = s.started
            ∧ t.drained = []))
    ∧ (∀ s : System, s.listen = .Running → s.done = true →
        Listen .done s = { s with done := false, listen := .Stopped })
    ∧ (∀ (s : System) (c : SelectCase), s.listen = .Stopped → Listen c s = s)
    ∧ (∀ (s : System) (c : SelectCase), (Listen c s).listen = .Stopped →
        s.listen = .Stopped ∨ (c = .done ∧ s.done = true))
    ∧ (System.init subscribers deadline).listen = .Running
    ∧ (∀ l : ListenState, l = .Running ∨ l = .Stopped) := by
  refine ⟨?_, ?_, ?_, ?_, rfl, ?_⟩
  · obtain ⟨s, hs, hI⟩ := run_init_Inv subscribers deadline as
    obtain ⟨t, ht, hJ⟩ := run_Inv subscribers bs s hI
    exact ⟨s, t, hs, ht, fun hS =>
      let h := stopped_run subscribers bs s t hI ht hS
      ⟨h.1, h.2.1, h.2.2, hJ.drained_nil⟩⟩
  · intro s hl hd
    simp [Listen, hl, hd]
  · intro s c hl
    simp [Listen, hl]
  · intro s c h
    cases hl : s.listen with
    | Stopped => exact Or.inl rfl
    | Running =>
      right
      cases c with
      | done =>
        cases hd : s.done with
        | true => exact ⟨rfl, rfl⟩
        | false => simp [Listen, hl, hd] at h
      | recv =>
        cases hr : s.b.ch.recv with
        | none => simp [Listen, hl, hr] at h
        | some r => simp [Listen, hl, hr, fanOut_eq] at h
  · intro l
    cases l
    · exact Or.inl rfl
    · exact Or.inr rfl

theorem Listen_stops_for_good_witness :
    ∃ s t, run (System.init [fun _ => none] 1)
        [.notify (NewEvent 0 "u" (.ExampleCreated { Id := "A" })), .listen .recv, .signal,
         .listen .done] = .ok s
      ∧ run s [.notify (NewEvent 1 "u" (.ExampleDeleted { Id := "A" })), .listen .recv,
          .drain, .drain] = .ok t
      ∧ t.listen = .Stopped ∧ t.received = s.received ∧ t.started = s.started := by
  obtain ⟨⟨s, t, hs, ht, h⟩, -⟩ :=
    Listen_stops_for_good [fun _ => none] 1
      [.notify (NewEvent 0 "u" (.ExampleCreated { Id := "A" })), .listen .recv, .signal,
       .listen .done]
      [.notify (NewEvent 1 "u" (.ExampleDeleted { Id := "A" })), .listen .recv,
       .drain, .drain]
  have h3 : (match run (System.init [fun _ => none] 1)
        [.notify (NewEvent 0 "u" (.ExampleCreated { Id := "A" })), .listen .recv, .signal,
         .listen .done] with
      | .ok t => decide (t.listen = .Stopped)
      | .error _ => false) = true := by decide
  rw [hs] at h3
  obtain ⟨h1, h2, h4, -⟩ := h (of_decide_eq_true h3)
  exact ⟨s, t, hs, ht, h1, h2, h4⟩

end bus

/-! ## Admin responses -/

namespace adminservice

open pkgexample events

/-- C21: the admin response of an example is a function of its `Id` and `UserId` only: two
examples that agree on these two fields, whatever their messages, give the same
`GetExampleResponse`; changing the message of an example does not change its response; and
two lists of examples that agree element by element on `Id` and `UserId` give the same
`ListExampleResponse`. -/
theorem admin_responses_independent_of_Message (e1 e2 : Example)
    (hId : e1.Id = e2.Id) (hUser : e1.UserId = e2.UserId) :
    NewGetExampleResponseFromExample e1 = NewGetExampleResponseFromExample e2
    ∧ (∀ m : String,
        NewGetExampleResponseFromExample { e1 with Message := m }
          = NewGetExampleResponseFromExample e1)
    ∧ (∀ l1 l2 : Slice Example,
        List.Forall₂ (fun a b : Example => a.Id = b.Id ∧ a.UserId = b.UserId)
          (Slice.elems l1) (Slice.elems l2) →
        NewListExampleResponseFromExamples l1 = NewListExampleResponseFromExamples l2) := by
  refine ⟨?_, fun m => rfl, ?_⟩
  · simp [NewGetExampleResponseFromExample, hId, hUser]
  · intro l1 l2 h
    have aux : ∀ a b : List Example,
        List.Forall₂ (fun a b : Example => a.Id = b.Id ∧ a.UserId = b.UserId) a b →
        a.map NewGetExampleResponseFromExample = b.map NewGetExampleResponseFromExample := by
      intro a b hab
      induction hab with
      | nil => rfl
      | cons hxy _ ih =>
        simp only [List.map_cons, ih]
        simp [NewGetExampleResponseFromExample, hxy.1, hxy.2]
    simp [NewListExampleResponseFromExamples, aux _ _ h]

theorem admin_responses_independent_of_Message_witness :
    NewGetExampleResponseFromExample { UserId := "u", Id := "a", Message := "secret" }
      = NewGetExampleResponseFromExample { UserId := "u", Id := "a", Message := "other" }
    ∧ NewListExampleResponseFromExamples
        (some [{ UserId := "u", Id := "a", Message := "secret" }])
      = NewListExampleResponseFromExamples
        (some [{ UserId := "u", Id := "a", Message := "other" }]) := by
  obtain ⟨h1, -, h3⟩ :=
    admin_responses_independent_of_Message
      { UserId := "u", Id := "a", Message := "secret" }
      { UserId := "u", Id := "a", Message := "other" } rfl rfl
  exact ⟨h1, h3 _ _ (List.Forall₂.cons ⟨rfl, rfl⟩ List.Forall₂.nil)⟩

/-- C29: when the call of the user store fails (with the limit and the page in range),
`Service.ListUsers` returns the empty list and a nil error, while `GetExamplesForUser`,
`GetEventsForItem`, `GetEventsForUser` and `GetByEventAndUser` return a non-nil error when
their store call fails. -/
theorem Service_ListUsers_reports_store_failure_as_success {υ ε α : Type}
    (U : UserStorer υ) (E : ExampleStorer ε) (A : AuditStorer α) (s : Service υ ε α)
    (limit page : Int) (hl : limit ≤ 50) (hp : 1 ≤ page) :
    (∀ st x err, U.List s.UserStore limit page = (st, (x, some err)) →
      (Service.ListUsers U s limit page).2 = (some [], none))
    ∧ (∀ id st x err, E.GetForUser s.ExampleStore id limit page = (st, (x, some err)) →
      (Service.GetExamplesForUser E s id limit page).2 = (none, some err))
    ∧ (∀ id st x err, A.GetEventsForItem s.AuditStore id limit page = (st, (x, some err)) →
      (Service.GetEventsForItem A s id limit page).2 = (none, some storeError))
    ∧ (∀ id st x err, A.GetEventsForUser s.AuditStore id limit page = (st, (x, some err)) →
      (Service.GetEventsForUser A s id limit page).2 = (none, some storeError))
    ∧ (∀ id name st x err,
      A.GetByEventAndUser s.AuditStore id name limit page = (st, (x, some err)) →
      (Service.GetByEventAndUser A s id name limit page).2 = (none, some storeError)) := by
  have h1 : ¬ limit > 50 := by omega
  have h2 : ¬ page < 1 := by omega
  refine ⟨?_, ?_, ?_, ?_, ?_⟩
  · intro st x err h
    simp [Service.ListUsers, h1, h2, h]
  · intro id st x err h
    simp [Service.GetExamplesForUser, h1, h2, h]
  · intro id st x err h
    simp [Service.GetEventsForItem, h1, h2, h]
  · intro id st x err h
    simp [Service.GetEventsForUser, h1, h2, h]
  · intro id name st x err h
    simp [Service.GetByEventAndUser, h1, h2, h]

theorem Service_ListUsers_reports_store_failure_as_success_witness :
    (Service.ListUsers
      { Add := userMemoryStore.Add
        Get := userMemoryStore.Get
        List := fun st _ _ => (st, (none, some (.dynamic "connection refused")))
        Delete := userMemoryStore.Delete }
      { UserStore := newInMemoryUserStore
        ExampleStore := newInMemoryExampleStore (fun _ => "id")
        AuditStore := newInMemoryAuditLogStore
        Bus := bus.NewFake } 10 1).2 = (some [], none) :=
  (Service_ListUsers_reports_store_failure_as_success
    { Add := userMemoryStore.Add
      Get := userMemoryStore.Get
      List := fun st _ _ => (st, (none, some (.dynamic "connection refused")))
      Delete := userMemoryStore.Delete }
    exampleMemoryStorer auditLogMemoryStorer
    { UserStore := newInMemoryUserStore
      ExampleStore := newInMemoryExampleStore (fun _ => "id")
      AuditStore := newInMemoryAuditLogStore
      Bus := bus.NewFake } 10 1 (by decide) (by decide)).1
    newInMemoryUserStore none (.dynamic "connection refused") rfl

end adminservice

/-! ## The cache conditions -/

namespace cache

/-- C26: on every cache, in every state and for every key and value, `NoneMatch.Met` and
`Match.Met` give the same answer, and the answer is `true` exactly when `Get` finds the key
with the value as its tag.  On the in-memory cache this is: the map holds the key with that
tag; both answer `false` for an absent key and for a key held with another tag. -/
theorem NoneMatch_Met_eq_Match_Met {κ : Type} (C : Cacher κ) (c : κ) (key val : String) :
    NoneMatch.Met C c key val = Match.Met C c key val
    ∧ (Match.Met C c key val = true ↔ C.Get c key = (val, true))
    ∧ (NoneMatch.Met C c key val = true ↔ C.Get c key = (val, true))
    ∧ (∀ (md5 : List Nat → List Nat) (m : InMemoryCache),
        (Match.Met (InMemoryCacher md5) m key val = true ↔ GoMap.get m.items key = some val)
        ∧ (NoneMatch.Met (InMemoryCacher md5) m key val = true
            ↔ GoMap.get m.items key = some val)
        ∧ (GoMap.get m.items key = none →
            Match.Met (InMemoryCacher md5) m key val = false
            ∧ NoneMatch.Met (InMemoryCacher md5) m key val = false)
        ∧ (∀ tag, GoMap.get m.items key = some tag → tag ≠ val →
            Match.Met (InMemoryCacher md5) m key val = false
            ∧ NoneMatch.Met (InMemoryCacher md5) m key val = false)) := by
  have hM : ∀ {κ : Type} (C : Cacher κ) (c : κ),
      (Match.Met C c key val = true ↔ C.Get c key = (val, true)) := by
    intro κ C c
    unfold Match.Met
    cases h : C.Get c key with
    | mk v ok =>
      cases ok
      · simp
      · simp
        exact eq_comm
  have hN : ∀ {κ : Type} (C : Cacher κ) (c : κ),
      (NoneMatch.Met C c key val = true ↔ C.Get c key = (val, true)) := by
    intro κ C c
    unfold NoneMatch.Met
    cases h : C.Get c key with
    | mk v ok =>
      cases ok
      · simp
      · simp
  have hG : ∀ (md5 : List Nat → List Nat) (m : InMemoryCache),
      ((InMemoryCacher md5).Get m key = (val, true) ↔ GoMap.get m.items key = some val) := by
    intro md5 m
    simp only [InMemoryCacher, InMemoryCache.Get]
    cases h : GoMap.get m.items key <;> simp
  refine ⟨?_, hM C c, hN C c, ?_⟩
  · have h1 := hM C c
    have h2 := hN C c
    cases hm : Match.Met C c key val <;> cases hn : NoneMatch.Met C c key val <;> simp_all
  · intro md5 m
    have a1 := (hM (InMemoryCacher md5) m).trans (hG md5 m)
    have a2 := (hN (InMemoryCacher md5) m).trans (hG md5 m)
    refine ⟨a1, a2, ?_, ?_⟩
    · intro h
      rw [h] at a1 a2
      simp at a1 a2
      exact ⟨a1, a2⟩
    · intro tag h hne
      rw [h] at a1 a2
      simp [hne] at a1 a2
      exact ⟨a1, a2⟩

theorem NoneMatch_Met_eq_Match_Met_witness :
    NoneMatch.Met (InMemoryCacher (fun b => b)) { items := [("k", "t1")] } "k" "t2" = false
    ∧ Match.Met (InMemoryCacher (fun b => b)) { items := [("k", "t1")] } "k" "t2" = false :=
  let h := (NoneMatch_Met_eq_Match_Met (InMemoryCacher (fun b => b))
    { items := [("k", "t1")] } "k" "t2").2.2.2 (fun b => b) { items := [("k", "t1")] }
  let g := h.2.2.2 "t1" (by decide) (by decide)
  ⟨g.2, g.1⟩

end cache

/-! ## The in-memory example repository: its index, and `Delete` of an id not stored -/

namespace exampleservice

open pkgexample events bus

/-- The filtering loop of `Delete`: the slice it builds holds what it started with and then
the elements whose `Id` is not `i`, in their order. -/
theorem elems_foldl_filter (i : String) (l : List Example) (b : Slice Example) :
    Slice.elems (List.foldl (fun b x => if x.Id != i then Slice.append b x else b) b l)
      = Slice.elems b ++ l.filter (fun x => x.Id != i) := by
  induction l generalizing b with
  | nil => simp
  | cons x l ih =>
    rw [List.foldl_cons, ih]
    by_cases h : x.Id = i
    · simp [h]
    · simp [h, Slice.append, Slice.elems]

theorem elems_resetLen {α : Type} (s : Slice α) : Slice.elems (Slice.resetLen s) = [] := by
  cases s <;> rfl

theorem indexOf_Add (e : exampleRepository) (item : Example) (u : String) :
    indexOf (e.Add item).1 u =
      if u = item.UserId then indexOf e u ++ [{ item with Id := e.uuid e.calls }]
      else indexOf e u := by
  unfold indexOf exampleRepository.Add
  by_cases hu : u = item.UserId
  · subst hu
    cases h : GoMap.get e.byUserIndex item.UserId with
    | none => simp [h, GoMap.get_set_self, Slice.elems]
    | some sl => simp [h, GoMap.get_set_self, Slice.elems, Slice.append]
  · cases h : GoMap.get e.byUserIndex item.UserId with
    | none => simp [h, hu, GoMap.get_set_other _ _ _ _ hu]
    | some sl => simp [h, hu, GoMap.get_set_other _ _ _ _ hu]

theorem indexOf_Delete (e : exampleRepository) (i u : String) :
    indexOf (e.Delete i).1 u =
      if u = ((GoMap.get e.items i).getD pkgexample.Nil).UserId then
        (indexOf e u).filter (fun x => x.Id != i)
      else indexOf e u := by
  unfold indexOf exampleRepository.Delete
  by_cases hu : u = ((GoMap.get e.items i).getD pkgexample.Nil).UserId
  · rw [if_pos hu]
    simp only []
    rw [← hu, GoMap.get_set_self]
    simp only [Option.getD_some]
    rw [elems_foldl_filter, elems_resetLen, List.nil_append]
  · rw [if_neg hu]
    simp only []
    rw [GoMap.get_set_other _ _ _ _ hu]

theorem IndexConsistent_New (uuid : Nat → String) :
    IndexConsistent (NewInMemoryExampleRepository uuid) := by
  intro u x
  simp [indexOf, NewInMemoryExampleRepository, GoMap.get, Slice.elems]

/-- The method `Add` keeps the index consistent when the generated id is not yet a key of
the map of items. -/
theorem IndexConsistent_Add (e : exampleRepository) (item : Example)
    (hfresh : GoMap.get e.items (e.uuid e.calls) = none) (h : IndexConsistent e) :
    IndexConsistent (e.Add item).1 := by
  intro u x
  rw [indexOf_Add]
  have hitems : (e.Add item).1.items
      = GoMap.set e.items (e.uuid e.calls) { item with Id := e.uuid e.calls } := by
    simp [exampleRepository.Add]
  rw [hitems]
  by_cases hx : x.Id = e.uuid e.calls
  · rw [hx, GoMap.get_set_self]
    have hnot : ∀ v, x ∉ indexOf e v := by
      intro v hv
      have := ((h v x).mp hv).1
      rw [hx, hfresh] at this
      cases this
    by_cases hu : u = item.UserId
    · rw [if_pos hu]
      simp only [List.mem_append, List.mem_singleton, hnot u, false_or, Option.some.injEq]
      constructor
      · intro hxe
        subst hxe
        exact ⟨rfl, hu.symm⟩
      · intro hxe
        exact hxe.1.symm
    · rw [if_neg hu]
      simp only [hnot u, Option.some.injEq, false_iff, not_and]
      intro hxe hxu
      apply hu
      rw [← hxu, ← hxe]
  · rw [GoMap.get_set_other _ _ _ _ hx]
    by_cases hu : u = item.UserId
    · rw [if_pos hu]
      simp only [List.mem_append, List.mem_singleton]
      rw [h u x]
      constructor
      · rintro (hl | hr)
        · exact hl
        · exfalso
          apply hx
          rw [hr]
      · intro hl
        exact Or.inl hl
    · rw [if_neg hu]
      exact h u x

/-- The method `Delete` keeps the index consistent. -/
theorem IndexConsistent_Delete (e : exampleRepository) (i : String)
    (h : IndexConsistent e) : IndexConsistent (e.Delete i).1 := by
  intro u x
  rw [indexOf_Delete]
  have hitems : (e.Delete i).1.items = GoMap.delete e.items i := by
    simp [exampleRepository.Delete]
  rw [hitems]
  by_cases hx : x.Id = i
  · rw [hx, GoMap.get_delete_self]
    by_cases hu : u = ((GoMap.get e.items i).getD pkgexample.Nil).UserId
    · rw [if_pos hu]
      simp [hx]
    · rw [if_neg hu, h u x]
      constructor
      · rintro ⟨hg, hxu⟩
        exfalso
        apply hu
        rw [hx] at hg
        rw [hg, ← hxu]
        rfl
      · rintro ⟨hn, -⟩
        cases hn
  · rw [GoMap.get_delete_other _ _ _ hx]
    by_cases hu : u = ((GoMap.get e.items i).getD pkgexample.Nil).UserId
    · rw [if_pos hu]
      simp only [List.mem_filter, bne_iff_ne, ne_eq, hx, not_false_eq_true, and_true]
      exact h u x
    · rw [if_neg hu]
      exact h u x

/-- C25: the methods `Add` (when the generated id is new) and `Delete` keep the index of the
in-memory repository consistent with its map of items, and `Update` does not: it writes the
map and leaves `byUserIndex` as it is.  On a new repository, after `Add` of an item of user
"u" with the message "Hi" the index is consistent; after `Update` of that item to the
message "Bye" it is not: `List("u")` returns the item with the message "Hi" and `Get` of
its id returns it with the message "Bye". -/
theorem exampleRepository_Update_leaves_index_stale (uuid : Nat → String) :
    (∀ (e : exampleRepository) (item : Example),
      GoMap.get e.items (e.uuid e.calls) = none → IndexConsistent e →
      IndexConsistent (e.Add item).1)
    ∧ (∀ (e : exampleRepository) (i : String),
      IndexConsistent e → IndexConsistent (e.Delete i).1)
    ∧ (∀ (e : exampleRepository) (item : Example),
      (e.Update item).1.byUserIndex = e.byUserIndex)
    ∧ IndexConsistent
        ((NewInMemoryExampleRepository uuid).Add
          { UserId := "u", Id := "", Message := "Hi" }).1
    ∧ ¬ IndexConsistent
        ((((NewInMemoryExampleRepository uuid).Add
          { UserId := "u", Id := "", Message := "Hi" }).1).Update
          { UserId := "u", Id := uuid 0, Message := "Bye" }).1
    ∧ (exampleRepository.List
        ((((NewInMemoryExampleRepository uuid).Add
          { UserId := "u", Id := "", Message := "Hi" }).1).Update
          { UserId := "u", Id := uuid 0, Message := "Bye" }).1 "u" 10 1).2
        = (some [{ UserId := "u", Id := uuid 0, Message := "Hi" }], none)
    ∧ (exampleRepository.Get
        ((((NewInMemoryExampleRepository uuid).Add
          { UserId := "u", Id := "", Message := "Hi" }).1).Update
          { UserId := "u", Id := uuid 0, Message := "Bye" }).1 (uuid 0)).2
        = ({ UserId := "u", Id := uuid 0, Message := "Bye" }, none) := by
  refine ⟨IndexConsistent_Add, IndexConsistent_Delete, fun e item => rfl, ?_, ?_, ?_, ?_⟩
  · exact IndexConsistent_Add _ _ rfl (IndexConsistent_New uuid)
  · intro h
    have h1 := (h "u" { UserId := "u", Id := uuid 0, Message := "Hi" }).mp
      (by simp [indexOf, exampleRepository.Update, exampleRepository.Add,
            NewInMemoryExampleRepository, GoMap.get, GoMap.set, Slice.elems])
    simp [exampleRepository.Update, exampleRepository.Add, NewInMemoryExampleRepository,
      GoMap.get, GoMap.set] at h1
  · simp [exampleRepository.List, exampleRepository.Update, exampleRepository.Add,
      NewInMemoryExampleRepository, GoMap.get, GoMap.set]
  · simp [exampleRepository.Get, exampleRepository.Update, exampleRepository.Add,
      NewInMemoryExampleRepository, GoMap.get, GoMap.set]

theorem exampleRepository_Update_leaves_index_stale_witness :
    IndexConsistent
      ((NewInMemoryExampleRepository (fun _ => "id0")).Add
        { UserId := "u", Id := "", Message := "Hi" }).1
    ∧ IndexConsistent
      ((((NewInMemoryExampleRepository (fun _ => "id0")).Add
        { UserId := "u", Id := "", Message := "Hi" }).1).Delete "id0").1 :=
  let h := exampleRepository_Update_leaves_index_stale (fun _ => "id0")
  ⟨h.2.2.2.1, h.2.1 _ "id0" h.2.2.2.1⟩

/-- C27: on the in-memory repository, `Service.Delete` of an id that is not stored returns a
nil error and records the `ExampleDeleted` event of that id on the bus: the method `Delete` of
the repository returns nil for every id.  `Get` of the same repository returns its not-found
error for that id, and so does `Delete` of the in-memory example store of the admin service. -/
theorem Service_Delete_of_unstored_id_succeeds (now : Int) (e : Service exampleRepository)
    (userId id : String) (h : GoMap.get e.Store.items id = none) :
    (Service.Delete exampleRepositoryStorer now e userId id).2 = none
    ∧ (Service.Delete exampleRepositoryStorer now e userId id).1.Bus.Messages
        = e.Bus.Messages ++ [NewEvent now userId (.ExampleDeleted { Id := id })]
    ∧ (∀ i : String, (exampleRepository.Delete e.Store i).2 = none)
    ∧ (exampleRepository.Get e.Store id).2 = (pkgexample.Nil, some notFoundError)
    ∧ (Service.Get exampleRepositoryStorer e id).2
        = (pkgexample.Nil, some repositoryNotFoundError)
    ∧ (∀ a : adminservice.exampleMemoryStore, GoMap.get a.items id = none →
        (a.Delete id).2 = some adminservice.exampleNotFoundError) := by
  refine ⟨(Delete_repo now e userId id).1, ?_, fun i => rfl, ?_,
    (Get_repo e id).2.2 h, ?_⟩
  · simp [Service.Delete, exampleRepositoryStorer, exampleRepository.Delete, FakeBus.Notify]
  · simp [exampleRepository.Get, h]
  · intro a ha
    simp [adminservice.exampleMemoryStore.Delete, ha]

theorem Service_Delete_of_unstored_id_succeeds_witness :
    (Service.Delete exampleRepositoryStorer 7
      { Store := NewInMemoryExampleRepository (fun _ => "id0"), Bus := NewFake }
      "u" "missing").2 = none
    ∧ (Service.Delete exampleRepositoryStorer 7
      { Store := NewInMemoryExampleRepository (fun _ => "id0"), Bus := NewFake }
      "u" "missing").1.Bus.Messages
        = [NewEvent 7 "u" (.ExampleDeleted { Id := "missing" })] :=
  let h := Service_Delete_of_unstored_id_succeeds 7
    { Store := NewInMemoryExampleRepository (fun _ => "id0"), Bus := NewFake }
    "u" "missing" rfl
  ⟨h.1, h.2.1⟩

end exampleservice

/-! ## The handler `GetEventsForUser` of the admin service -/

namespace adminservice

open events

/-- C28: for a request with a non-empty id whose pagination parameters are accepted, when
the service call returns an error the handler `GetEventsForUser` panics with a nil pointer
dereference before it has written anything: it builds its log record from `err.Error()`
with the nil `err` left by `GetPaginationParameters`.  The handler `GetEventsForItem`, on a
request for which its service call returns an error, does not panic and writes the 500
response. -/
theorem Controller_GetEventsForUser_panics_on_service_error {υ ε α : Type}
    (A : AuditStorer α) (marshal : ListEventResponse → Slice Nat × Option GoError)
    (CalculateContentDigest : List Nat → String) (c : Service υ ε α)
    (w : responses.ResponseWriter) (r : requests.Request) (limit page : Int)
    (hid : r.PathValue pathValId ≠ "")
    (hpag : requests.GetPaginationParameters r.Query = (limit, page, none))
    (hsvc : (if r.Query.Get "eventName" == "" then
        Service.GetEventsForUser A c (r.PathValue pathValId) limit page
      else
        Service.GetByEventAndUser A c (r.PathValue pathValId) (r.Query.Get "eventName")
          limit page).2.2 ≠ none) :
    (Controller.GetEventsForUser A marshal CalculateContentDigest c w r).panicValue
        = some "runtime error: invalid memory address or nil pointer dereference"
    ∧ (Controller.GetEventsForUser A marshal CalculateContentDigest c w r).w = w
    ∧ ((Service.GetEventsForItem A c (r.PathValue pathValId) limit page).2.2 ≠ none →
        (Controller.GetEventsForItem A marshal CalculateContentDigest c w r).panicValue = none
        ∧ (Controller.GetEventsForItem A marshal CalculateContentDigest c w r).w
            = responses.WriteInternalServerErrorResponse w) := by
  have h1 : requests.LoadPathValue r pathValId = (r.PathValue pathValId, none) := by
    simp [requests.LoadPathValue, hid]
  refine ⟨?_, ?_, ?_⟩
  · unfold Controller.GetEventsForUser
    simp only [h1, hpag]
    generalize (if r.Query.Get "eventName" == "" then
        Service.GetEventsForUser A c (r.PathValue pathValId) limit page
      else
        Service.GetByEventAndUser A c (r.PathValue pathValId) (r.Query.Get "eventName")
          limit page) = res at hsvc ⊢
    obtain ⟨c1, data, svcErr⟩ := res
    cases svcErr with
    | none => exact absurd rfl hsvc
    | some e => simp [callError]
  · unfold Controller.GetEventsForUser
    simp only [h1, hpag]
    generalize (if r.Query.Get "eventName" == "" then
        Service.GetEventsForUser A c (r.PathValue pathValId) limit page
      else
        Service.GetByEventAndUser A c (r.PathValue pathValId) (r.Query.Get "eventName")
          limit page) = res at hsvc ⊢
    obtain ⟨c1, data, svcErr⟩ := res
    cases svcErr with
    | none => exact absurd rfl hsvc
    | some e => simp [callError]
  · intro hitem
    unfold Controller.GetEventsForItem
    simp only [h1, hpag]
    generalize Service.GetEventsForItem A c (r.PathValue pathValId) limit page = res
      at hitem ⊢
    obtain ⟨c1, data, err⟩ := res
    cases err with
    | none => exact absurd rfl hitem
    | some e => simp [callError]

theorem Controller_GetEventsForUser_panics_on_service_error_witness :
    (Controller.GetEventsForUser auditLogMemoryStorer (fun _ => (some [], none))
      (fun _ => "")
      { UserStore := newInMemoryUserStore
        ExampleStore := newInMemoryExampleStore (fun _ => "id")
        AuditStore := newInMemoryAuditLogStore
        Bus := bus.NewFake }
      responses.ResponseWriter.new
      { PathValues := [("id", "u1")], Query := [("limit", ["51"])] }).panicValue
        = some "runtime error: invalid memory address or nil pointer dereference"
    ∧ (Controller.GetEventsForUser auditLogMemoryStorer (fun _ => (some [], none))
      (fun _ => "")
      { UserStore := newInMemoryUserStore
        ExampleStore := newInMemoryExampleStore (fun _ => "id")
        AuditStore := newInMemoryAuditLogStore
        Bus := bus.NewFake }
      responses.ResponseWriter.new
      { PathValues := [("id", "u1")], Query := [("limit", ["51"])] }).w
        = responses.ResponseWriter.new :=
  let h := Controller_GetEventsForUser_panics_on_service_error auditLogMemoryStorer
    (fun _ => (some [], none)) (fun _ => "")
    { UserStore := newInMemoryUserStore
      ExampleStore := newInMemoryExampleStore (fun _ => "id")
      AuditStore := newInMemoryAuditLogStore
      Bus := bus.NewFake }
    responses.ResponseWriter.new
    { PathValues := [("id", "u1")], Query := [("limit", ["51"])] } 51 1
    (by decide) (by decide) (by decide)
  ⟨h.1, h.2.1⟩

end adminservice

/-! ## Configuration -/

namespace config

theorem loop_fails_iff (w : World) (sources : List Configurator) (errs : List GoError) :
    (First.loop w sources errs).2 ≠ none ↔ ∀ s ∈ sources, (s.Get w).2 ≠ none := by
  induction sources generalizing errs with
  | nil => simp [First.loop]
  | cons s rest ih =>
    unfold First.loop
    cases h : s.Get w with
    | mk v err =>
      cases err with
      | none => simp [h]
      | some e => simp [h, ih]

theorem loop_fails_value (w : World) (sources : List Configurator) (errs : List GoError)
    (hall : ∀ s ∈ sources, (s.Get w).2 ≠ none) :
    (First.loop w sources errs).1 = EMPTY_STRING := by
  induction sources generalizing errs with
  | nil => simp [First.loop]
  | cons s rest ih =>
    unfold First.loop
    cases h : s.Get w with
    | mk v err =>
      cases err with
      | none => exact absurd (by rw [h]) (hall s (List.mem_cons_self _ _))
      | some e =>
        simp only []
        exact ih _ (fun t ht => hall t (List.mem_cons_of_mem _ ht))

theorem loop_earliest (w : World) (sources : List Configurator) (errs : List GoError)
    (i : Nat) (s : Configurator) (hs : sources[i]? = some s) (hok : (s.Get w).2 = none)
    (hbefore : ∀ j t, j < i → sources[j]? = some t → (t.Get w).2 ≠ none) :
    First.loop w sources errs = ((s.Get w).1, none) := by
  induction sources generalizing errs i with
  | nil => simp at hs
  | cons a rest ih =>
    unfold First.loop
    cases i with
    | zero =>
      simp only [List.getElem?_cons_zero, Option.some.injEq] at hs
      subst hs
      cases h : a.Get w with
      | mk v err =>
        rw [h] at hok
        simp only at hok
        subst hok
        rfl
    | succ k =>
      simp only [List.getElem?_cons_succ] at hs
      have ha : (a.Get w).2 ≠ none := hbefore 0 a (Nat.succ_pos k) (by simp)
      cases h : a.Get w with
      | mk v err =>
        cases err with
        | none => exact absurd (by rw [h]) ha
        | some e =>
          simp only []
          exact ih _ k hs (fun j t hj ht => hbefore (j + 1) t (Nat.succ_lt_succ hj) (by simpa using ht))

/-- C30: `First.Get` returns the value of the earliest source, in the order of construction,
whose `Get` succeeds, with a nil error; it fails exactly when every source fails, as it does
on the empty list of sources, and then returns the empty string.  A `First` whose last source
is a `DefaultValueSource` of `v` never fails, returns `v` when every earlier source fails,
and its `Must` returns without a panic. -/
theorem First_Get_returns_earliest_success (w : World) (sources : List Configurator) :
    (∀ (i : Nat) (s : Configurator), sources[i]? = some s → (s.Get w).2 = none →
      (∀ j t, j < i → sources[j]? = some t → (t.Get w).2 ≠ none) →
      (NewFirst sources).Get w = ((s.Get w).1, none))
    ∧ (((NewFirst sources).Get w).2 ≠ none ↔ ∀ s ∈ sources, (s.Get w).2 ≠ none)
    ∧ ((∀ s ∈ sources, (s.Get w).2 ≠ none) → ((NewFirst sources).Get w).1 = EMPTY_STRING)
    ∧ ((NewFirst []).Get w).2 ≠ none
    ∧ (∀ v : String,
        ((NewFirst (sources ++ [(NewDefaultValueSource v).Configurator])).Get w).2 = none
        ∧ ((∀ s ∈ sources, (s.Get w).2 ≠ none) →
            (NewFirst (sources ++ [(NewDefaultValueSource v).Configurator])).Get w
              = (v, none))
        ∧ (NewFirst (sources ++ [(NewDefaultValueSource v).Configurator])).Must w
            = .ok ((NewFirst (sources ++ [(NewDefaultValueSource v).Configurator])).Get w).1)
      := by
  refine ⟨?_, loop_fails_iff w sources [], loop_fails_value w sources [], ?_, ?_⟩
  · intro i s hs hok hbefore
    exact loop_earliest w sources [] i s hs hok hbefore
  · simp [NewFirst, First.Get, First.loop]
  · intro v
    have hd : ((NewDefaultValueSource v).Configurator.Get w) = (v, none) := rfl
    have hnone : ((NewFirst (sources ++ [(NewDefaultValueSource v).Configurator])).Get w).2
        = none := by
      by_contra hne
      have := (loop_fails_iff w (sources ++ [(NewDefaultValueSource v).Configurator]) []).mp
        hne (NewDefaultValueSource v).Configurator (by simp)
      rw [hd] at this
      exact this rfl
    refine ⟨hnone, ?_, ?_⟩
    · intro hall
      have := loop_earliest w (sources ++ [(NewDefaultValueSource v).Configurator]) []
        sources.length (NewDefaultValueSource v).Configurator (by simp) (by rw [hd])
        (by
          intro j t hj ht
          rw [List.getElem?_append_left hj] at ht
          exact hall t (List.getElem?_mem ht))
      rw [hd] at this
      exact this
    · unfold First.Must
      cases h : (NewFirst (sources ++ [(NewDefaultValueSource v).Configurator])).Get w with
      | mk x err =>
        rw [h] at hnone
        simp only at hnone
        subst hnone
        rfl

theorem First_Get_returns_earliest_success_witness :
    (NewFirst [(NewEnvironmentSource "PORT").Configurator,
        (NewDefaultValueSource "8080").Configurator]).Get
      { env := [], http := fun _ => ("", some (.dynamic "no network")) } = ("8080", none)
    ∧ (NewFirst [(NewEnvironmentSource "PORT").Configurator,
        (NewDefaultValueSource "8080").Configurator]).Get
      { env := [("PORT", "9000")], http := fun _ => ("", some (.dynamic "no network")) }
        = ("9000", none) :=
  ⟨((First_Get_returns_earliest_success
      { env := [], http := fun _ => ("", some (.dynamic "no network")) }
      [(NewEnvironmentSource "PORT").Configurator]).2.2.2.2 "8080").2.1
      (by
        intro s hs
        rw [List.mem_singleton] at hs
        subst hs
        decide),
   (First_Get_returns_earliest_success
      { env := [("PORT", "9000")], http := fun _ => ("", some (.dynamic "no network")) }
      [(NewEnvironmentSource "PORT").Configurator,
        (NewDefaultValueSource "8080").Configurator]).1 0
      (NewEnvironmentSource "PORT").Configurator rfl (by decide)
      (fun j t hj _ => absurd hj (Nat.not_lt_zero j))⟩

end config

/-! ## The bus: the invocations started are the goroutines spawned -/

namespace bus

open events

theorem perm_eraseIdx {α : Type} (l : List α) (i : Nat) (x : α) (h : l[i]? = some x) :
    List.Perm l (x :: l.eraseIdx i) := by
  induction l generalizing i with
  | nil => simp at h
  | cons a l ih =>
    cases i with
    | zero =>
      simp only [List.getElem?_cons_zero, Option.some.injEq] at h
      subst h
      exact List.Perm.refl _
    | succ k =>
      simp only [List.getElem?_cons_succ] at h
      simp only [List.eraseIdx_cons_succ]
      exact ((ih k h).cons a).trans (List.Perm.swap x a _)

/-- The ledger of invocations: every invocation started is a live goroutine or a finished
one, and what a finished one has recorded is the result of the call of its subscriber on
its event. -/
theorem ledger_step (subscribers : Subscribers) (s t : System) (a : Action)
    (hI : Inv subscribers s) (h : step s a = .ok t)
    (hA : List.Perm s.started (s.goroutines ++ s.outcomes.map Prod.fst)
      ∧ ∀ p ∈ s.outcomes, p.2 = (s.b.subscribers.getD p.1.sub (fun _ => none)) p.1.v) :
    List.Perm t.started (t.goroutines ++ t.outcomes.map Prod.fst)
      ∧ ∀ p ∈ t.outcomes, p.2 = (t.b.subscribers.getD p.1.sub (fun _ => none)) p.1.v := by
  cases a with
  | notify e =>
    simp only [step] at h
    rcases Notify_eq subscribers e s hI with ⟨-, hn⟩ | ⟨-, hn⟩ <;>
    · rw [hn] at h
      cases h
      exact hA
  | signal =>
    simp only [step, signal] at h
    split at h <;>
    · cases h
      exact hA
  | listen c =>
    simp only [step] at h
    cases h
    rcases Listen_eq subscribers c s hI with hl | ⟨-, -, -, hl⟩ | ⟨-, -, v, ch, woken, hl⟩
    · rw [hl]; exact hA
    · rw [hl]; exact hA
    · rw [hl]
      refine ⟨?_, hA.2⟩
      show List.Perm (s.started ++ invocationsOf s.b.subscribers.length v)
        ((s.goroutines ++ invocationsOf s.b.subscribers.length v)
          ++ s.outcomes.map Prod.fst)
      rw [List.append_assoc]
      refine (hA.1.append_right _).trans ?_
      rw [List.append_assoc]
      exact List.Perm.append_left _ List.perm_append_comm
  | finish i =>
    rcases finish_eq subscribers i s hI with ⟨-, hf⟩ | ⟨g, hg, hf⟩
    · simp only [step, hf] at h
      cases h
      exact hA
    · simp only [step, hf] at h
      cases h
      constructor
      · show List.Perm s.started (s.goroutines.eraseIdx i
          ++ (s.outcomes ++ [(g, (s.b.subscribers.getD g.sub (fun _ => none)) g.v)]).map
            Prod.fst)
        simp only [List.map_append, List.map_cons, List.map_nil]
        refine hA.1.trans ?_
        refine ((perm_eraseIdx s.goroutines i g hg).append_right _).trans ?_
        simp only [List.cons_append]
        refine (List.perm_middle.symm).trans ?_
        exact List.Perm.append_left _ (List.perm_append_singleton g _).symm
      · intro p hp
        rcases List.mem_append.mp hp with hp | hp
        · exact hA.2 p hp
        · rw [List.mem_singleton] at hp
          subst hp
          rfl
  | drain =>
    simp only [step] at h
    rcases CloseAndDrain_eq subscribers s hI with
      ⟨-, hc⟩ | ⟨-, hc⟩ | ⟨-, -, hc⟩ | ⟨-, -, hc⟩ | ⟨-, hc⟩ <;>
    · rw [hc] at h
      cases h
      exact hA
  | waiter =>
    simp only [step, waiter] at h
    split at h
    · cases h; exact hA
    · cases h; exact hA
    · split at h <;>
      · cases h
        exact hA
  | tick =>
    simp only [step] at h
    cases h
    exact hA

theorem ledger_run (subscribers : Subscribers) (as : List Action) (s t : System)
    (hI : Inv subscribers s) (h : run s as = .ok t)
    (hA : List.Perm s.started (s.goroutines ++ s.outcomes.map Prod.fst)
      ∧ ∀ p ∈ s.outcomes, p.2 = (s.b.subscribers.getD p.1.sub (fun _ => none)) p.1.v) :
    List.Perm t.started (t.goroutines ++ t.outcomes.map Prod.fst)
      ∧ ∀ p ∈ t.outcomes, p.2 = (t.b.subscribers.getD p.1.sub (fun _ => none)) p.1.v := by
  induction as generalizing s with
  | nil => cases h; exact hA
  | cons a as ih =>
    simp only [run] at h
    cases hs : step s a with
    | error p => rw [hs] at h; cases h
    | ok u =>
      rw [hs] at h
      exact ih u (Inv_step subscribers s u a hI hs) h
        (ledger_step subscribers s u a hI hs hA)

/-- C1: in every run of a process started with the subscriber list `subscribers`, which
never panics, the invocations started are exactly, for each event that `Listen` received
and in that order, one invocation per position of `subscribers`, each with that event:
each subscriber occurs once per event, no invocation carries another event, and `n` received
events give `n * k` invocations for `k` subscribers.  These invocations are the goroutines
spawned: the live goroutines together with the finished ones are, up to their order, the
invocations of the events received; every live goroutine is at a position of `subscribers`
and its next step is the call of that subscriber on its event, whose result it records; what
every finished one has recorded is the result of that call; and when no goroutine is live the
finished calls are the `n * k` invocations.  The pass of `Listen` that receives `r.v` in any
state spawns the goroutines of `r.v`, one per position, and no other. -/
theorem Listen_fans_out_once_per_subscriber (subscribers : Subscribers) (deadline : Nat)
    (as : List Action) :
    (∃ t, run (System.init subscribers deadline) as = .ok t
      ∧ t.started = t.received.flatMap (invocationsOf subscribers.length)
      ∧ t.started.length = t.received.length * subscribers.length
      ∧ List.Perm (t.goroutines ++ t.outcomes.map Prod.fst)
          (t.received.flatMap (invocationsOf subscribers.length))
      ∧ (∀ p ∈ t.outcomes,
          p.1.sub < subscribers.length
          ∧ p.2 = (subscribers.getD p.1.sub (fun _ => none)) p.1.v)
      ∧ (∀ i g, t.goroutines[i]? = some g →
          g.sub < subscribers.length
          ∧ ∃ u, step t (.finish i) = .ok u
            ∧ u.outcomes = t.outcomes ++ [(g, (subscribers.getD g.sub (fun _ => none)) g.v)]
            ∧ u.goroutines = t.goroutines.eraseIdx i
            ∧ u.started = t.started)
      ∧ (t.goroutines = [] →
          List.Perm (t.outcomes.map Prod.fst)
            (t.received.flatMap (invocationsOf subscribers.length))
          ∧ t.outcomes.length = t.received.length * subscribers.length))
    ∧ (∀ e : Event,
        (∀ i, i < subscribers.length → (invocationsOf subscribers.length e).count ⟨i, e⟩ = 1)
        ∧ (∀ x ∈ invocationsOf subscribers.length e, x.v = e ∧ x.sub < subscribers.length))
    ∧ (∀ (s : System) (r : Recv), s.listen = .Running → s.b.ch.recv = some r →
        (Listen .recv s).started = s.started ++ invocationsOf s.b.subscribers.length r.v
        ∧ (Listen .recv s).received = s.received ++ [r.v]
        ∧ (Listen .recv s).b.wg = s.b.wg + s.b.subscribers.length
        ∧ (Listen .recv s).goroutines
            = s.goroutines ++ invocationsOf s.b.subscribers.length r.v
        ∧ (Listen .recv s).outcomes = s.outcomes)
    ∧ (∀ (v : Event) (s : System) (sub : Nat),
        (spawn v s sub).goroutines = s.goroutines ++ [⟨sub, v⟩]
        ∧ (spawn v s sub).started = s.started ++ [⟨sub, v⟩]
        ∧ (spawn v s sub).outcomes = s.outcomes) := by
  refine ⟨?_, ?_, ?_, fun v s sub => ⟨rfl, rfl, rfl⟩⟩
  · obtain ⟨t, ht, hI⟩ := run_init_Inv subscribers deadline as
    obtain ⟨hP, hO⟩ := ledger_run subscribers as _ t (Inv_init subscribers deadline) ht
      ⟨List.Perm.refl _, fun p hp => by cases hp⟩
    have hperm : List.Perm (t.goroutines ++ t.outcomes.map Prod.fst)
        (t.received.flatMap (invocationsOf subscribers.length)) := by
      rw [← hI.started_eq]
      exact hP.symm
    have hsub : ∀ g, g ∈ t.goroutines ++ t.outcomes.map Prod.fst →
        g.sub < subscribers.length := by
      intro g hg
      have hm := hperm.subset hg
      rcases List.mem_flatMap.mp hm with ⟨e, -, he⟩
      exact (invocationsOf_mem _ e g he).2
    refine ⟨t, ht, hI.started_eq, ?_, hperm, ?_, ?_, ?_⟩
    · rw [hI.started_eq, length_flatMap_invocationsOf]
    · intro p hp
      refine ⟨hsub p.1 (List.mem_append_right _ (List.mem_map_of_mem Prod.fst hp)), ?_⟩
      have := hO p hp
      rw [hI.subs_eq] at this
      exact this
    · intro i g hg
      refine ⟨hsub g (List.mem_append_left _ (List.getElem?_mem hg)), ?_⟩
      rcases finish_eq subscribers i t hI with ⟨hn, -⟩ | ⟨g', hg', hf⟩
      · rw [hn] at hg; cases hg
      · rw [hg'] at hg
        cases hg
        refine ⟨_, hf, ?_, rfl, rfl⟩
        show t.outcomes ++ [(g, (t.b.subscribers.getD g.sub (fun _ => none)) g.v)] = _
        rw [hI.subs_eq]
    · intro hnil
      rw [hnil, List.nil_append] at hperm
      refine ⟨hperm, ?_⟩
      have hl := hperm.length_eq
      rw [List.length_map, length_flatMap_invocationsOf] at hl
      exact hl
  · intro e
    exact ⟨fun i hi => invocationsOf_count _ e i hi, fun x hx => invocationsOf_mem _ e x hx⟩
  · intro s r hl hr
    refine ⟨?_, ?_, ?_, ?_, ?_⟩ <;> simp [Listen, hl, hr, fanOut_eq]

/-- C1 at the scenario of the specification: three events handed to `Listen` with two
subscribers registered start six invocations, and when the six goroutines have run, the six
calls are recorded. -/
theorem Listen_fans_out_once_per_subscriber_witness :
    ∃ t, run (System.init [fun _ => none, fun e => some (.dynamic e.EntityId)] 1)
        [.notify (NewEvent 0 "u" (.ExampleCreated { Id := "A" })), .listen .recv,
         .notify (NewEvent 1 "u" (.ExampleUpdated { Id := "A" })), .listen .recv,
         .notify (NewEvent 2 "u" (.ExampleDeleted { Id := "A" })), .listen .recv,
         .finish 0, .finish 0, .finish 0, .finish 0, .finish 0, .finish 0] = .ok t
      ∧ t.received.length = 3 ∧ t.started.length = 6 ∧ t.outcomes.length = 6 := by
  obtain ⟨⟨t, ht, -, hlen, -, -, -, hdone⟩, -, -, -⟩ :=
    Listen_fans_out_once_per_subscriber [fun _ => none, fun e => some (.dynamic e.EntityId)] 1
      [.notify (NewEvent 0 "u" (.ExampleCreated { Id := "A" })), .listen .recv,
       .notify (NewEvent 1 "u" (.ExampleUpdated { Id := "A" })), .listen .recv,
       .notify (NewEvent 2 "u" (.ExampleDeleted { Id := "A" })), .listen .recv,
       .finish 0, .finish 0, .finish 0, .finish 0, .finish 0, .finish 0]
  have h3 : (match run (System.init [fun _ => none, fun e => some (.dynamic e.EntityId)] 1)
        [.notify (NewEvent 0 "u" (.ExampleCreated { Id := "A" })), .listen .recv,
         .notify (NewEvent 1 "u" (.ExampleUpdated { Id := "A" })), .listen .recv,
         .notify (NewEvent 2 "u" (.ExampleDeleted { Id := "A" })), .listen .recv,
         .finish 0, .finish 0, .finish 0, .finish 0, .finish 0, .finish 0] with
      | .ok t => t.received.length
      | .error _ => 0) = 3 := by decide
  have h5 : (match run (System.init [fun _ => none, fun e => some (.dynamic e.EntityId)] 1)
        [.notify (NewEvent 0 "u" (.ExampleCreated { Id := "A" })), .listen .recv,
         .notify (NewEvent 1 "u" (.ExampleUpdated { Id := "A" })), .listen .recv,
         .notify (NewEvent 2 "u" (.ExampleDeleted { Id := "A" })), .listen .recv,
         .finish 0, .finish 0, .finish 0, .finish 0, .finish 0, .finish 0] with
      | .ok t => decide (t.goroutines = [])
      | .error _ => false) = true := by decide
  rw [ht] at h3 h5
  have h4 : t.received.length = 3 := h3
  have h6 := (hdone (of_decide_eq_true h5)).2
  exact ⟨t, ht, h4, by rw [hlen, h4]; rfl, by rw [h6, h4]; rfl⟩

end bus

end GoApiReference
